import Mathlib

/-!
# libtwili: symbol registry and declaration visitor

A shallow embedding of `src/libtwili` (`definitions.hpp`, `parser.hpp`,
`parser.cpp`, `paramdefinition.cpp`, `methoddefinition.cpp`,
`classdefinition.cpp`, `namespacedefinition.cpp`, `functiondefinition.cpp`).

* `std::string` is `String`, `std::vector` and `std::list` are `List`.
* A pointer into a vector (`ClassContext*`, `InvokableDefinition*`) is the
  position of the element it designates; `nullptr` is `none`.
* Everything the visitor asks libclang about the current cursor is carried by
  a `CursorInfo` value, one per visitor callback.
* `std::logic_error` is the `Except` error of `initialize_type`.
* Where the source dereferences a pointer or an iterator that designates no
  element (undefined behaviour), the model leaves the state unchanged.
* The type engine of `TypeDefinition` (`load_from`, `find_parent_type`,
  `solve_type`) is declared in `definitions.hpp` but its translation unit is
  not among the sources; it is the parameter `TypeEngine`.
* The sources set no language level; they are read as C++17, the lowest level
  they compile at (`std::optional`). This matters for one expression, the
  `!=` on two `ParamDefinition` in `MethodDefinition::operator==`.
-/

namespace Twili

/-! ## Strings -/

/-- Source `std::string::find(needle)` on character lists, searching from the position
`pos` of the original string: the first position at which `needle` occurs, or
`none` for `npos`. -/
def find_chars (needle : List Char) : List Char → Nat → Option Nat
  | [], pos => if needle = [] then some pos else none
  | h :: t, pos =>
    if needle.isPrefixOf (h :: t) then some pos else find_chars needle t (pos + 1)

/-- Source `haystack.find(needle)`: `none` is `std::string::npos`. -/
def std_find (haystack needle : String) : Option Nat :=
  find_chars needle.data haystack.data 0

/-- Source `source.substr(pos)`: the rest of the string from position `pos`. -/
def substr_from (source : String) (pos : Nat) : String :=
  String.mk (source.data.drop pos)

/-- Source `source.substr(0, len)`. -/
def substr_to (source : String) (len : Nat) : String :=
  String.mk (source.data.take len)

/-- Modelled from the spec: `Crails::split` (`crails/utils/split.hpp`, a library
header that is not part of the sources). It yields the non-empty pieces of
`str` between occurrences of the separator `c`, in order. -/
def split (str : String) (c : Char) : List String :=
  ((str.data.splitOn c).filter (fun piece => piece ≠ [])).map String.mk

/-- Modelled from the spec: `Crails::join` (`crails/utils/join.hpp`, a library
header that is not part of the sources): the elements separated by `sep`. -/
def join (parts : List String) (sep : String) : String :=
  String.mk (sep.data.intercalate (parts.map String.data))

/-- Modelled from the spec: `Crails::strip` (`crails/utils/semantics.hpp`, a
library header that is not part of the sources): the string without its
leading and trailing whitespace. -/
def strip (source : String) : String :=
  String.mk
    (((source.data.dropWhile Char.isWhitespace).reverse.dropWhile
      Char.isWhitespace).reverse)

/-! ## libclang values -/

/-- The cursor kinds the visitor distinguishes; `Other` carries the numeric
value of any other `CXCursorKind`. -/
inductive CXCursorKind where
  | TranslationUnit | Namespace | TypedefDecl | EnumDecl | EnumConstantDecl
  | StructDecl | ClassDecl | ClassTemplate | TemplateTypeParameter
  | CXXBaseSpecifier | CXXAccessSpecifier | FunctionTemplate | CXXMethod
  | FieldDecl | VarDecl | Constructor | FunctionDecl | TypeRef | NamespaceRef
  | Other (code : Nat)
  deriving DecidableEq, Repr

/-- The test `kind != 0` of `create_method`: no named kind has value 0. -/
def CXCursorKind.is_zero : CXCursorKind → Bool
  | .Other 0 => true
  | _ => false

/-- Source `CXTypeKind`: `Invalid` is 0, then `Void`, the builtin kinds of the table
`type_to_name`, and `Other` for every remaining kind. -/
inductive CXTypeKind where
  | Invalid | Void | Bool | Char_U | UChar | UShort | UInt | ULong | ULongLong
  | Short | Int | Long | LongLong | Float | Double | LongDouble
  | Other (code : Nat)
  deriving DecidableEq, Repr

/-- Source `CX_CXXAccessSpecifier`. -/
inductive CX_CXXAccessSpecifier where
  | CX_CXXInvalidAccessSpecifier | CX_CXXPublic | CX_CXXProtected | CX_CXXPrivate
  deriving DecidableEq, Repr

/-- Source `CXChildVisitResult`. -/
inductive CXChildVisitResult where
  | CXChildVisit_Break | CXChildVisit_Continue | CXChildVisit_Recurse
  deriving DecidableEq, Repr

/-- A `CXCursor`: its kind and the identity of the node it designates.
`clang_equalCursors` is equality of these values. -/
structure CXCursor where
  kind : CXCursorKind
  handle : Nat
  deriving DecidableEq, Repr

/-- A `CXType` handle: its kind, its spelling (`clang_getTypeSpelling`) and the
identity of the type it designates. -/
structure CXType where
  kind : CXTypeKind
  spelling : String
  handle : Nat
  deriving DecidableEq, Repr

/-- One argument of a function-like cursor: `clang_getArgType(type, i)` and
what `clang_Cursor_getArgument(cursor, i)` reports (kind, spelling, type). -/
structure Argument where
  arg_type : CXType
  cursor_kind : CXCursorKind
  cursor_spelling : String
  cursor_type : CXType
  deriving DecidableEq, Repr

/-- Everything the visitor reads from libclang about the current cursor. -/
structure CursorInfo where
  /-- the cursor itself (`parser->cursor`) -/
  cursor : CXCursor
  /-- Source `clang_getCursorSpelling(cursor)` -/
  spelling : String
  /-- Source `get_current_path()`: real path of the file of the cursor -/
  path : String
  /-- Source `clang_getCursorType(cursor)` -/
  cursor_type : CXType
  /-- Source `clang_getResultType(clang_getCursorType(cursor))` -/
  result_type : CXType
  /-- Source `clang_getArgType` / `clang_Cursor_getArgument` for i = 0, 1, ...;
  past the end of the list the argument type is invalid -/
  arguments : List Argument
  /-- Source `clang_getTypedefDeclUnderlyingType(cursor)` -/
  underlying_type : CXType
  /-- Source `clang_CXXMethod_isStatic(cursor)` -/
  is_static : Bool
  /-- Source `clang_CXXMethod_isVirtual(cursor)` -/
  is_virtual : Bool
  /-- Source `clang_CXXMethod_isPureVirtual(cursor)` -/
  is_pure_virtual : Bool
  /-- Source `clang_CXXMethod_isConst(cursor)` -/
  is_const : Bool
  /-- Source `clang_Cursor_isVariadic(cursor)` -/
  is_variadic : Bool
  /-- Source `clang_getCXXAccessSpecifier(cursor)` -/
  access : CX_CXXAccessSpecifier
  /-- Source `clang_getEnumConstantDeclValue(cursor)`, a `long long` -/
  enum_value : Int
  deriving DecidableEq, Repr

/-! ## definitions.hpp -/

/-- Source `TemplateParameter`. -/
structure TemplateParameter where
  type : String
  name : String
  default_value : String := ""
  deriving DecidableEq, Repr

/-- The `kind` of a `TypeDefinition`, as assigned in `parser.cpp`
(`StructKind`, `ClassKind`, `EnumKind`, `TypedefKind`); `UnknownKind` stands
for a definition whose kind was never assigned. -/
inductive TypeKind where
  | UnknownKind | StructKind | ClassKind | EnumKind | TypedefKind
  deriving DecidableEq, Repr

/-- Source `TypeDefinition`, with the members `kind` and `declaration_scope` that
`parser.cpp` assigns. -/
structure TypeDefinition where
  raw_name : String := ""
  name : String := ""
  scopes : List String := []
  type_full_name : String := ""
  is_const : Bool := false
  is_reference : Int := 0
  is_pointer : Int := 0
  kind : TypeKind := TypeKind.UnknownKind
  declaration_scope : List String := []
  deriving DecidableEq, Repr

/-- Source `EnumDefinition`; `flags` receives `push_back` of (name, value) pairs and
`from_file` is assigned in `visit_enum`. -/
structure EnumDefinition where
  name : String := ""
  full_name : String := ""
  from_file : String := ""
  flags : List (String × Int) := []
  deriving DecidableEq, Repr

/-- Source `ParamDefinition`; `str` is the `std::string` base sub-object. -/
structure ParamDefinition where
  str : String := ""
  is_const : Bool := false
  is_reference : Int := 0
  is_pointer : Int := 0
  name : String := ""
  type_alias : String := ""
  deriving DecidableEq, Repr

/-- Source `FieldDefinition`. -/
structure FieldDefinition extends ParamDefinition where
  is_static : Bool := false
  visibility : String := ""
  deriving DecidableEq, Repr

/-- Source `InvokableDefinition`. -/
structure InvokableDefinition where
  return_type : Option ParamDefinition := none
  params : List ParamDefinition := []
  template_parameters : List TemplateParameter := []
  is_variadic : Bool := false
  deriving DecidableEq, Repr

/-- Source `MethodDefinition`. -/
structure MethodDefinition extends InvokableDefinition where
  is_static : Bool := false
  is_virtual : Bool := false
  is_pure_virtual : Bool := false
  is_const : Bool := false
  name : String := ""
  visibility : String := ""
  deriving DecidableEq, Repr

/-- Source `FunctionDefinition`. -/
structure FunctionDefinition extends InvokableDefinition where
  name : String := ""
  full_name : String := ""
  from_file : String := ""
  include_path : String := ""
  deriving DecidableEq, Repr

/-- Source `NamespaceDefinition`. -/
structure NamespaceDefinition where
  name : String := ""
  full_name : String := ""
  deriving DecidableEq, Repr

/-- Source `ClassDefinition`. -/
structure ClassDefinition extends NamespaceDefinition where
  type : String := ""
  from_file : String := ""
  include_path : String := ""
  bases : List String := []
  known_bases : List String := []
  constructors : List MethodDefinition := []
  methods : List MethodDefinition := []
  fields : List FieldDefinition := []
  template_parameters : List TemplateParameter := []
  deriving DecidableEq, Repr

/-- Source `ClassDefinition::is_empty`. -/
def ClassDefinition.is_empty (c : ClassDefinition) : Bool :=
  c.constructors.length + c.methods.length + c.bases.length == 0

/-- Source `FieldDefinition::operator==`: the names are equal. -/
def FieldDefinition.eq (a b : FieldDefinition) : Bool :=
  a.name == b.name

/-- Source `NamespaceDefinition::cpp_context`. -/
def NamespaceDefinition.cpp_context (n : NamespaceDefinition) : String :=
  let parts := split n.full_name ':'
  if parts.length > 1 then
    parts.dropLast.foldl (fun stream part => stream ++ "::" ++ part) ""
  else
    "::"

/-- Source `ParamDefinition::to_string`. -/
def ParamDefinition.to_string (p : ParamDefinition) : String :=
  let result := if p.is_const then "const " else ""
  let result := result ++ p.str
  let result := result ++ String.mk (List.replicate p.is_pointer.toNat '*')
  result ++ String.mk (List.replicate p.is_reference.toNat '&')

/-- Source `ParamDefinition::operator==`. -/
def ParamDefinition.eq (a b : ParamDefinition) : Bool :=
  a.to_string == b.to_string

/-- The table `type_to_name` of `paramdefinition.cpp`. -/
def type_to_name : CXTypeKind → Option String
  | .Bool => some "bool"
  | .Char_U => some "char"
  | .UChar => some "unsigned char"
  | .UShort => some "unsigned short"
  | .UInt => some "unsigned int"
  | .ULong => some "unsigned long"
  | .ULongLong => some "unsigned long long"
  | .Short => some "short"
  | .Int => some "int"
  | .Long => some "long"
  | .LongLong => some "long long"
  | .Float => some "float"
  | .Double => some "double"
  | .LongDouble => some "long double"
  | _ => none

/-- The member functions of `TypeDefinition` that `parser.cpp` and
`paramdefinition.cpp` call. They are declared in `definitions.hpp`; their
bodies are not among the sources, so every definition below takes them as a
parameter. The first argument is the object the member is called on. -/
structure TypeEngine where
  /-- Member `load_from(CXType, known_types)`, returning the updated object -/
  load_from : TypeDefinition → CXType → List TypeDefinition → TypeDefinition
  /-- Member `load_from(const std::string&, known_types)` -/
  load_from_name : TypeDefinition → String → List TypeDefinition → TypeDefinition
  /-- Member `find_parent_type(known_types)` -/
  find_parent_type : TypeDefinition → List TypeDefinition → Option TypeDefinition
  /-- Member `solve_type(known_types)` -/
  solve_type : TypeDefinition → List TypeDefinition → String

/-- The exception a visitor callback can raise. -/
inductive Fault where
  | logic_error (what : String)
  deriving DecidableEq, Repr

/-- Source `ParamDefinition::initialize_type`, on the object `self`. -/
def ParamDefinition.initialize_type (eng : TypeEngine) (self : ParamDefinition)
    (type : CXType) (known_types : List TypeDefinition) : Except Fault ParamDefinition :=
  if type.kind = CXTypeKind.Invalid then
    Except.error (Fault.logic_error "Called ParamDefinition::initialize_type with invalid type")
  else
    match type_to_name type.kind with
    | some builtin => Except.ok { self with str := self.str ++ builtin }
    | none =>
      let param_type := eng.load_from {} type known_types
      let self := { self with
        type_alias := param_type.name
        is_const := param_type.is_const
        is_reference := self.is_reference + param_type.is_reference
        is_pointer := self.is_pointer + param_type.is_pointer }
      match eng.find_parent_type param_type known_types with
      | some parent_type =>
        Except.ok { self with
          str := self.str ++ parent_type.type_full_name
          is_const := self.is_const || parent_type.is_const
          is_reference := self.is_reference + parent_type.is_reference
          is_pointer := self.is_pointer + parent_type.is_pointer }
      | none =>
        Except.ok { self with
          str := self.str ++ (join param_type.scopes "::" ++ "::" ++ param_type.name) }

/-- Constructor `ParamDefinition(CXCursor, known_types)`: the cursor is given by
its spelling and its type. -/
def ParamDefinition.from_cursor (eng : TypeEngine) (spelling : String) (type : CXType)
    (known_types : List TypeDefinition) : Except Fault ParamDefinition :=
  ParamDefinition.initialize_type eng { name := spelling } type known_types

/-- Constructor `ParamDefinition(CXType, known_types)`. -/
def ParamDefinition.from_type (eng : TypeEngine) (type : CXType)
    (known_types : List TypeDefinition) : Except Fault ParamDefinition :=
  ParamDefinition.initialize_type eng {} type known_types

/-- Constructor `FieldDefinition(CXCursor, known_types)`. -/
def FieldDefinition.from_cursor (eng : TypeEngine) (spelling : String) (type : CXType)
    (known_types : List TypeDefinition) : Except Fault FieldDefinition :=
  match ParamDefinition.from_cursor eng spelling type known_types with
  | Except.ok param => Except.ok { toParamDefinition := param }
  | Except.error fault => Except.error fault

/-! ## parser.hpp -/

/-- Source `TwiliParser::ClassContext`. -/
structure ClassContext where
  klass : ClassDefinition := {}
  current_access : CX_CXXAccessSpecifier := CX_CXXAccessSpecifier.CX_CXXInvalidAccessSpecifier
  cursors : List CXCursor := []
  deriving DecidableEq, Repr

/-- Source `TwiliParser::NamespaceContext` (its member `current_class` is never
read or written by the parser and is left out). -/
structure NamespaceContext where
  ns : NamespaceDefinition := {}
  cursors : List CXCursor := []
  deriving DecidableEq, Repr

/-- Source `TwiliParser::EnumContext`. -/
structure EnumContext where
  en : EnumDefinition := {}
  cursor : CXCursor
  deriving DecidableEq, Repr

/-- Source `ClassContext::operator==(const CXCursor)`: some remembered cursor equals
the value. -/
def ClassContext.has_cursor (c : ClassContext) (value : CXCursor) : Bool :=
  c.cursors.any (fun candidate => decide (value = candidate))

/-- Source `NamespaceContext::operator==(const CXCursor)`. -/
def NamespaceContext.has_cursor (n : NamespaceContext) (value : CXCursor) : Bool :=
  n.cursors.any (fun candidate => decide (value = candidate))

/-- What `function_template_context` points to: an element of the
`constructors` or `methods` of the class at position `cls`, or an element of
`functions`. -/
inductive InvokableRef where
  | constructor_at (cls idx : Nat)
  | method_at (cls idx : Nat)
  | function_at (idx : Nat)
  deriving DecidableEq, Repr

/-- The data members of `TwiliParser` that the visitor reads or writes
(`cursor` is carried by `CursorInfo`; `current_ns` and `root_ns` are never
used). -/
structure TwiliParser where
  directories : List String := []
  types : List TypeDefinition := []
  classes : List ClassContext := []
  namespaces : List NamespaceContext := []
  functions : List FunctionDefinition := []
  enums : List EnumContext := []
  class_template_context : Option Nat := none
  function_template_context : Option InvokableRef := none
  deriving DecidableEq, Repr

/-- Position of the first element satisfying `p`: the iterator `std::find`
returns, `none` being `end()`. -/
def find_index {α : Type} (p : α → Bool) : List α → Option Nat
  | [] => none
  | x :: xs => if p x then some 0 else (find_index p xs).map (fun i => i + 1)

/-- Assignment through a pointer or iterator: the element at position `i` is
replaced by `f` of it; a position past the end designates nothing. -/
def update_at {α : Type} (f : α → α) : List α → Nat → List α
  | [], _ => []
  | x :: xs, 0 => f x :: xs
  | x :: xs, i + 1 => x :: update_at f xs i

/-- The element before `rbegin()`, that is the last one, replaced by `f` of it. -/
def update_last {α : Type} (f : α → α) (l : List α) : List α :=
  update_at f l (l.length - 1)

/-! ## parser.cpp: lookups -/

/-- Source `TwiliParser::is_included`. -/
def is_included (self : TwiliParser) (path : String) : Bool :=
  self.directories.any (fun directory => std_find path directory == some 0)

/-- The loop of `TwiliParser::get_relative_path` over the directories. -/
def relative_path_in (path : String) : List String → String
  | [] => path
  | directory :: rest =>
    if std_find path directory != none then substr_from path directory.length
    else relative_path_in path rest

/-- Source `TwiliParser::get_relative_path`, `path` being `get_current_path()`. -/
def get_relative_path (self : TwiliParser) (path : String) : String :=
  relative_path_in path self.directories

/-- Source `TwiliParser::fullname_for`. -/
def fullname_for (self : TwiliParser) (cursor : CXCursor) : Option String :=
  match self.namespaces.find? (fun ns => ns.has_cursor cursor) with
  | some ns_it => some ns_it.ns.full_name
  | none =>
    match self.classes.find? (fun c => c.has_cursor cursor) with
    | some class_it => some class_it.klass.full_name
    | none => none

/-- Source `TwiliParser::find_class_for`: the position of the class found. -/
def find_class_for (self : TwiliParser) (cursor : CXCursor) : Option Nat :=
  find_index (fun c => c.has_cursor cursor) self.classes

/-- Source `TwiliParser::find_class_by_name`: the position of the class found. -/
def find_class_by_name (self : TwiliParser) (full_name : String) : Option Nat :=
  find_index (fun c => c.klass.full_name == full_name) self.classes

/-- Source `parts.remove(*parts.rbegin())`: `std::list::remove` erases every element
equal to the value, here the last element. On an empty list there is no
element to compare with and the list stays empty. -/
def remove_last_value (parts : List String) : List String :=
  match parts.getLast? with
  | some last => parts.filter (fun part => part != last)
  | none => parts

/-- The string `parent_context` built in the loop of `find_class_like`. -/
def parent_context_of (parts : List String) : String :=
  parts.foldl (fun parent_context part => parent_context ++ ("::" ++ part)) ""

/-- The `do ... while` loop of `find_class_like`; `fuel` bounds the number of
iterations and `parts.length + 1` is always enough, as each iteration but the
last removes an element. -/
def find_class_like_loop (self : TwiliParser) (symbol_name : String) :
    Nat → List String → Option Nat
  | 0, _ => none
  | fuel + 1, parts =>
    let parts := remove_last_value parts
    let parent_context := parent_context_of parts
    match find_class_by_name self (parent_context ++ "::" ++ symbol_name) with
    | some found => some found
    | none =>
      if parts.length > 0 then find_class_like_loop self symbol_name fuel parts
      else none

/-- Source `TwiliParser::find_class_like`: the position of the class found. -/
def find_class_like (self : TwiliParser) (symbol_name cpp_context : String) : Option Nat :=
  match find_class_by_name self (cpp_context ++ "::" ++ symbol_name) with
  | some exact => some exact
  | none =>
    let parts := split cpp_context ':'
    find_class_like_loop self symbol_name (parts.length + 1) parts

/-! ## parser.cpp: registration -/

/-- Source `TwiliParser::register_type`. -/
def register_type (self : TwiliParser) (new_class : ClassContext) : TwiliParser :=
  let type_definition : TypeDefinition :=
    { name := new_class.klass.name
      scopes := split new_class.klass.toNamespaceDefinition.cpp_context ':'
      type_full_name := new_class.klass.full_name
      kind := if new_class.klass.type == "struct" then TypeKind.StructKind
              else TypeKind.ClassKind }
  { self with
    types := self.types ++ [type_definition]
    classes := self.classes ++ [new_class]
    function_template_context := none }

/-- Source `are_types_identical`: the scopes are compared position by position only
when both lists have the same size. -/
def are_types_identical (a b : TypeDefinition) : Bool :=
  if a.scopes.length == b.scopes.length
      && (a.scopes.zip b.scopes).any (fun pair => pair.1 != pair.2) then
    false
  else
    a.raw_name == b.raw_name && a.name == b.name && a.type_full_name == b.type_full_name

/-- Source `TwiliParser::visit_typedef`. -/
def visit_typedef (eng : TypeEngine) (self : TwiliParser) (cur : CursorInfo)
    (parent : CXCursor) : TwiliParser × CXChildVisitResult :=
  match fullname_for self parent with
  | some cpp_context =>
    let typedefType := cur.cursor_type
    let type := cur.underlying_type
    let pointed_from := eng.load_from {} type self.types
    let pointed_to := eng.load_from {} typedefType self.types
    let pointed_to := { pointed_to with kind := TypeKind.TypedefKind }
    let explicit_from : TypeDefinition :=
      { name := pointed_from.name
        scopes := split cpp_context ':' ++ pointed_from.scopes }
    let parent_type :=
      match eng.find_parent_type explicit_from self.types with
      | some t => some t
      | none => eng.find_parent_type pointed_from self.types
    let pointed_to :=
      match parent_type with
      | some t =>
        { pointed_to with
          type_full_name := t.type_full_name
          is_const := pointed_to.is_const || t.is_const
          is_pointer := pointed_to.is_pointer + t.is_pointer
          is_reference := pointed_to.is_reference + t.is_reference }
      | none =>
        let definite_type := eng.load_from_name {} type.spelling self.types
        { pointed_to with
          type_full_name := join definite_type.scopes "::" ++ "::" ++ definite_type.name }
    let pointed_to :=
      { pointed_to with
        declaration_scope := explicit_from.scopes
        is_const := pointed_to.is_const || pointed_from.is_const
        is_pointer := pointed_to.is_pointer + pointed_from.is_pointer
        is_reference := pointed_to.is_reference + pointed_from.is_reference }
    if self.types.any (fun known => are_types_identical pointed_to known) then
      (self, CXChildVisitResult.CXChildVisit_Continue)
    else
      ({ self with types := self.types ++ [pointed_to] },
        CXChildVisitResult.CXChildVisit_Continue)
  | none => (self, CXChildVisitResult.CXChildVisit_Continue)

/-- Source `TwiliParser::visit_namespace`. -/
def visit_namespace (self : TwiliParser) (cur : CursorInfo) (parent : CXCursor) :
    TwiliParser × CXChildVisitResult :=
  let symbol_name := cur.spelling
  let base_name := fullname_for self parent
  let full_name := (match base_name with | some b => b | none => "") ++ "::" ++ symbol_name
  match find_index (fun ns => ns.ns.full_name == full_name) self.namespaces with
  | none =>
    let ns_context : NamespaceContext :=
      { cursors := [cur.cursor], ns := { name := symbol_name, full_name := full_name } }
    ({ self with namespaces := self.namespaces ++ [ns_context] },
      CXChildVisitResult.CXChildVisit_Recurse)
  | some it =>
    ({ self with
        namespaces :=
          update_at (fun ns => { ns with cursors := ns.cursors ++ [cur.cursor] })
            self.namespaces it },
      CXChildVisitResult.CXChildVisit_Recurse)

/-- The first part of `TwiliParser::visit_class` (up to the lookup of an
existing class): the fully-qualified name given to the declaration, or `none`
when the function returns early, because the parent is a class whose current
access is not public or because the parent is unknown. -/
def class_full_name (self : TwiliParser) (cur : CursorInfo) (parent : CXCursor) :
    Option String :=
  let symbol_name := cur.spelling
  if parent.kind = CXCursorKind.TranslationUnit then
    some ("::" ++ symbol_name)
  else
    match find_class_for self parent with
    | some parent_class =>
      match self.classes[parent_class]? with
      | some pc =>
        if pc.current_access ≠ CX_CXXAccessSpecifier.CX_CXXPublic then none
        else some (pc.klass.full_name ++ "::" ++ symbol_name)
      | none => none
    | none =>
      match fullname_for self parent with
      | some context_fullname => some (context_fullname ++ "::" ++ symbol_name)
      | none => none

/-- Source `TwiliParser::visit_class`. -/
def visit_class (self : TwiliParser) (cur : CursorInfo) (parent : CXCursor) :
    TwiliParser × CXChildVisitResult :=
  let kind := cur.cursor.kind
  let symbol_name := cur.spelling
  match class_full_name self cur parent with
  | none => (self, CXChildVisitResult.CXChildVisit_Continue)
  | some full_name =>
    let new_class : ClassContext :=
      { klass :=
          { name := symbol_name
            full_name := full_name
            from_file := cur.path
            include_path := get_relative_path self cur.path
            type := if kind = CXCursorKind.StructDecl then "struct" else "class" }
        cursors := [cur.cursor]
        current_access :=
          if kind = CXCursorKind.StructDecl then CX_CXXAccessSpecifier.CX_CXXPublic
          else CX_CXXAccessSpecifier.CX_CXXPrivate }
    match find_class_by_name self new_class.klass.full_name with
    | some existing_class =>
      let was_empty :=
        match self.classes[existing_class]? with
        | some e => e.klass.is_empty
        | none => false
      let refresh (e : ClassContext) : ClassContext :=
        let e :=
          if e.klass.is_empty then
            { e with klass :=
                { e.klass with
                  from_file := cur.path
                  include_path := get_relative_path self cur.path } }
          else e
        { e with cursors := e.cursors ++ [cur.cursor] }
      ({ self with classes := update_at refresh self.classes existing_class },
        if was_empty then CXChildVisitResult.CXChildVisit_Recurse
        else CXChildVisitResult.CXChildVisit_Continue)
    | none => (register_type self new_class, CXChildVisitResult.CXChildVisit_Recurse)

/-! ## parser.cpp: class members -/

/-- Source `remove_template_parameters`. -/
def remove_template_parameters (source : String) : String :=
  match std_find source "<" with
  | some template_parameters_at => substr_to source template_parameters_at
  | none => source

/-- Source `strip_declaration_type_from_class_declaration`. -/
def strip_declaration_type_from_class_declaration (source : String) : String :=
  let class_declaration := "class "
  let struct_declaration := "struct "
  let source :=
    if std_find source class_declaration == some 0 then
      substr_from source class_declaration.length
    else if std_find source struct_declaration == some 0 then
      substr_from source struct_declaration.length
    else source
  strip source

/-- Source `TwiliParser::visit_base_class`, `current_class` being the position of the
class the reference designates. -/
def visit_base_class (self : TwiliParser) (current_class : Nat) (cursor_text : String) :
    TwiliParser :=
  let symbol_name :=
    strip_declaration_type_from_class_declaration (remove_template_parameters cursor_text)
  match self.classes[current_class]? with
  | none => self
  | some cc =>
    match find_class_like self symbol_name cc.klass.full_name with
    | some base_class =>
      match self.classes[base_class]? with
      | none => self
      | some bc =>
        let add (c : ClassContext) : ClassContext :=
          { c with klass :=
            { c.klass with
              bases := c.klass.bases ++ [bc.klass.full_name]
              known_bases := c.klass.known_bases ++ [bc.klass.full_name] } }
        { self with classes := update_at add self.classes current_class }
    | none =>
      let add (c : ClassContext) : ClassContext :=
        { c with klass := { c.klass with bases := c.klass.bases ++ [symbol_name] } }
      { self with classes := update_at add self.classes current_class }

/-- The string `set_visibility_on` assigns to `model.visibility`. -/
def visibility_of (access : CX_CXXAccessSpecifier) : String :=
  match access with
  | CX_CXXAccessSpecifier.CX_CXXProtected => "protected"
  | CX_CXXAccessSpecifier.CX_CXXPrivate => "private"
  | _ => "public"

/-- Source `TwiliParser::visit_field`. -/
def visit_field (eng : TypeEngine) (self : TwiliParser) (current_class : Nat)
    (cur : CursorInfo) (is_static : Bool) :
    Except Fault (TwiliParser × CXChildVisitResult) :=
  match FieldDefinition.from_cursor eng cur.spelling cur.cursor_type self.types with
  | Except.error fault => Except.error fault
  | Except.ok field =>
    let add (c : ClassContext) : ClassContext :=
      if c.klass.fields.any (fun known => known.eq field) then c
      else
        { c with klass :=
          { c.klass with fields :=
              c.klass.fields ++
                [{ field with
                    is_static := is_static
                    visibility := visibility_of c.current_access }] } }
    Except.ok ({ self with classes := update_at add self.classes current_class },
      CXChildVisitResult.CXChildVisit_Continue)

/-- The argument loop of `create_method`: it runs until `clang_getArgType`
reports a type of kind 0, and builds the parameter from the argument cursor
when that cursor and its type have a kind other than 0. -/
def method_params (eng : TypeEngine) (types : List TypeDefinition) :
    List Argument → Except Fault (List ParamDefinition)
  | [] => Except.ok []
  | arg :: rest =>
    if arg.arg_type.kind = CXTypeKind.Invalid then Except.ok []
    else
      let built :=
        if !arg.cursor_kind.is_zero && arg.cursor_type.kind != CXTypeKind.Invalid then
          ParamDefinition.from_cursor eng arg.cursor_spelling arg.cursor_type types
        else
          ParamDefinition.from_type eng arg.arg_type types
      match built with
      | Except.error fault => Except.error fault
      | Except.ok param =>
        match method_params eng types rest with
        | Except.error fault => Except.error fault
        | Except.ok params => Except.ok (param :: params)

/-- The optional return type built by `create_method` and `visit_function`. -/
def return_type_of (eng : TypeEngine) (types : List TypeDefinition) (return_type : CXType) :
    Except Fault (Option ParamDefinition) :=
  if return_type.kind != CXTypeKind.Invalid && return_type.kind != CXTypeKind.Void then
    match ParamDefinition.from_type eng return_type types with
    | Except.ok param => Except.ok (some param)
    | Except.error fault => Except.error fault
  else Except.ok none

/-- Source `TwiliParser::create_method`. -/
def create_method (eng : TypeEngine) (self : TwiliParser) (cur : CursorInfo) :
    Except Fault MethodDefinition :=
  match return_type_of eng self.types cur.result_type with
  | Except.error fault => Except.error fault
  | Except.ok return_type =>
    match method_params eng self.types cur.arguments with
    | Except.error fault => Except.error fault
    | Except.ok params =>
      Except.ok
        { name := cur.spelling
          is_static := cur.is_static
          is_virtual := cur.is_virtual
          is_pure_virtual := cur.is_pure_virtual
          is_const := cur.is_const
          is_variadic := cur.is_variadic
          return_type := return_type
          params := params }

/-- Source `TwiliParser::visit_method`. -/
def visit_method (eng : TypeEngine) (self : TwiliParser) (current_class : Nat)
    (cur : CursorInfo) : Except Fault (TwiliParser × CXChildVisitResult) :=
  match create_method eng self cur with
  | Except.error fault => Except.error fault
  | Except.ok method =>
    match self.classes[current_class]? with
    | none => Except.ok (self, CXChildVisitResult.CXChildVisit_Recurse)
    | some cc =>
      let method := { method with visibility := visibility_of cc.current_access }
      if cur.cursor.kind = CXCursorKind.Constructor then
        let add (c : ClassContext) : ClassContext :=
          { c with klass := { c.klass with constructors := c.klass.constructors ++ [method] } }
        Except.ok
          ({ self with
              classes := update_at add self.classes current_class
              function_template_context :=
                some (InvokableRef.constructor_at current_class cc.klass.constructors.length) },
            CXChildVisitResult.CXChildVisit_Recurse)
      else
        let add (c : ClassContext) : ClassContext :=
          { c with klass := { c.klass with methods := c.klass.methods ++ [method] } }
        Except.ok
          ({ self with
              classes := update_at add self.classes current_class
              function_template_context :=
                some (InvokableRef.method_at current_class cc.klass.methods.length) },
            CXChildVisitResult.CXChildVisit_Recurse)

/-- The argument loop of `visit_function`: every parameter is built from the
argument type. -/
def function_params (eng : TypeEngine) (types : List TypeDefinition) :
    List Argument → Except Fault (List ParamDefinition)
  | [] => Except.ok []
  | arg :: rest =>
    if arg.arg_type.kind = CXTypeKind.Invalid then Except.ok []
    else
      match ParamDefinition.from_type eng arg.arg_type types with
      | Except.error fault => Except.error fault
      | Except.ok param =>
        match function_params eng types rest with
        | Except.error fault => Except.error fault
        | Except.ok params => Except.ok (param :: params)

/-- Source `TwiliParser::visit_function`. -/
def visit_function (eng : TypeEngine) (self : TwiliParser) (cur : CursorInfo)
    (parent : CXCursor) : Except Fault FunctionDefinition :=
  let context_name := fullname_for self parent
  let full_name :=
    match context_name with
    | some c => c ++ "::" ++ cur.spelling
    | none => "::" ++ cur.spelling
  match return_type_of eng self.types cur.result_type with
  | Except.error fault => Except.error fault
  | Except.ok return_type =>
    match function_params eng self.types cur.arguments with
    | Except.error fault => Except.error fault
    | Except.ok params =>
      Except.ok
        { name := cur.spelling
          is_variadic := cur.is_variadic
          from_file := cur.path
          include_path := get_relative_path self cur.path
          full_name := full_name
          return_type := return_type
          params := params }

/-- Source `TwiliParser::visit_template_parameter`. -/
def visit_template_parameter (self : TwiliParser) (class_context : Nat)
    (symbol_name : String) : TwiliParser :=
  let add (c : ClassContext) : ClassContext :=
    { c with klass :=
      { c.klass with template_parameters :=
          c.klass.template_parameters ++ [{ type := "typename", name := symbol_name }] } }
  { self with
    class_template_context := some class_context
    classes := update_at add self.classes class_context }

/-! ## parser.cpp: enums -/

/-- Source `TwiliParser::visit_enum`. -/
def visit_enum (self : TwiliParser) (cur : CursorInfo) (parent : CXCursor) :
    TwiliParser × CXChildVisitResult :=
  let symbol_name := cur.spelling
  let cpp_context := (fullname_for self parent).getD ""
  match find_index (fun e => e.en.full_name == cpp_context ++ "::" ++ symbol_name) self.enums with
  | none =>
    let new_context : EnumContext :=
      { en :=
          { name := symbol_name
            full_name := cpp_context ++ "::" ++ symbol_name
            from_file := cur.path }
        cursor := cur.cursor }
    let type_definition : TypeDefinition :=
      { kind := TypeKind.EnumKind
        name := new_context.en.name
        scopes := split cpp_context ':'
        type_full_name := new_context.en.full_name }
    ({ self with
        types := self.types ++ [type_definition]
        enums := self.enums ++ [new_context] },
      CXChildVisitResult.CXChildVisit_Recurse)
  | some _ => (self, CXChildVisitResult.CXChildVisit_Recurse)

/-- Source `TwiliParser::visit_enum_constant`. -/
def visit_enum_constant (self : TwiliParser) (cur : CursorInfo) (parent : CXCursor) :
    TwiliParser × CXChildVisitResult :=
  match find_index (fun e => decide (parent = e.cursor)) self.enums with
  | some parent_enum =>
    let add (e : EnumContext) : EnumContext :=
      { e with en := { e.en with flags := e.en.flags ++ [(cur.spelling, cur.enum_value)] } }
    ({ self with enums := update_at add self.enums parent_enum },
      CXChildVisitResult.CXChildVisit_Recurse)
  | none => (self, CXChildVisitResult.CXChildVisit_Recurse)

/-! ## parser.cpp: template parameters -/

/-- Source `TwiliParser::solve_typeref`. -/
def solve_typeref (eng : TypeEngine) (self : TwiliParser) (cur : CursorInfo)
    (context : CXCursor) : String :=
  let type : TypeDefinition :=
    match fullname_for self context with
    | some declaration_scope => { declaration_scope := split declaration_scope ':' }
    | none => {}
  let type := eng.load_from type cur.cursor_type self.types
  eng.solve_type type self.types

/-- The assignment both template handlers make to the last template
parameter: the default value becomes the solved type reference unless that is
the parameter's own name. -/
def assign_default (value : String) (param : TemplateParameter) : TemplateParameter :=
  if value != "::" ++ param.name then { param with default_value := value } else param

/-- Source `TwiliParser::visit_template_default_value`, `ctx` being the position
`class_template_context` points to. -/
def visit_template_default_value (eng : TypeEngine) (self : TwiliParser) (ctx : Nat)
    (cur : CursorInfo) (parent : CXCursor) : TwiliParser :=
  let value := solve_typeref eng self cur parent
  let add (c : ClassContext) : ClassContext :=
    { c with klass :=
      { c.klass with template_parameters :=
          update_last (assign_default value) c.klass.template_parameters } }
  { self with classes := update_at add self.classes ctx }

/-- The template parameters of the invokable `function_template_context`
points to (the empty list when it designates nothing). -/
def template_parameters_at (self : TwiliParser) : InvokableRef → List TemplateParameter
  | InvokableRef.constructor_at cls idx =>
    match self.classes[cls]? with
    | some c =>
      match c.klass.constructors[idx]? with
      | some m => m.template_parameters
      | none => []
    | none => []
  | InvokableRef.method_at cls idx =>
    match self.classes[cls]? with
    | some c =>
      match c.klass.methods[idx]? with
      | some m => m.template_parameters
      | none => []
    | none => []
  | InvokableRef.function_at idx =>
    match self.functions[idx]? with
    | some f => f.template_parameters
    | none => []

/-- A write to the template parameters of the invokable
`function_template_context` points to. -/
def update_template_parameters (self : TwiliParser)
    (f : List TemplateParameter → List TemplateParameter) : InvokableRef → TwiliParser
  | InvokableRef.constructor_at cls idx =>
    let on_method (m : MethodDefinition) : MethodDefinition :=
      { m with template_parameters := f m.template_parameters }
    let on_class (c : ClassContext) : ClassContext :=
      { c with klass :=
        { c.klass with constructors := update_at on_method c.klass.constructors idx } }
    { self with classes := update_at on_class self.classes cls }
  | InvokableRef.method_at cls idx =>
    let on_method (m : MethodDefinition) : MethodDefinition :=
      { m with template_parameters := f m.template_parameters }
    let on_class (c : ClassContext) : ClassContext :=
      { c with klass := { c.klass with methods := update_at on_method c.klass.methods idx } }
    { self with classes := update_at on_class self.classes cls }
  | InvokableRef.function_at idx =>
    let on_function (fn : FunctionDefinition) : FunctionDefinition :=
      { fn with template_parameters := f fn.template_parameters }
    { self with functions := update_at on_function self.functions idx }

/-- Source `TwiliParser::try_to_visit_template_parameter`, `ctx` being what
`function_template_context` points to. -/
def try_to_visit_template_parameter (eng : TypeEngine) (self : TwiliParser)
    (ctx : InvokableRef) (cur : CursorInfo) (parent : CXCursor) :
    TwiliParser × Option CXChildVisitResult :=
  match cur.cursor.kind with
  | CXCursorKind.TemplateTypeParameter =>
    (update_template_parameters self
        (fun ps => ps ++ [{ type := "typename", name := cur.spelling }]) ctx,
      some CXChildVisitResult.CXChildVisit_Continue)
  | CXCursorKind.TypeRef =>
    match (template_parameters_at self ctx).getLast? with
    | some param =>
      if param.default_value.length = 0 then
        let value := solve_typeref eng self cur parent
        (update_template_parameters self (update_last (assign_default value)) ctx,
          some CXChildVisitResult.CXChildVisit_Continue)
      else
        ({ self with function_template_context := none },
          some CXChildVisitResult.CXChildVisit_Continue)
    | none =>
      ({ self with function_template_context := none },
        some CXChildVisitResult.CXChildVisit_Continue)
  | CXCursorKind.NamespaceRef => (self, some CXChildVisitResult.CXChildVisit_Continue)
  | _ => ({ self with function_template_context := none }, none)

/-! ## parser.cpp: the visitor -/

/-- The `switch` of `TwiliParser::visitor` for a cursor whose parent is the
known class at position `current_class`. -/
def visit_member (eng : TypeEngine) (self : TwiliParser) (current_class : Nat)
    (cur : CursorInfo) : Except Fault (TwiliParser × CXChildVisitResult) :=
  match cur.cursor.kind with
  | CXCursorKind.TemplateTypeParameter =>
    Except.ok (visit_template_parameter self current_class cur.spelling,
      CXChildVisitResult.CXChildVisit_Recurse)
  | CXCursorKind.CXXBaseSpecifier =>
    Except.ok (visit_base_class self current_class cur.spelling,
      CXChildVisitResult.CXChildVisit_Recurse)
  | CXCursorKind.CXXAccessSpecifier =>
    let set_access (c : ClassContext) : ClassContext := { c with current_access := cur.access }
    Except.ok ({ self with classes := update_at set_access self.classes current_class },
      CXChildVisitResult.CXChildVisit_Recurse)
  | CXCursorKind.FunctionTemplate => visit_method eng self current_class cur
  | CXCursorKind.CXXMethod => visit_method eng self current_class cur
  | CXCursorKind.FieldDecl => visit_field eng self current_class cur false
  | CXCursorKind.VarDecl => visit_field eng self current_class cur true
  | CXCursorKind.Constructor => visit_method eng self current_class cur
  | _ => Except.ok (self, CXChildVisitResult.CXChildVisit_Recurse)

/-- The chain of tests on `kind` in `TwiliParser::visitor`, after the two
template contexts have been handled. -/
def dispatch (eng : TypeEngine) (self : TwiliParser) (cur : CursorInfo)
    (parent : CXCursor) : Except Fault (TwiliParser × CXChildVisitResult) :=
  let kind := cur.cursor.kind
  if kind = CXCursorKind.Namespace then Except.ok (visit_namespace self cur parent)
  else if kind = CXCursorKind.TypedefDecl then Except.ok (visit_typedef eng self cur parent)
  else if kind = CXCursorKind.EnumDecl then Except.ok (visit_enum self cur parent)
  else if kind = CXCursorKind.EnumConstantDecl then
    Except.ok (visit_enum_constant self cur parent)
  else if kind = CXCursorKind.StructDecl ∨ kind = CXCursorKind.ClassDecl
      ∨ kind = CXCursorKind.ClassTemplate then
    Except.ok (visit_class self cur parent)
  else
    match find_class_for self parent with
    | some current_class => visit_member eng self current_class cur
    | none =>
      if kind = CXCursorKind.FunctionDecl ∨ kind = CXCursorKind.FunctionTemplate then
        match visit_function eng self cur parent with
        | Except.error fault => Except.error fault
        | Except.ok new_func =>
          Except.ok
            ({ self with
                functions := self.functions ++ [new_func]
                function_template_context :=
                  if kind = CXCursorKind.FunctionTemplate then
                    some (InvokableRef.function_at self.functions.length)
                  else self.function_template_context },
              CXChildVisitResult.CXChildVisit_Continue)
      else Except.ok (self, CXChildVisitResult.CXChildVisit_Continue)

/-- The handling of a pending `class_template_context` at the start of
`TwiliParser::visitor`. -/
def handle_class_template_context (eng : TypeEngine) (self : TwiliParser)
    (cur : CursorInfo) (parent : CXCursor) : TwiliParser :=
  match self.class_template_context with
  | some ctx =>
    let self :=
      if cur.cursor.kind = CXCursorKind.TypeRef then
        visit_template_default_value eng self ctx cur parent
      else self
    { self with class_template_context := none }
  | none => self

/-- Source `TwiliParser::visitor` (with `visitor_callback`, which stores the cursor):
one callback of the traversal, for the cursor described by `cur` under
`parent`. -/
def visitor (eng : TypeEngine) (self : TwiliParser) (cur : CursorInfo)
    (parent : CXCursor) : Except Fault (TwiliParser × CXChildVisitResult) :=
  if is_included self cur.path then
    let self := handle_class_template_context eng self cur parent
    match self.function_template_context with
    | some ctx =>
      match try_to_visit_template_parameter eng self ctx cur parent with
      | (self, some result) => Except.ok (self, result)
      | (self, none) => dispatch eng self cur parent
    | none => dispatch eng self cur parent
  else Except.ok (self, CXChildVisitResult.CXChildVisit_Continue)

/-! ## Reachable states -/

/-- One visitor callback: the cursor and its parent. -/
structure Event where
  cur : CursorInfo
  parent : CXCursor
  deriving DecidableEq, Repr

/-- The parser after the callbacks of `events`, in order; an exception ends
the run. -/
def run (eng : TypeEngine) (self : TwiliParser) : List Event → Except Fault TwiliParser
  | [] => Except.ok self
  | ev :: rest =>
    match visitor eng self ev.cur ev.parent with
    | Except.error fault => Except.error fault
    | Except.ok (next, _) => run eng next rest

/-- A freshly constructed parser to which directories have been added: every
registry is empty and no template context is pending. -/
def initial (directories : List String) : TwiliParser :=
  { directories := directories }

/-- The states the parser can be in: a fresh parser, and every state a visitor
callback that raised no exception leads to from such a state. -/
inductive Reachable (eng : TypeEngine) : TwiliParser → Prop where
  | start (directories : List String) : Reachable eng (initial directories)
  | step {self next : TwiliParser} {result : CXChildVisitResult}
      (cur : CursorInfo) (parent : CXCursor) :
      Reachable eng self → visitor eng self cur parent = Except.ok (next, result) →
      Reachable eng next

/-! ## The scope walk as the specification words it -/

/-- The lookup of `find_like` as the specification describes it, for a scope
whose components are `parts`: the candidates `::c1::...::cj::symbol` are tried
for `j = k, k - 1, ..., 0` and the first registered one wins. -/
def enclosing_lookup (self : TwiliParser) (symbol_name : String) (parts : List String) :
    Nat → Option Nat
  | 0 => find_class_by_name self (parent_context_of (parts.take 0) ++ "::" ++ symbol_name)
  | k + 1 =>
    match find_class_by_name self
        (parent_context_of (parts.take (k + 1)) ++ "::" ++ symbol_name) with
    | some found => some found
    | none => enclosing_lookup self symbol_name parts k

/-! ## Registry invariants -/

/-- The names of the fields of a class, in order. -/
def field_names (c : ClassContext) : List String :=
  c.klass.fields.map (fun f => f.name)

/-- Uniqueness in three collections: no two classes, no two namespaces and no
two enums have the same fully-qualified name, and no class has two fields of
the same name. -/
def names_ok (classes : List ClassContext) (namespaces : List NamespaceContext)
    (enums : List EnumContext) : Prop :=
  (classes.map (fun c => c.klass.full_name)).Nodup
  ∧ (namespaces.map (fun n => n.ns.full_name)).Nodup
  ∧ (enums.map (fun e => e.en.full_name)).Nodup
  ∧ ∀ c ∈ classes, (field_names c).Nodup

/-- The uniqueness invariant of the registries of a parser. -/
def registry_ok (self : TwiliParser) : Prop :=
  names_ok self.classes self.namespaces self.enums

/-! ## Concrete values used by the examples -/

/-- A type engine that resolves nothing: a loaded type only gets its spelling
as name, and no known type is ever found. -/
def plain_engine : TypeEngine :=
  { load_from := fun self type _ => { self with name := type.spelling }
    load_from_name := fun self name _ => { self with name := name }
    find_parent_type := fun _ _ => none
    solve_type := fun self _ => self.name }

/-- A type handle of the given kind and spelling. -/
def type_handle (kind : CXTypeKind) (spelling : String) : CXType :=
  { kind := kind, spelling := spelling, handle := 0 }

/-- The translation-unit cursor. -/
def translation_unit : CXCursor :=
  { kind := CXCursorKind.TranslationUnit, handle := 0 }

/-- A cursor of the given kind, identity and spelling in the file `path`; its
types are invalid and its flags are clear. -/
def declaration (kind : CXCursorKind) (handle : Nat) (spelling path : String) : CursorInfo :=
  { cursor := { kind := kind, handle := handle }
    spelling := spelling
    path := path
    cursor_type := type_handle CXTypeKind.Invalid ""
    result_type := type_handle CXTypeKind.Invalid ""
    arguments := []
    underlying_type := type_handle CXTypeKind.Invalid ""
    is_static := false
    is_virtual := false
    is_pure_virtual := false
    is_const := false
    is_variadic := false
    access := CX_CXXAccessSpecifier.CX_CXXPublic
    enum_value := 0 }

/-- A parser whose classes are empty records with the given full names. -/
def registry_of (full_names : List String) : TwiliParser :=
  { classes := full_names.map (fun n => { klass := { full_name := n } }) }

/-- A class record of the given full name whose methods have the given names. -/
def class_record (full_name : String) (methods : List String) : ClassContext :=
  { klass := { full_name := full_name, methods := methods.map (fun n => { name := n }) } }

/-- The callbacks for `namespace N { struct S; }` seen twice. -/
def twice_declared_events : List Event :=
  [ { cur := declaration CXCursorKind.Namespace 1 "N" "/src/a.hpp"
      parent := translation_unit },
    { cur := declaration CXCursorKind.StructDecl 2 "S" "/src/a.hpp"
      parent := { kind := CXCursorKind.Namespace, handle := 1 } },
    { cur := declaration CXCursorKind.Namespace 3 "N" "/src/a.hpp"
      parent := translation_unit },
    { cur := declaration CXCursorKind.StructDecl 4 "S" "/src/a.hpp"
      parent := { kind := CXCursorKind.Namespace, handle := 3 } } ]

/-- The parser after `twice_declared_events`, the directory `/src` being
registered. -/
def twice_declared_state : TwiliParser :=
  { directories := ["/src"]
    types := [{ name := "S", scopes := ["N"], type_full_name := "::N::S",
                kind := TypeKind.StructKind }]
    classes :=
      [{ klass := { name := "S", full_name := "::N::S", type := "struct",
                    from_file := "/src/a.hpp", include_path := "/a.hpp" }
         current_access := CX_CXXAccessSpecifier.CX_CXXPublic
         cursors := [{ kind := CXCursorKind.StructDecl, handle := 2 },
                     { kind := CXCursorKind.StructDecl, handle := 4 }] }]
    namespaces :=
      [{ ns := { name := "N", full_name := "::N" }
         cursors := [{ kind := CXCursorKind.Namespace, handle := 1 },
                     { kind := CXCursorKind.Namespace, handle := 3 }] }] }

/-- The class `::S` with one field `int x`. -/
def record_with_field_x : ClassContext :=
  { klass := { name := "S", full_name := "::S", fields := [{ name := "x", str := "int" }] }
    current_access := CX_CXXAccessSpecifier.CX_CXXPublic }

/-- A field callback `double x`. -/
def field_x_again : CursorInfo :=
  { declaration CXCursorKind.FieldDecl 5 "x" "/src/a.hpp" with
    cursor_type := type_handle CXTypeKind.Double "double" }

/-! ## methoddefinition.cpp, classdefinition.cpp -/

/-- The loop of `MethodDefinition::operator==` over the positions of two
parameter lists of the same size: it stops with `false` at the first position
where `params[i] != other.params[i]`. `ParamDefinition` derives from
`std::string` and declares `operator==` only, so in C++17 the operator `!=`
found for two `ParamDefinition` is the one of `std::string`, taken on the
base sub-objects: it compares `str` and nothing else. (From C++20 on the
expression would be rewritten as the negation of
`ParamDefinition::operator==`.) -/
def params_match : List ParamDefinition → List ParamDefinition → Bool
  | a :: rest, b :: other_rest =>
    if a.str != b.str then false else params_match rest other_rest
  | _, _ => true

/-- Source `MethodDefinition::operator==`. -/
def MethodDefinition.eq (m other : MethodDefinition) : Bool :=
  if m.name == other.name && m.params.length == other.params.length then
    params_match m.params other.params
  else false

/-- The loop of `ClassDefinition::implements` over the methods. -/
def implements_in (method : MethodDefinition) : List MethodDefinition → Bool
  | [] => false
  | candidate :: rest => if candidate.eq method then true else implements_in method rest

/-- Source `ClassDefinition::implements`. -/
def ClassDefinition.implements (c : ClassDefinition) (method : MethodDefinition) : Bool :=
  implements_in method c.methods

/-! ## parser.cpp: the alias built by visit_typedef -/

/-- The three type definitions `visit_typedef` derives from the cursor when the
parent scope `cpp_context` is known: `pointed_from` (loaded from the
underlying type), `pointed_to` as loaded from the type of the typedef cursor,
and the optional `parent_type` found for the underlying type, first in the
declaring scope (`explicit_from`) and then in its own written scope. -/
def typedef_sources (eng : TypeEngine) (self : TwiliParser) (cur : CursorInfo)
    (cpp_context : String) : TypeDefinition × TypeDefinition × Option TypeDefinition :=
  let pointed_from := eng.load_from {} cur.underlying_type self.types
  let pointed_to := eng.load_from {} cur.cursor_type self.types
  let explicit_from : TypeDefinition :=
    { name := pointed_from.name
      scopes := split cpp_context ':' ++ pointed_from.scopes }
  let parent_type :=
    match eng.find_parent_type explicit_from self.types with
    | some t => some t
    | none => eng.find_parent_type pointed_from self.types
  (pointed_from, pointed_to, parent_type)

/-- The value of `pointed_to` when `visit_typedef` reaches its test
`find_if(..., are_types_identical ...)`: the alias entry it has built. -/
def typedef_alias (eng : TypeEngine) (self : TwiliParser) (cur : CursorInfo)
    (cpp_context : String) : TypeDefinition :=
  let pointed_from := (typedef_sources eng self cur cpp_context).1
  let loaded := (typedef_sources eng self cur cpp_context).2.1
  let pointed_to := { loaded with kind := TypeKind.TypedefKind }
  let pointed_to :=
    match (typedef_sources eng self cur cpp_context).2.2 with
    | some t =>
      { pointed_to with
        type_full_name := t.type_full_name
        is_const := pointed_to.is_const || t.is_const
        is_pointer := pointed_to.is_pointer + t.is_pointer
        is_reference := pointed_to.is_reference + t.is_reference }
    | none =>
      let definite_type := eng.load_from_name {} cur.underlying_type.spelling self.types
      { pointed_to with
        type_full_name := join definite_type.scopes "::" ++ "::" ++ definite_type.name }
  { pointed_to with
    declaration_scope := split cpp_context ':' ++ pointed_from.scopes
    is_const := pointed_to.is_const || pointed_from.is_const
    is_pointer := pointed_to.is_pointer + pointed_from.is_pointer
    is_reference := pointed_to.is_reference + pointed_from.is_reference }

/-- A type engine for the examples: a loaded type takes the spelling of the
handle as name and the number of the handle as pointer depth, and the parent
type is the known type of the same name, if any. -/
def sample_engine : TypeEngine :=
  { load_from := fun self type _ =>
      { self with name := type.spelling, is_pointer := (type.handle : Int) }
    load_from_name := fun self name _ => { self with name := name }
    find_parent_type := fun self known_types => known_types.find? (fun k => k.name == self.name)
    solve_type := fun self _ => self.name }

/-- A parser that knows the namespace `::N` (cursor 1) and the class type
`::N::Foo`, itself a pointer-like type of depth 1. -/
def parser_with_foo : TwiliParser :=
  { namespaces :=
      [{ ns := { name := "N", full_name := "::N" }
         cursors := [{ kind := CXCursorKind.Namespace, handle := 1 }] }]
    types :=
      [{ name := "Foo", scopes := ["N"], type_full_name := "::N::Foo", is_pointer := 1,
         kind := TypeKind.ClassKind }] }

/-- The typedef callback `typedef Foo* FooPtr;`: the typedef type has spelling
`FooPtr` and the underlying type has spelling `Foo`, loaded with depth 1. -/
def typedef_foo_ptr : CursorInfo :=
  { declaration CXCursorKind.TypedefDecl 9 "FooPtr" "/src/a.hpp" with
    cursor_type := { kind := CXTypeKind.Other 107, spelling := "FooPtr", handle := 0 }
    underlying_type := { kind := CXTypeKind.Other 101, spelling := "Foo", handle := 1 } }

/-- The typedef callback `typedef Unknown Alias;`. -/
def typedef_unknown : CursorInfo :=
  { declaration CXCursorKind.TypedefDecl 9 "Alias" "/src/a.hpp" with
    cursor_type := { kind := CXTypeKind.Other 107, spelling := "Alias", handle := 0 }
    underlying_type := { kind := CXTypeKind.Other 105, spelling := "Unknown", handle := 0 } }

/-- The callbacks for `enum Color { Red = 0, Green = 1, Blue = 2 };` at
translation-unit level. -/
def color_events : List Event :=
  [ { cur := declaration CXCursorKind.EnumDecl 1 "Color" "/src/a.hpp"
      parent := translation_unit },
    { cur := { declaration CXCursorKind.EnumConstantDecl 2 "Red" "/src/a.hpp" with
               enum_value := 0 }
      parent := { kind := CXCursorKind.EnumDecl, handle := 1 } },
    { cur := { declaration CXCursorKind.EnumConstantDecl 3 "Green" "/src/a.hpp" with
               enum_value := 1 }
      parent := { kind := CXCursorKind.EnumDecl, handle := 1 } },
    { cur := { declaration CXCursorKind.EnumConstantDecl 4 "Blue" "/src/a.hpp" with
               enum_value := 2 }
      parent := { kind := CXCursorKind.EnumDecl, handle := 1 } } ]

/-- A parser that knows the enum `::Color` with the constant `Red = 0`, seen
through the cursor 1. -/
def parser_with_color : TwiliParser :=
  { directories := ["/src"]
    enums :=
      [{ en := { name := "Color", full_name := "::Color", from_file := "/src/a.hpp",
                 flags := [("Red", 0)] }
         cursor := { kind := CXCursorKind.EnumDecl, handle := 1 } }] }

/-- The callbacks for `namespace N { struct S; }` in `/src/fwd.hpp` followed by
`namespace N { struct S { int x; }; }` in `/src/def.hpp`: the namespace
cursors are 1 and 3, the struct cursors 2 and 4, the field cursor 5. -/
def merge_events : List Event :=
  [ { cur := declaration CXCursorKind.Namespace 1 "N" "/src/fwd.hpp"
      parent := translation_unit },
    { cur := declaration CXCursorKind.StructDecl 2 "S" "/src/fwd.hpp"
      parent := { kind := CXCursorKind.Namespace, handle := 1 } },
    { cur := declaration CXCursorKind.Namespace 3 "N" "/src/def.hpp"
      parent := translation_unit },
    { cur := declaration CXCursorKind.StructDecl 4 "S" "/src/def.hpp"
      parent := { kind := CXCursorKind.Namespace, handle := 3 } },
    { cur := { declaration CXCursorKind.FieldDecl 5 "x" "/src/def.hpp" with
               cursor_type := type_handle CXTypeKind.Int "int" }
      parent := { kind := CXCursorKind.StructDecl, handle := 4 } } ]

/-- The parser after `merge_events`, the directory `/src` being registered. -/
def merge_state : TwiliParser :=
  { directories := ["/src"]
    types := [{ name := "S", scopes := ["N"], type_full_name := "::N::S",
                kind := TypeKind.StructKind }]
    classes :=
      [{ klass :=
           { name := "S", full_name := "::N::S", type := "struct"
             from_file := "/src/def.hpp", include_path := "/def.hpp"
             fields := [{ name := "x", str := "int", is_static := false,
                          visibility := "public" }] }
         current_access := CX_CXXAccessSpecifier.CX_CXXPublic
         cursors := [{ kind := CXCursorKind.StructDecl, handle := 2 },
                     { kind := CXCursorKind.StructDecl, handle := 4 }] }]
    namespaces :=
      [{ ns := { name := "N", full_name := "::N" }
         cursors := [{ kind := CXCursorKind.Namespace, handle := 1 },
                     { kind := CXCursorKind.Namespace, handle := 3 }] }] }

/-! ## functiondefinition.cpp -/

/-- Source `FunctionDefinition::cpp_context`: the parts of the full name without the
last one, joined by `"::"` after a leading `"::"`. -/
def FunctionDefinition.cpp_context (f : FunctionDefinition) : String :=
  let parts := split f.full_name ':'
  let parts := parts.dropLast
  "::" ++ join parts "::"

/-! ## The specification's notions of name and normalization -/

/-- The fully-qualified name `::c1::...::cn` built from the components
`c1, ..., cn`. -/
def scoped_name : List String → String
  | [] => ""
  | c :: rest => "::" ++ c ++ scoped_name rest

/-- The normalization of a base-specifier text as the specification words it:
the text truncated at its first `<`, then without one leading `class ` or
`struct ` keyword, then trimmed of surrounding whitespace. -/
def normalized_base_specifier (text : String) : String :=
  let truncated := text.data.takeWhile (fun ch => ch != '<')
  let unqualified :=
    if "class ".data.isPrefixOf truncated then truncated.drop 6
    else if "struct ".data.isPrefixOf truncated then truncated.drop 7
    else truncated
  String.mk
    (((unqualified.dropWhile Char.isWhitespace).reverse.dropWhile
      Char.isWhitespace).reverse)

/-! ## Inheritance invariants -/

/-- What a class record is identified and related by: its full name, the
cursors remembered for it, its bases and its resolved bases. -/
structure ClassCore where
  full_name : String
  cursors : List CXCursor
  bases : List String
  known_bases : List String
  deriving DecidableEq, Repr

/-- The core of a class record. -/
def class_core (c : ClassContext) : ClassCore :=
  { full_name := c.klass.full_name
    cursors := c.cursors
    bases := c.klass.bases
    known_bases := c.klass.known_bases }

/-- The cursor kinds the visitor hands to `visit_class`. -/
def is_class_kind (kind : CXCursorKind) : Bool :=
  kind == CXCursorKind.StructDecl || kind == CXCursorKind.ClassDecl
    || kind == CXCursorKind.ClassTemplate

/-- A class is well formed with respect to the registered full names `names`:
its cursors are class, struct or class-template cursors, its resolved bases
are a subsequence of its bases, and every resolved base is a registered full
name. -/
def core_ok (names : List String) (k : ClassCore) : Prop :=
  (∀ x ∈ k.cursors, is_class_kind x.kind = true)
  ∧ k.known_bases.Sublist k.bases
  ∧ ∀ b ∈ k.known_bases, b ∈ names

/-- Every class of the list is well formed with respect to the full names of
the list. -/
def cores_ok (ks : List ClassCore) : Prop :=
  ∀ k ∈ ks, core_ok (ks.map (fun r => r.full_name)) k

/-- The inheritance invariant of a parser. -/
def inheritance_ok (self : TwiliParser) : Prop :=
  cores_ok (self.classes.map class_core)

/-- The callbacks for `class Base {}; class Derived : public Base {};`. -/
def derived_events : List Event :=
  [ { cur := declaration CXCursorKind.ClassDecl 1 "Base" "/src/a.hpp"
      parent := translation_unit },
    { cur := declaration CXCursorKind.ClassDecl 2 "Derived" "/src/a.hpp"
      parent := translation_unit },
    { cur := declaration CXCursorKind.CXXBaseSpecifier 3 "class Base" "/src/a.hpp"
      parent := { kind := CXCursorKind.ClassDecl, handle := 2 } } ]

/-- The parser after `derived_events`, the directory `/src` being registered. -/
def derived_state : TwiliParser :=
  { directories := ["/src"]
    types :=
      [{ name := "Base", type_full_name := "::Base", kind := TypeKind.ClassKind },
       { name := "Derived", type_full_name := "::Derived", kind := TypeKind.ClassKind }]
    classes :=
      [{ klass := { name := "Base", full_name := "::Base", type := "class",
                    from_file := "/src/a.hpp", include_path := "/a.hpp" }
         current_access := CX_CXXAccessSpecifier.CX_CXXPrivate
         cursors := [{ kind := CXCursorKind.ClassDecl, handle := 1 }] },
       { klass := { name := "Derived", full_name := "::Derived", type := "class",
                    from_file := "/src/a.hpp", include_path := "/a.hpp",
                    bases := ["::Base"], known_bases := ["::Base"] }
         current_access := CX_CXXAccessSpecifier.CX_CXXPrivate
         cursors := [{ kind := CXCursorKind.ClassDecl, handle := 2 }] }] }

theorem find_index_none {α : Type} (p : α → Bool) (l : List α) :
    find_index p l = none ↔ ∀ x ∈ l, p x = false := by
  induction l with
  | nil => simp [find_index]
  | cons x xs ih =>
    by_cases hx : p x = true
    · simp [find_index, hx]
    · simp [find_index, hx, ih]

theorem find_index_some {α : Type} (p : α → Bool) (l : List α) (i : Nat)
    (h : find_index p l = some i) :
    ∃ x, l[i]? = some x ∧ p x = true ∧ ∀ j y, j < i → l[j]? = some y → p y = false := by
  induction l generalizing i with
  | nil => simp [find_index] at h
  | cons x xs ih =>
    by_cases hx : p x = true
    · simp [find_index, hx] at h
      subst h
      exact ⟨x, by simp, hx, by intro j y hj; omega⟩
    · simp [find_index, hx] at h
      obtain ⟨k, hk, rfl⟩ := h
      obtain ⟨y, hy, hpy, hmin⟩ := ih k hk
      refine ⟨y, by simpa using hy, hpy, ?_⟩
      intro j z hj hz
      cases j with
      | zero =>
        simp at hz
        subst hz
        simpa using hx
      | succ j =>
        exact hmin j z (by omega) (by simpa using hz)

theorem length_update_at {α : Type} (f : α → α) (l : List α) (i : Nat) :
    (update_at f l i).length = l.length := by
  induction l generalizing i with
  | nil => simp [update_at]
  | cons x xs ih =>
    cases i with
    | zero => simp [update_at]
    | succ i => simp [update_at, ih]

theorem getElem?_update_at {α : Type} (f : α → α) (l : List α) (i j : Nat) :
    (update_at f l i)[j]? = if j = i then (l[j]?).map f else l[j]? := by
  induction l generalizing i j with
  | nil => simp [update_at]
  | cons x xs ih =>
    cases i with
    | zero =>
      cases j with
      | zero => simp [update_at]
      | succ j => simp [update_at]
    | succ i =>
      cases j with
      | zero => simp [update_at]
      | succ j => simpa [update_at] using ih i j

theorem map_update_at {α β : Type} (f : α → α) (g : α → β) (l : List α) (i : Nat)
    (h : ∀ x, g (f x) = g x) : (update_at f l i).map g = l.map g := by
  induction l generalizing i with
  | nil => simp [update_at]
  | cons x xs ih =>
    cases i with
    | zero => simp [update_at, h]
    | succ i => simp [update_at, ih]

theorem remove_last_value_length (parts : List String) (h : parts ≠ []) :
    (remove_last_value parts).length < parts.length := by
  obtain ⟨init, last, rfl⟩ : ∃ init last, parts = init ++ [last] :=
    ⟨parts.dropLast, parts.getLast h, (List.dropLast_append_getLast h).symm⟩
  have hl : (init ++ [last]).getLast? = some last := by simp
  simp only [remove_last_value, hl, List.filter_append, List.length_append,
    List.length_singleton]
  have h1 : (List.filter (fun part => part != last) init).length ≤ init.length :=
    List.length_filter_le _ _
  have h2 : (List.filter (fun part => part != last) [last]).length = 0 := by
    simp [List.filter]
  omega

/-- The loop of `find_class_like` never exhausts its fuel: any two bounds
above the number of parts give the same result. -/
theorem find_class_like_loop_fuel (self : TwiliParser) (symbol_name : String)
    (fuel1 fuel2 : Nat) (parts : List String)
    (h1 : parts.length < fuel1) (h2 : parts.length < fuel2) :
    find_class_like_loop self symbol_name fuel1 parts
      = find_class_like_loop self symbol_name fuel2 parts := by
  induction fuel1 generalizing fuel2 parts with
  | zero => omega
  | succ f1 ih =>
    cases fuel2 with
    | zero => omega
    | succ f2 =>
      simp only [find_class_like_loop]
      split
      · rfl
      · split
        · rename_i hpos
          have hne : parts ≠ [] := by
            intro hnil
            subst hnil
            simp [remove_last_value] at hpos
          have hlt := remove_last_value_length parts hne
          exact ih f2 _ (by omega) (by omega)
        · rfl

/-! ## find_class_like -/

/-- C1 (defect of the code): the claim says that a lookup from the scope
`::A::B::A` tries every enclosing scope, innermost first, so that with a class
registered as `::A::B::Base` the symbol `Base` resolves to it. The components
of the scope are `A`, `B`, `A`; `parts.remove(*parts.rbegin())` erases both
occurrences of `A`, the candidate `::A::B::Base` is never tried, and
`find_class_like` returns nothing although that class is registered. Through
the visitor, `namespace A { namespace B { class Base {}; class A : public Base
{}; } }` leaves the base of `::A::B::A` unresolved. -/
theorem find_class_like_skips_enclosing_scope :
    split "::A::B::A" ':' = ["A", "B", "A"]
    ∧ remove_last_value ["A", "B", "A"] = ["B"]
    ∧ find_class_by_name (registry_of ["::A::B::Base"]) ("::A::B::A" ++ "::" ++ "Base") = none
    ∧ find_class_by_name (registry_of ["::A::B::Base"])
        (parent_context_of (["A", "B", "A"].take 2) ++ "::" ++ "Base") = some 0
    ∧ find_class_like (registry_of ["::A::B::Base"]) "Base" "::A::B::A" = none
    ∧ (Except.toOption
          (run plain_engine (initial ["/src"])
            [ { cur := declaration CXCursorKind.Namespace 1 "A" "/src/a.hpp"
                parent := translation_unit },
              { cur := declaration CXCursorKind.Namespace 2 "B" "/src/a.hpp"
                parent := { kind := CXCursorKind.Namespace, handle := 1 } },
              { cur := declaration CXCursorKind.ClassDecl 3 "Base" "/src/a.hpp"
                parent := { kind := CXCursorKind.Namespace, handle := 2 } },
              { cur := declaration CXCursorKind.ClassDecl 4 "A" "/src/a.hpp"
                parent := { kind := CXCursorKind.Namespace, handle := 2 } },
              { cur := declaration CXCursorKind.CXXBaseSpecifier 5 "class Base" "/src/a.hpp"
                parent := { kind := CXCursorKind.ClassDecl, handle := 4 } } ])).map
        (fun s => s.classes.map (fun c => (c.klass.full_name, c.klass.bases, c.klass.known_bases)))
      = some [("::A::B::Base", [], []), ("::A::B::A", ["Base"], [])] := by
  decide

/-- C2 (defect of the code): the claim says that a class returned by
`find_class_like` is always named by a leading part of the components of the
scope followed by the symbol. From the scope `::A::B::A`, with `Base`
registered only as `::B::Base`, the lookup returns that class, although `::B`
is none of the scopes `::`, `::A`, `::A::B`, `::A::B::A` enclosing the lookup
point (both occurrences of `A` are erased at once). With `Base` registered
only in the sibling scope `::A::D`, the lookup from `::A::B::C` returns
nothing, as the claim says. Through the visitor, `namespace B { class Base {}; }
class Base {}; namespace A { namespace B { class A : public Base {}; } }`
records `::B::Base` as the base of `::A::B::A`. -/
theorem find_class_like_leaves_enclosing_scopes :
    find_class_like (registry_of ["::B::Base"]) "Base" "::A::B::A" = some 0
    ∧ (∀ k, k ≤ 3 →
        parent_context_of ((split "::A::B::A" ':').take k) ++ "::" ++ "Base" ≠ "::B::Base")
    ∧ find_class_like (registry_of ["::A::D::Base"]) "Base" "::A::B::C" = none
    ∧ (Except.toOption
          (run plain_engine (initial ["/src"])
            [ { cur := declaration CXCursorKind.Namespace 1 "B" "/src/a.hpp"
                parent := translation_unit },
              { cur := declaration CXCursorKind.ClassDecl 2 "Base" "/src/a.hpp"
                parent := { kind := CXCursorKind.Namespace, handle := 1 } },
              { cur := declaration CXCursorKind.ClassDecl 3 "Base" "/src/a.hpp"
                parent := translation_unit },
              { cur := declaration CXCursorKind.Namespace 4 "A" "/src/a.hpp"
                parent := translation_unit },
              { cur := declaration CXCursorKind.Namespace 5 "B" "/src/a.hpp"
                parent := { kind := CXCursorKind.Namespace, handle := 4 } },
              { cur := declaration CXCursorKind.ClassDecl 6 "A" "/src/a.hpp"
                parent := { kind := CXCursorKind.Namespace, handle := 5 } },
              { cur := declaration CXCursorKind.CXXBaseSpecifier 7 "class Base" "/src/a.hpp"
                parent := { kind := CXCursorKind.ClassDecl, handle := 6 } } ])).map
        (fun s => s.classes.map (fun c => (c.klass.full_name, c.klass.bases)))
      = some [("::B::Base", []), ("::Base", []), ("::A::B::A", ["::B::Base"])] := by
  decide

theorem find_class_by_name_some (self : TwiliParser) (full_name : String) (j : Nat)
    (h : find_class_by_name self full_name = some j) :
    ∃ bc, self.classes[j]? = some bc ∧ bc.klass.full_name = full_name := by
  obtain ⟨bc, hget, hp, _⟩ := find_index_some _ _ _ h
  exact ⟨bc, hget, by simpa using hp⟩

theorem find_class_like_loop_some (self : TwiliParser) (symbol_name : String)
    (fuel : Nat) (parts : List String) (j : Nat)
    (h : find_class_like_loop self symbol_name fuel parts = some j) :
    ∃ bc, self.classes[j]? = some bc := by
  induction fuel generalizing parts with
  | zero => simp [find_class_like_loop] at h
  | succ fuel ih =>
    simp only [find_class_like_loop] at h
    split at h
    · rename_i found hfound
      cases h
      obtain ⟨bc, hget, _⟩ := find_class_by_name_some self _ _ hfound
      exact ⟨bc, hget⟩
    · split at h
      · exact ih _ h
      · cases h

theorem find_class_like_some (self : TwiliParser) (symbol_name cpp_context : String) (j : Nat)
    (h : find_class_like self symbol_name cpp_context = some j) :
    ∃ bc, self.classes[j]? = some bc := by
  simp only [find_class_like] at h
  split at h
  · rename_i exact hexact
    cases h
    obtain ⟨bc, hget, _⟩ := find_class_by_name_some self _ _ hexact
    exact ⟨bc, hget⟩
  · exact find_class_like_loop_some self symbol_name _ _ j h

/-! ## visit_base_class -/

/-- C3: `visit_base_class` appends exactly one entry to the `bases` of the class
it is called on. When the normalized symbol resolves (`find_class_like` finds
a class), the full name of that class is appended to `bases` and to
`known_bases`; otherwise the normalized symbol is appended to `bases` and
`known_bases` is unchanged. Nothing else of the class and no other class
changes. `class Base {}; class Derived : public Base {};` gives
`bases == ["::Base"]`, `known_bases == ["::Base"]`, and an unknown base
`Unknown` gives `bases == ["Unknown"]`, `known_bases == []`. -/
theorem visit_base_class_appends_one (self : TwiliParser) (current_class : Nat)
    (cc : ClassContext) (cursor_text : String)
    (hcc : self.classes[current_class]? = some cc) :
    (match find_class_like self
        (strip_declaration_type_from_class_declaration (remove_template_parameters cursor_text))
        cc.klass.full_name with
      | some base_class =>
        ∃ bc, self.classes[base_class]? = some bc
          ∧ (visit_base_class self current_class cursor_text).classes[current_class]?
            = some { cc with klass :=
                { cc.klass with
                  bases := cc.klass.bases ++ [bc.klass.full_name]
                  known_bases := cc.klass.known_bases ++ [bc.klass.full_name] } }
      | none =>
        (visit_base_class self current_class cursor_text).classes[current_class]?
          = some { cc with klass :=
              { cc.klass with
                bases := cc.klass.bases ++
                  [strip_declaration_type_from_class_declaration
                    (remove_template_parameters cursor_text)] } })
    ∧ (∀ j, j ≠ current_class →
        (visit_base_class self current_class cursor_text).classes[j]? = self.classes[j]?)
    ∧ (visit_base_class self current_class cursor_text).classes.length = self.classes.length
    ∧ (Except.toOption
          (run plain_engine (initial ["/src"])
            [ { cur := declaration CXCursorKind.ClassDecl 1 "Base" "/src/a.hpp"
                parent := translation_unit },
              { cur := declaration CXCursorKind.ClassDecl 2 "Derived" "/src/a.hpp"
                parent := translation_unit },
              { cur := declaration CXCursorKind.CXXBaseSpecifier 3 "class Base" "/src/a.hpp"
                parent := { kind := CXCursorKind.ClassDecl, handle := 2 } } ])).map
        (fun s => s.classes.map (fun c => (c.klass.full_name, c.klass.bases, c.klass.known_bases)))
      = some [("::Base", [], []), ("::Derived", ["::Base"], ["::Base"])]
    ∧ (Except.toOption
          (run plain_engine (initial ["/src"])
            [ { cur := declaration CXCursorKind.ClassDecl 2 "Derived" "/src/a.hpp"
                parent := translation_unit },
              { cur := declaration CXCursorKind.CXXBaseSpecifier 3 "Unknown" "/src/a.hpp"
                parent := { kind := CXCursorKind.ClassDecl, handle := 2 } } ])).map
        (fun s => s.classes.map (fun c => (c.klass.full_name, c.klass.bases, c.klass.known_bases)))
      = some [("::Derived", ["Unknown"], [])] := by
  refine ⟨?_, ?_, ?_, by decide, by decide⟩
  · split
    · rename_i base_class hfound
      obtain ⟨bc, hbc⟩ := find_class_like_some self _ _ _ hfound
      refine ⟨bc, hbc, ?_⟩
      simp only [visit_base_class, hcc, hfound, hbc, getElem?_update_at]
      simp
    · rename_i hnone
      simp only [visit_base_class, hcc, hnone, getElem?_update_at]
      simp
  · intro j hj
    simp only [visit_base_class, hcc]
    split
    · split
      · rfl
      · simp [getElem?_update_at, hj]
    · simp [getElem?_update_at, hj]
  · simp only [visit_base_class, hcc]
    split
    · split
      · rfl
      · simp [length_update_at]
    · simp [length_update_at]

/-- C3, at a concrete registry: `Derived` gets the resolved base `::Base` in both
lists. -/
theorem visit_base_class_appends_one_witness :
    (registry_of ["::Base", "::Derived"]).classes[1]?
        = some { klass := { full_name := "::Derived" } }
    ∧ ∃ bc, (registry_of ["::Base", "::Derived"]).classes[0]? = some bc
        ∧ (visit_base_class (registry_of ["::Base", "::Derived"]) 1 "class Base").classes[1]?
          = some { klass :=
              { full_name := "::Derived"
                bases := [] ++ [bc.klass.full_name]
                known_bases := [] ++ [bc.klass.full_name] } } :=
  ⟨by decide,
    (visit_base_class_appends_one (registry_of ["::Base", "::Derived"]) 1
      { klass := { full_name := "::Derived" } } "class Base" (by decide)).1⟩

/-- C4, refuted as stated: the class `::N::D` has a nested class `::N::D::Base`
and its enclosing scope `::N` has a class `::N::Base`. A lookup rooted at the
enclosing scope `::N` finds `::N::Base`, but `visit_base_class` records the
nested class `::N::D::Base` as the base of `::N::D`. -/
theorem visit_base_class_selects_nested_class :
    find_class_like (registry_of ["::N::D", "::N::D::Base", "::N::Base"]) "Base" "::N" = some 2
    ∧ ((visit_base_class (registry_of ["::N::D", "::N::D::Base", "::N::Base"]) 0
          "Base").classes[0]?).map (fun c => (c.klass.bases, c.klass.known_bases))
        = some (["::N::D::Base"], ["::N::D::Base"]) := by
  decide

/-- C4, amended: the base-class lookup is rooted at the declaring class itself.
For every class with full name `F` and every base-specifier text, the entry
`visit_base_class` appends is decided by `find_class_like(symbol, F)`: the
first candidate tried is `F::symbol`, so a class registered under that name
(a class nested inside the declaring class) is the one recorded, in `bases`
and in `known_bases`; the scopes enclosing the class are tried only when no
such class is registered. -/
theorem visit_base_class_rooted_at_class (self : TwiliParser) (current_class : Nat)
    (cc : ClassContext) (cursor_text : String)
    (hcc : self.classes[current_class]? = some cc) :
    (visit_base_class self current_class cursor_text).classes[current_class]?
      = some
        (match find_class_like self
            (strip_declaration_type_from_class_declaration
              (remove_template_parameters cursor_text))
            cc.klass.full_name with
          | some base_class =>
            { cc with klass :=
              { cc.klass with
                bases := cc.klass.bases ++
                  [((self.classes[base_class]?).getD {}).klass.full_name]
                known_bases := cc.klass.known_bases ++
                  [((self.classes[base_class]?).getD {}).klass.full_name] } }
          | none =>
            { cc with klass :=
              { cc.klass with
                bases := cc.klass.bases ++
                  [strip_declaration_type_from_class_declaration
                    (remove_template_parameters cursor_text)] } })
    ∧ (∀ nested,
        find_class_by_name self
            (cc.klass.full_name ++ "::" ++
              strip_declaration_type_from_class_declaration
                (remove_template_parameters cursor_text)) = some nested →
        find_class_like self
            (strip_declaration_type_from_class_declaration
              (remove_template_parameters cursor_text)) cc.klass.full_name = some nested
        ∧ ((visit_base_class self current_class cursor_text).classes[current_class]?).map
            (fun c => (c.klass.bases, c.klass.known_bases))
          = some
            (cc.klass.bases ++
                [cc.klass.full_name ++ "::" ++
                  strip_declaration_type_from_class_declaration
                    (remove_template_parameters cursor_text)],
              cc.klass.known_bases ++
                [cc.klass.full_name ++ "::" ++
                  strip_declaration_type_from_class_declaration
                    (remove_template_parameters cursor_text)])) := by
  constructor
  · split
    · rename_i base_class hfound
      obtain ⟨bc, hbc⟩ := find_class_like_some self _ _ _ hfound
      simp only [visit_base_class, hcc, hfound, hbc, getElem?_update_at]
      simp
    · rename_i hnone
      simp only [visit_base_class, hcc, hnone, getElem?_update_at]
      simp
  · intro nested hnested
    have hlike : find_class_like self
        (strip_declaration_type_from_class_declaration
          (remove_template_parameters cursor_text)) cc.klass.full_name = some nested := by
      simp only [find_class_like, hnested]
    obtain ⟨bc, hbc, hname⟩ := find_class_by_name_some self _ _ hnested
    refine ⟨hlike, ?_⟩
    simp only [visit_base_class, hcc, hlike, hbc, getElem?_update_at]
    simp [hname]

/-- C4 amended, at a concrete registry: the nested class `::N::D::Base` is the
recorded base of `::N::D`. -/
theorem visit_base_class_rooted_at_class_witness :
    (registry_of ["::N::D", "::N::D::Base", "::N::Base"]).classes[0]?
        = some { klass := { full_name := "::N::D" } }
    ∧ find_class_by_name (registry_of ["::N::D", "::N::D::Base", "::N::Base"])
        ("::N::D" ++ "::" ++ "Base") = some 1
    ∧ find_class_like (registry_of ["::N::D", "::N::D::Base", "::N::Base"]) "Base" "::N::D"
        = some 1
    ∧ ((visit_base_class (registry_of ["::N::D", "::N::D::Base", "::N::Base"]) 0
          "Base").classes[0]?).map (fun c => (c.klass.bases, c.klass.known_bases))
      = some ([] ++ ["::N::D" ++ "::" ++ "Base"], [] ++ ["::N::D" ++ "::" ++ "Base"]) :=
  ⟨by decide, by decide,
    (visit_base_class_rooted_at_class (registry_of ["::N::D", "::N::D::Base", "::N::Base"]) 0
      { klass := { full_name := "::N::D" } } "Base" (by decide)).2 1 (by decide)⟩

/-! ## visit_class -/

/-- C5: a class event whose fully-qualified name is that of an existing record
with at least one base, constructor or method changes nothing of that record
but its remembered cursors (`from_file`, `include_path`, `bases`,
`known_bases`, `constructors`, `methods`, `fields` and `template_parameters`
are those of before), adds no class record and no type entry, leaves every
other class and every other registry unchanged, and returns
`CXChildVisit_Continue`. -/
theorem visit_class_populated_duplicate (self : TwiliParser) (cur : CursorInfo)
    (parent : CXCursor) (full_name : String) (existing : Nat) (e : ClassContext)
    (hname : class_full_name self cur parent = some full_name)
    (hfind : find_class_by_name self full_name = some existing)
    (hget : self.classes[existing]? = some e)
    (hpopulated : e.klass.is_empty = false) :
    (visit_class self cur parent).2 = CXChildVisitResult.CXChildVisit_Continue
    ∧ (visit_class self cur parent).1.classes[existing]?
        = some { e with cursors := e.cursors ++ [cur.cursor] }
    ∧ (∀ j, j ≠ existing → (visit_class self cur parent).1.classes[j]? = self.classes[j]?)
    ∧ (visit_class self cur parent).1.classes.length = self.classes.length
    ∧ (visit_class self cur parent).1.types = self.types
    ∧ (visit_class self cur parent).1.namespaces = self.namespaces
    ∧ (visit_class self cur parent).1.enums = self.enums
    ∧ (visit_class self cur parent).1.functions = self.functions
    ∧ (visit_class self cur parent).1.class_template_context = self.class_template_context
    ∧ (visit_class self cur parent).1.function_template_context
        = self.function_template_context := by
  simp only [visit_class, hname, hfind, hget, hpopulated]
  refine ⟨by simp, ?_, ?_, ?_, trivial, trivial, trivial, trivial, trivial, trivial⟩
  · simp [getElem?_update_at, hget, hpopulated]
  · intro j hj
    simp [getElem?_update_at, hj]
  · simp [length_update_at]

/-- C5, at a concrete registry: `::S` has a method, and a second `struct S`
event at translation-unit level is answered by `CXChildVisit_Continue`. -/
theorem visit_class_populated_duplicate_witness :
    class_full_name { classes := [class_record "::S" ["m"]] }
        (declaration CXCursorKind.StructDecl 7 "S" "/src/a.hpp") translation_unit = some "::S"
    ∧ find_class_by_name { classes := [class_record "::S" ["m"]] } "::S" = some 0
    ∧ [class_record "::S" ["m"]][0]? = some (class_record "::S" ["m"])
    ∧ (class_record "::S" ["m"]).klass.is_empty = false
    ∧ (visit_class { classes := [class_record "::S" ["m"]] }
        (declaration CXCursorKind.StructDecl 7 "S" "/src/a.hpp") translation_unit).2
        = CXChildVisitResult.CXChildVisit_Continue :=
  ⟨by decide, by decide, by decide, by decide,
    (visit_class_populated_duplicate { classes := [class_record "::S" ["m"]] }
      (declaration CXCursorKind.StructDecl 7 "S" "/src/a.hpp") translation_unit "::S" 0
      (class_record "::S" ["m"]) (by decide) (by decide) (by decide) (by decide)).1⟩

/-- C6: a class event whose fully-qualified name is that of an existing empty
record (no base, constructor or method) overwrites the `from_file` and
`include_path` of that record with those of the new declaration, remembers
the cursor, creates no class record and no type entry, and returns
`CXChildVisit_Recurse`; and whenever `visit_class` changes the `from_file` or
the `include_path` of a record, that record was empty. -/
theorem visit_class_refreshes_empty_record (self : TwiliParser) (cur : CursorInfo)
    (parent : CXCursor) :
    (∀ (full_name : String) (existing : Nat) (e : ClassContext),
      class_full_name self cur parent = some full_name →
      find_class_by_name self full_name = some existing →
      self.classes[existing]? = some e →
      e.klass.is_empty = true →
      (visit_class self cur parent).2 = CXChildVisitResult.CXChildVisit_Recurse
      ∧ (visit_class self cur parent).1.classes[existing]?
          = some { e with
              klass := { e.klass with
                from_file := cur.path
                include_path := get_relative_path self cur.path }
              cursors := e.cursors ++ [cur.cursor] }
      ∧ (∀ j, j ≠ existing → (visit_class self cur parent).1.classes[j]? = self.classes[j]?)
      ∧ (visit_class self cur parent).1.classes.length = self.classes.length
      ∧ (visit_class self cur parent).1.types = self.types)
    ∧ (∀ (j : Nat) (before after : ClassContext),
      self.classes[j]? = some before →
      (visit_class self cur parent).1.classes[j]? = some after →
      (after.klass.from_file ≠ before.klass.from_file
        ∨ after.klass.include_path ≠ before.klass.include_path) →
      before.klass.is_empty = true) := by
  constructor
  · intro full_name existing e hname hfind hget hempty
    simp only [visit_class, hname, hfind, hget, hempty]
    refine ⟨by simp, ?_, ?_, ?_, trivial⟩
    · simp [getElem?_update_at, hget, hempty]
    · intro j hj
      simp [getElem?_update_at, hj]
    · simp [length_update_at]
  · intro j before after hbefore hafter hchanged
    by_contra hne
    have hne : before.klass.is_empty = false := by simpa using hne
    simp only [visit_class] at hafter
    split at hafter
    · rw [hbefore] at hafter
      cases hafter
      simp at hchanged
    · split at hafter
      · simp only [getElem?_update_at, hbefore] at hafter
        split at hafter
        · simp [hne] at hafter
          subst hafter
          simp at hchanged
        · cases hafter
          simp at hchanged
      · have hlt : j < self.classes.length := by
          by_contra hge
          have : self.classes[j]? = none := by
            simp only [List.getElem?_eq_none_iff]
            omega
          rw [this] at hbefore
          cases hbefore
        simp only [register_type, List.getElem?_append_left hlt, hbefore] at hafter
        cases hafter
        simp at hchanged

/-- C6, at a concrete registry: `::S` is an empty record, and a `struct S`
event from `/src/b.hpp` gives it that file and is answered by
`CXChildVisit_Recurse`. -/
theorem visit_class_refreshes_empty_record_witness :
    class_full_name { directories := ["/src"], classes := [class_record "::S" []] }
        (declaration CXCursorKind.StructDecl 7 "S" "/src/b.hpp") translation_unit = some "::S"
    ∧ find_class_by_name { directories := ["/src"], classes := [class_record "::S" []] } "::S"
        = some 0
    ∧ [class_record "::S" []][0]? = some (class_record "::S" [])
    ∧ (class_record "::S" []).klass.is_empty = true
    ∧ (visit_class { directories := ["/src"], classes := [class_record "::S" []] }
        (declaration CXCursorKind.StructDecl 7 "S" "/src/b.hpp") translation_unit).2
        = CXChildVisitResult.CXChildVisit_Recurse :=
  ⟨by decide, by decide, by decide, by decide,
    ((visit_class_refreshes_empty_record
      { directories := ["/src"], classes := [class_record "::S" []] }
      (declaration CXCursorKind.StructDecl 7 "S" "/src/b.hpp") translation_unit).1 "::S" 0
      (class_record "::S" []) (by decide) (by decide) (by decide) (by decide)).1⟩

theorem find_eq_some_mem {α : Type} (p : α → Bool) (l : List α) (x : α)
    (h : l.find? p = some x) : x ∈ l ∧ p x = true := by
  exact ⟨List.mem_of_find?_eq_some h, List.find?_some h⟩

/-- C7: a class, struct or class-template event whose fully-qualified name is
not yet registered appends exactly one class record, with that full name and
the cursor spelling as name, and exactly one type entry, whose name is the
class name, whose `type_full_name` is the full name and whose kind is
`StructKind` for a struct declaration and `ClassKind` otherwise, and returns
`CXChildVisit_Recurse`. The full name is `"::" + name` under the translation
unit, and otherwise the full name of the class or namespace that owns the
parent cursor, followed by `"::" + name`. -/
theorem visit_class_registers_new_class (self : TwiliParser) (cur : CursorInfo)
    (parent : CXCursor) (full_name : String)
    (hname : class_full_name self cur parent = some full_name)
    (hnew : find_class_by_name self full_name = none) :
    (∃ (c : ClassContext) (t : TypeDefinition),
      (visit_class self cur parent).1.classes = self.classes ++ [c]
      ∧ c.klass.full_name = full_name
      ∧ c.klass.name = cur.spelling
      ∧ (visit_class self cur parent).1.types = self.types ++ [t]
      ∧ t.name = cur.spelling
      ∧ t.type_full_name = full_name
      ∧ t.kind = (if cur.cursor.kind = CXCursorKind.StructDecl then TypeKind.StructKind
                  else TypeKind.ClassKind))
    ∧ (visit_class self cur parent).2 = CXChildVisitResult.CXChildVisit_Recurse
    ∧ (parent.kind = CXCursorKind.TranslationUnit → full_name = "::" ++ cur.spelling)
    ∧ (parent.kind ≠ CXCursorKind.TranslationUnit →
        ∃ base, full_name = base ++ "::" ++ cur.spelling
          ∧ ((∃ pc ∈ self.classes, pc.has_cursor parent = true ∧ pc.klass.full_name = base)
            ∨ (∃ ns ∈ self.namespaces, ns.has_cursor parent = true
                ∧ ns.ns.full_name = base))) := by
  refine ⟨?_, ?_, ?_, ?_⟩
  · simp only [visit_class, hname, hnew, register_type]
    refine ⟨_, _, rfl, rfl, rfl, rfl, rfl, rfl, ?_⟩
    by_cases hk : cur.cursor.kind = CXCursorKind.StructDecl
    · simp [hk]
    · simp [hk]
  · simp only [visit_class, hname, hnew]
  · intro htu
    simp only [class_full_name, htu, if_true] at hname
    exact (Option.some.inj hname).symm
  · intro htu
    simp only [class_full_name, htu, if_false] at hname
    split at hname
    · rename_i parent_class hpc
      obtain ⟨pc, hget, hp, _⟩ := find_index_some _ _ _ hpc
      simp only [hget] at hname
      split at hname
      · cases hname
      · refine ⟨pc.klass.full_name, (Option.some.inj hname).symm, Or.inl ⟨pc, ?_, hp, rfl⟩⟩
        exact List.getElem?_mem hget
    · split at hname
      · rename_i context_fullname hctx
        refine ⟨context_fullname, (Option.some.inj hname).symm, ?_⟩
        simp only [fullname_for] at hctx
        split at hctx
        · rename_i ns hns
          obtain ⟨hmem, hp⟩ := find_eq_some_mem _ _ _ hns
          exact Or.inr ⟨ns, hmem, hp, Option.some.inj hctx⟩
        · split at hctx
          · rename_i c hc
            obtain ⟨hmem, hp⟩ := find_eq_some_mem _ _ _ hc
            exact Or.inl ⟨c, hmem, hp, Option.some.inj hctx⟩
          · cases hctx
      · cases hname

/-- C7, at a concrete registry: a `struct S` event at translation-unit level in
an empty registry registers the class `::S`. -/
theorem visit_class_registers_new_class_witness :
    class_full_name (initial ["/src"])
        (declaration CXCursorKind.StructDecl 7 "S" "/src/a.hpp") translation_unit = some "::S"
    ∧ find_class_by_name (initial ["/src"]) "::S" = none
    ∧ (visit_class (initial ["/src"])
        (declaration CXCursorKind.StructDecl 7 "S" "/src/a.hpp") translation_unit).2
        = CXChildVisitResult.CXChildVisit_Recurse :=
  ⟨by decide, by decide,
    (visit_class_registers_new_class (initial ["/src"])
      (declaration CXCursorKind.StructDecl 7 "S" "/src/a.hpp") translation_unit "::S"
      (by decide) (by decide)).2.1⟩

/-! ## Registry invariants: lemmas -/

theorem mem_update_at {α : Type} (f : α → α) (l : List α) (i : Nat) (x : α)
    (h : x ∈ update_at f l i) : x ∈ l ∨ ∃ y ∈ l, x = f y := by
  induction l generalizing i with
  | nil => simp [update_at] at h
  | cons a as ih =>
    cases i with
    | zero =>
      simp only [update_at, List.mem_cons] at h
      rcases h with h | h
      · exact Or.inr ⟨a, by simp, h⟩
      · exact Or.inl (by simp [h])
    | succ i =>
      simp only [update_at, List.mem_cons] at h
      rcases h with h | h
      · exact Or.inl (by simp [h])
      · rcases ih i h with h | ⟨y, hy, hxy⟩
        · exact Or.inl (by simp [h])
        · exact Or.inr ⟨y, by simp [hy], hxy⟩

theorem names_ok_update_classes (classes : List ClassContext)
    (namespaces : List NamespaceContext) (enums : List EnumContext)
    (f : ClassContext → ClassContext) (i : Nat)
    (hname : ∀ c, (f c).klass.full_name = c.klass.full_name)
    (hfields : ∀ c, (field_names c).Nodup → (field_names (f c)).Nodup)
    (h : names_ok classes namespaces enums) :
    names_ok (update_at f classes i) namespaces enums := by
  obtain ⟨hc, hn, he, hf⟩ := h
  refine ⟨?_, hn, he, ?_⟩
  · rw [map_update_at f _ classes i hname]
    exact hc
  · intro c hmem
    rcases mem_update_at f classes i c hmem with h | ⟨y, hy, rfl⟩
    · exact hf c h
    · exact hfields y (hf y hy)

theorem names_ok_update_namespaces (classes : List ClassContext)
    (namespaces : List NamespaceContext) (enums : List EnumContext)
    (f : NamespaceContext → NamespaceContext) (i : Nat)
    (hname : ∀ n, (f n).ns.full_name = n.ns.full_name)
    (h : names_ok classes namespaces enums) :
    names_ok classes (update_at f namespaces i) enums := by
  obtain ⟨hc, hn, he, hf⟩ := h
  refine ⟨hc, ?_, he, hf⟩
  rw [map_update_at f _ namespaces i hname]
  exact hn

theorem names_ok_update_enums (classes : List ClassContext)
    (namespaces : List NamespaceContext) (enums : List EnumContext)
    (f : EnumContext → EnumContext) (i : Nat)
    (hname : ∀ e, (f e).en.full_name = e.en.full_name)
    (h : names_ok classes namespaces enums) :
    names_ok classes namespaces (update_at f enums i) := by
  obtain ⟨hc, hn, he, hf⟩ := h
  refine ⟨hc, hn, ?_, hf⟩
  rw [map_update_at f _ enums i hname]
  exact he

theorem nodup_map_append_new {α : Type} (g : α → String) (l : List α) (x : α)
    (hnew : ∀ y ∈ l, (g y == g x) = false) (h : (l.map g).Nodup) :
    ((l ++ [x]).map g).Nodup := by
  rw [List.map_append, List.nodup_append]
  refine ⟨h, by simp, ?_⟩
  intro a ha hb
  simp only [List.map_cons, List.map_nil, List.mem_singleton] at hb
  obtain ⟨y, hy, rfl⟩ := List.mem_map.mp ha
  have := hnew y hy
  simp [hb] at this

theorem names_ok_append_class (classes : List ClassContext)
    (namespaces : List NamespaceContext) (enums : List EnumContext) (c : ClassContext)
    (hnew : ∀ y ∈ classes, (y.klass.full_name == c.klass.full_name) = false)
    (hfields : (field_names c).Nodup)
    (h : names_ok classes namespaces enums) :
    names_ok (classes ++ [c]) namespaces enums := by
  obtain ⟨hc, hn, he, hf⟩ := h
  refine ⟨nodup_map_append_new _ classes c hnew hc, hn, he, ?_⟩
  intro x hx
  rcases List.mem_append.mp hx with hx | hx
  · exact hf x hx
  · simp only [List.mem_singleton] at hx
    subst hx
    exact hfields

theorem names_ok_append_namespace (classes : List ClassContext)
    (namespaces : List NamespaceContext) (enums : List EnumContext) (n : NamespaceContext)
    (hnew : ∀ y ∈ namespaces, (y.ns.full_name == n.ns.full_name) = false)
    (h : names_ok classes namespaces enums) :
    names_ok classes (namespaces ++ [n]) enums := by
  obtain ⟨hc, hn, he, hf⟩ := h
  exact ⟨hc, nodup_map_append_new _ namespaces n hnew hn, he, hf⟩

theorem names_ok_append_enum (classes : List ClassContext)
    (namespaces : List NamespaceContext) (enums : List EnumContext) (e : EnumContext)
    (hnew : ∀ y ∈ enums, (y.en.full_name == e.en.full_name) = false)
    (h : names_ok classes namespaces enums) :
    names_ok classes namespaces (enums ++ [e]) := by
  obtain ⟨hc, hn, he, hf⟩ := h
  exact ⟨hc, hn, nodup_map_append_new _ enums e hnew he, hf⟩

theorem registry_ok_visit_namespace (self : TwiliParser) (cur : CursorInfo)
    (parent : CXCursor) (h : registry_ok self) :
    registry_ok (visit_namespace self cur parent).1 := by
  simp only [visit_namespace]
  split
  · rename_i hnone
    exact names_ok_append_namespace _ _ _ _ ((find_index_none _ _).mp hnone) h
  · exact names_ok_update_namespaces _ _ _ _ _ (fun _ => rfl) h

theorem registry_ok_visit_typedef (eng : TypeEngine) (self : TwiliParser) (cur : CursorInfo)
    (parent : CXCursor) (h : registry_ok self) :
    registry_ok (visit_typedef eng self cur parent).1 := by
  simp only [visit_typedef]
  split
  · split
    · exact h
    · exact h
  · exact h

theorem registry_ok_visit_enum (self : TwiliParser) (cur : CursorInfo)
    (parent : CXCursor) (h : registry_ok self) :
    registry_ok (visit_enum self cur parent).1 := by
  simp only [visit_enum]
  split
  · rename_i hnone
    exact names_ok_append_enum _ _ _ _ ((find_index_none _ _).mp hnone) h
  · exact h

theorem registry_ok_visit_enum_constant (self : TwiliParser) (cur : CursorInfo)
    (parent : CXCursor) (h : registry_ok self) :
    registry_ok (visit_enum_constant self cur parent).1 := by
  simp only [visit_enum_constant]
  split
  · exact names_ok_update_enums _ _ _ _ _ (fun _ => rfl) h
  · exact h

theorem registry_ok_visit_class (self : TwiliParser) (cur : CursorInfo)
    (parent : CXCursor) (h : registry_ok self) :
    registry_ok (visit_class self cur parent).1 := by
  simp only [visit_class]
  split
  · exact h
  · split
    · refine names_ok_update_classes _ _ _ _ _ ?_ ?_ h
      · intro c
        split <;> rfl
      · intro c hc
        split <;> exact hc
    · rename_i hnone
      exact names_ok_append_class _ _ _ _ ((find_index_none _ _).mp hnone)
        (by simp [field_names]) h

theorem registry_ok_visit_base_class (self : TwiliParser) (current_class : Nat)
    (cursor_text : String) (h : registry_ok self) :
    registry_ok (visit_base_class self current_class cursor_text) := by
  simp only [visit_base_class]
  split
  · exact h
  · split
    · split
      · exact h
      · exact names_ok_update_classes _ _ _ _ _ (fun _ => rfl) (fun _ hc => hc) h
    · exact names_ok_update_classes _ _ _ _ _ (fun _ => rfl) (fun _ hc => hc) h

theorem initialize_type_name (eng : TypeEngine) (self result : ParamDefinition)
    (type : CXType) (known_types : List TypeDefinition)
    (h : ParamDefinition.initialize_type eng self type known_types = Except.ok result) :
    result.name = self.name := by
  simp only [ParamDefinition.initialize_type] at h
  split at h
  · cases h
  · split at h
    · cases h
      rfl
    · split at h
      · cases h
        rfl
      · cases h
        rfl

theorem initialize_type_ok (eng : TypeEngine) (self : ParamDefinition)
    (type : CXType) (known_types : List TypeDefinition)
    (h : type.kind ≠ CXTypeKind.Invalid) :
    ∃ result, ParamDefinition.initialize_type eng self type known_types = Except.ok result := by
  simp only [ParamDefinition.initialize_type, h, if_false]
  split
  · exact ⟨_, rfl⟩
  · split
    · exact ⟨_, rfl⟩
    · exact ⟨_, rfl⟩

theorem field_from_cursor_name (eng : TypeEngine) (spelling : String) (type : CXType)
    (known_types : List TypeDefinition) (field : FieldDefinition)
    (h : FieldDefinition.from_cursor eng spelling type known_types = Except.ok field) :
    field.name = spelling := by
  simp only [FieldDefinition.from_cursor, ParamDefinition.from_cursor] at h
  split at h
  · rename_i param hparam
    cases h
    exact initialize_type_name eng _ _ _ _ hparam
  · cases h

theorem field_names_add (field : FieldDefinition) (is_static : Bool) (c : ClassContext)
    (hc : (field_names c).Nodup) :
    (field_names
      (if c.klass.fields.any (fun known => known.eq field) then c
        else
          { c with klass :=
            { c.klass with fields :=
                c.klass.fields ++
                  [{ field with
                      is_static := is_static
                      visibility := visibility_of c.current_access }] } })).Nodup := by
  split
  · exact hc
  · rename_i hany
    simp only [field_names, List.map_append, List.map_cons, List.map_nil]
    rw [List.nodup_append]
    refine ⟨hc, by simp, ?_⟩
    intro a ha hb
    simp only [List.mem_singleton] at hb
    obtain ⟨known, hknown, rfl⟩ := List.mem_map.mp ha
    apply hany
    simp only [List.any_eq_true]
    exact ⟨known, hknown, by simp [FieldDefinition.eq, hb]⟩

theorem registry_ok_visit_field (eng : TypeEngine) (self next : TwiliParser)
    (current_class : Nat) (cur : CursorInfo) (is_static : Bool) (result : CXChildVisitResult)
    (hstep : visit_field eng self current_class cur is_static = Except.ok (next, result))
    (h : registry_ok self) : registry_ok next := by
  simp only [visit_field] at hstep
  split at hstep
  · cases hstep
  · rename_i field hfield
    cases hstep
    exact names_ok_update_classes _ _ _ _ _ (fun c => by split <;> rfl)
      (fun c hc => field_names_add field is_static c hc) h

theorem registry_ok_visit_method (eng : TypeEngine) (self next : TwiliParser)
    (current_class : Nat) (cur : CursorInfo) (result : CXChildVisitResult)
    (hstep : visit_method eng self current_class cur = Except.ok (next, result))
    (h : registry_ok self) : registry_ok next := by
  simp only [visit_method] at hstep
  split at hstep
  · cases hstep
  · split at hstep
    · cases hstep
      exact h
    · split at hstep
      · cases hstep
        exact names_ok_update_classes _ _ _ _ _ (fun _ => rfl) (fun _ hc => hc) h
      · cases hstep
        exact names_ok_update_classes _ _ _ _ _ (fun _ => rfl) (fun _ hc => hc) h

theorem registry_ok_visit_member (eng : TypeEngine) (self next : TwiliParser)
    (current_class : Nat) (cur : CursorInfo) (result : CXChildVisitResult)
    (hstep : visit_member eng self current_class cur = Except.ok (next, result))
    (h : registry_ok self) : registry_ok next := by
  simp only [visit_member] at hstep
  split at hstep
  · cases hstep
    exact names_ok_update_classes _ _ _ _ _ (fun _ => rfl) (fun _ hc => hc) h
  · cases hstep
    exact registry_ok_visit_base_class self current_class cur.spelling h
  · cases hstep
    exact names_ok_update_classes _ _ _ _ _ (fun _ => rfl) (fun _ hc => hc) h
  · exact registry_ok_visit_method eng self next current_class cur result hstep h
  · exact registry_ok_visit_method eng self next current_class cur result hstep h
  · exact registry_ok_visit_field eng self next current_class cur false result hstep h
  · exact registry_ok_visit_field eng self next current_class cur true result hstep h
  · exact registry_ok_visit_method eng self next current_class cur result hstep h
  · cases hstep
    exact h

theorem registry_ok_update_template_parameters (self : TwiliParser)
    (f : List TemplateParameter → List TemplateParameter) (ctx : InvokableRef)
    (h : registry_ok self) : registry_ok (update_template_parameters self f ctx) := by
  cases ctx with
  | constructor_at cls idx =>
    exact names_ok_update_classes _ _ _ _ _ (fun _ => rfl) (fun _ hc => hc) h
  | method_at cls idx =>
    exact names_ok_update_classes _ _ _ _ _ (fun _ => rfl) (fun _ hc => hc) h
  | function_at idx => exact h

theorem registry_ok_try_to_visit_template_parameter (eng : TypeEngine) (self : TwiliParser)
    (ctx : InvokableRef) (cur : CursorInfo) (parent : CXCursor) (h : registry_ok self) :
    registry_ok (try_to_visit_template_parameter eng self ctx cur parent).1 := by
  simp only [try_to_visit_template_parameter]
  split
  · exact registry_ok_update_template_parameters self _ ctx h
  · split
    · split
      · exact registry_ok_update_template_parameters self _ ctx h
      · exact h
    · exact h
  · exact h
  · exact h

theorem registry_ok_handle_class_template_context (eng : TypeEngine) (self : TwiliParser)
    (cur : CursorInfo) (parent : CXCursor) (h : registry_ok self) :
    registry_ok (handle_class_template_context eng self cur parent) := by
  simp only [handle_class_template_context]
  split
  · split
    · exact names_ok_update_classes _ _ _ _ _ (fun _ => rfl) (fun _ hc => hc) h
    · exact h
  · exact h

theorem ok_fst {α β : Type} {x : α × β} {a : α} {b : β}
    (h : (Except.ok x : Except Fault (α × β)) = Except.ok (a, b)) : a = x.1 := by
  cases h
  rfl

theorem registry_ok_dispatch (eng : TypeEngine) (self next : TwiliParser)
    (cur : CursorInfo) (parent : CXCursor) (result : CXChildVisitResult)
    (hstep : dispatch eng self cur parent = Except.ok (next, result))
    (h : registry_ok self) : registry_ok next := by
  simp only [dispatch] at hstep
  split at hstep
  · rw [ok_fst hstep]
    exact registry_ok_visit_namespace self cur parent h
  · split at hstep
    · rw [ok_fst hstep]
      exact registry_ok_visit_typedef eng self cur parent h
    · split at hstep
      · rw [ok_fst hstep]
        exact registry_ok_visit_enum self cur parent h
      · split at hstep
        · rw [ok_fst hstep]
          exact registry_ok_visit_enum_constant self cur parent h
        · split at hstep
          · rw [ok_fst hstep]
            exact registry_ok_visit_class self cur parent h
          · split at hstep
            · exact registry_ok_visit_member eng self next _ cur result hstep h
            · split at hstep
              · split at hstep
                · cases hstep
                · cases hstep
                  exact h
              · cases hstep
                exact h

theorem registry_ok_visitor (eng : TypeEngine) (self next : TwiliParser)
    (cur : CursorInfo) (parent : CXCursor) (result : CXChildVisitResult)
    (hstep : visitor eng self cur parent = Except.ok (next, result))
    (h : registry_ok self) : registry_ok next := by
  simp only [visitor] at hstep
  split at hstep
  · have h1 := registry_ok_handle_class_template_context eng self cur parent h
    split at hstep
    · rename_i ctx hctx
      have h2 := registry_ok_try_to_visit_template_parameter eng _ ctx cur parent h1
      split at hstep
      · rename_i s r heq
        cases hstep
        rw [heq] at h2
        exact h2
      · rename_i s heq
        rw [heq] at h2
        exact registry_ok_dispatch eng _ next cur parent result hstep h2
    · exact registry_ok_dispatch eng _ next cur parent result hstep h1
  · cases hstep
    exact h

theorem registry_ok_reachable (eng : TypeEngine) (self : TwiliParser)
    (h : Reachable eng self) : registry_ok self := by
  induction h with
  | start directories => simp [registry_ok, names_ok, initial]
  | step cur parent _ hstep ih => exact registry_ok_visitor eng _ _ cur parent _ hstep ih

theorem reachable_run (eng : TypeEngine) (events : List Event) (self final : TwiliParser)
    (h : Reachable eng self) (hrun : run eng self events = Except.ok final) :
    Reachable eng final := by
  induction events generalizing self with
  | nil =>
    simp only [run] at hrun
    cases hrun
    exact h
  | cons ev rest ih =>
    simp only [run] at hrun
    split at hrun
    · cases hrun
    · rename_i next result hstep
      exact ih next (Reachable.step ev.cur ev.parent h hstep) hrun

/-! ## Uniqueness of fully-qualified names -/

/-- C8: in every state reachable from a fresh parser by visitor callbacks, no two
class records have the same fully-qualified name, no two namespace records
have the same fully-qualified name, and no two enum records have the same
fully-qualified name. -/
theorem registry_names_unique (eng : TypeEngine) (self : TwiliParser)
    (h : Reachable eng self) :
    (self.classes.map (fun c => c.klass.full_name)).Nodup
    ∧ (self.namespaces.map (fun n => n.ns.full_name)).Nodup
    ∧ (self.enums.map (fun e => e.en.full_name)).Nodup := by
  obtain ⟨hc, hn, he, _⟩ := registry_ok_reachable eng self h
  exact ⟨hc, hn, he⟩

/-- C8, at a concrete run: after `namespace N { struct S; }` seen twice, the
names of the registry are unique. -/
theorem registry_names_unique_witness :
    run plain_engine (initial ["/src"]) twice_declared_events = Except.ok twice_declared_state
    ∧ (twice_declared_state.classes.map (fun c => c.klass.full_name)).Nodup
    ∧ (twice_declared_state.namespaces.map (fun n => n.ns.full_name)).Nodup
    ∧ (twice_declared_state.enums.map (fun e => e.en.full_name)).Nodup :=
  ⟨by rfl,
    registry_names_unique plain_engine twice_declared_state
      (reachable_run plain_engine twice_declared_events (initial ["/src"]) twice_declared_state
        (Reachable.start ["/src"]) (by rfl))⟩

/-! ## Free functions -/

theorem from_type_ok (eng : TypeEngine) (type : CXType) (known_types : List TypeDefinition)
    (h : type.kind ≠ CXTypeKind.Invalid) :
    ∃ result, ParamDefinition.from_type eng type known_types = Except.ok result :=
  initialize_type_ok eng {} type known_types h

theorem return_type_of_ok (eng : TypeEngine) (types : List TypeDefinition)
    (return_type : CXType) :
    ∃ result, return_type_of eng types return_type = Except.ok result := by
  simp only [return_type_of]
  split
  · rename_i hvalid
    have hkind : return_type.kind ≠ CXTypeKind.Invalid := by
      intro hk
      simp [hk] at hvalid
    obtain ⟨param, hparam⟩ := from_type_ok eng return_type types hkind
    simp only [hparam]
    exact ⟨_, rfl⟩
  · exact ⟨_, rfl⟩

theorem function_params_ok (eng : TypeEngine) (types : List TypeDefinition)
    (arguments : List Argument) :
    ∃ params, function_params eng types arguments = Except.ok params := by
  induction arguments with
  | nil => exact ⟨_, rfl⟩
  | cons arg rest ih =>
    simp only [function_params]
    split
    · exact ⟨_, rfl⟩
    · rename_i hkind
      obtain ⟨param, hparam⟩ := from_type_ok eng arg.arg_type types hkind
      obtain ⟨params, hparams⟩ := ih
      simp only [hparam, hparams]
      exact ⟨_, rfl⟩

theorem visit_function_ok (eng : TypeEngine) (self : TwiliParser) (cur : CursorInfo)
    (parent : CXCursor) :
    ∃ new_func, visit_function eng self cur parent = Except.ok new_func
      ∧ new_func.name = cur.spelling
      ∧ new_func.full_name =
          (match fullname_for self parent with
            | some context_name => context_name ++ "::" ++ cur.spelling
            | none => "::" ++ cur.spelling) := by
  obtain ⟨return_type, hreturn⟩ := return_type_of_ok eng self.types cur.result_type
  obtain ⟨params, hparams⟩ := function_params_ok eng self.types cur.arguments
  simp only [visit_function, hreturn, hparams]
  exact ⟨_, rfl, rfl, rfl⟩

theorem fullname_for_congr (a b : TwiliParser) (parent : CXCursor)
    (hn : a.namespaces = b.namespaces) (hc : a.classes = b.classes) :
    fullname_for a parent = fullname_for b parent := by
  simp only [fullname_for, hn, hc]

theorem find_class_for_congr (a b : TwiliParser) (parent : CXCursor)
    (hc : a.classes = b.classes) : find_class_for a parent = find_class_for b parent := by
  simp only [find_class_for, hc]

theorem dispatch_function (eng : TypeEngine) (self : TwiliParser) (cur : CursorInfo)
    (parent : CXCursor)
    (hkind : cur.cursor.kind = CXCursorKind.FunctionDecl
      ∨ cur.cursor.kind = CXCursorKind.FunctionTemplate)
    (hparent : find_class_for self parent = none) :
    ∃ next new_func,
      dispatch eng self cur parent = Except.ok (next, CXChildVisitResult.CXChildVisit_Continue)
      ∧ next.functions = self.functions ++ [new_func]
      ∧ new_func.name = cur.spelling
      ∧ new_func.full_name =
          (match fullname_for self parent with
            | some context_name => context_name ++ "::" ++ cur.spelling
            | none => "::" ++ cur.spelling) := by
  obtain ⟨new_func, hfunc, hname, hfull⟩ := visit_function_ok eng self cur parent
  refine ⟨{ self with
      functions := self.functions ++ [new_func]
      function_template_context :=
        if cur.cursor.kind = CXCursorKind.FunctionTemplate then
          some (InvokableRef.function_at self.functions.length)
        else self.function_template_context }, new_func, ?_, rfl, hname, hfull⟩
  rcases hkind with hk | hk
  · simp [dispatch, hk, hparent, hfunc]
  · simp [dispatch, hk, hparent, hfunc]

theorem handle_class_template_context_frame (eng : TypeEngine) (self : TwiliParser)
    (cur : CursorInfo) (parent : CXCursor)
    (hkind : cur.cursor.kind ≠ CXCursorKind.TypeRef) :
    handle_class_template_context eng self cur parent
      = { self with class_template_context := none } := by
  simp only [handle_class_template_context, hkind, if_false]
  split
  · rfl
  · rename_i hnone
    cases self
    simp only at hnone
    simp [hnone]

/-- C9, refuted as stated: two callbacks for a free function `f` at
translation-unit level (the function seen again, or an overload) leave two
records with the fully-qualified name `::f` in `functions`; so a reachable
state has two function records with the same fully-qualified name. -/
theorem functions_share_full_name :
    (Except.toOption
        (run plain_engine (initial ["/src"])
          [ { cur := declaration CXCursorKind.FunctionDecl 1 "f" "/src/a.hpp"
              parent := translation_unit },
            { cur := declaration CXCursorKind.FunctionDecl 2 "f" "/src/a.hpp"
              parent := translation_unit } ])).map
      (fun s => s.functions.map (fun f => f.full_name)) = some ["::f", "::f"]
    ∧ ∃ s, Reachable plain_engine s ∧ ¬ (s.functions.map (fun f => f.full_name)).Nodup := by
  refine ⟨by decide, ?_⟩
  have hrun : ∃ s, run plain_engine (initial ["/src"])
      [ { cur := declaration CXCursorKind.FunctionDecl 1 "f" "/src/a.hpp"
          parent := translation_unit },
        { cur := declaration CXCursorKind.FunctionDecl 2 "f" "/src/a.hpp"
          parent := translation_unit } ] = Except.ok s
      ∧ s.functions.map (fun f => f.full_name) = ["::f", "::f"] := ⟨_, rfl, by decide⟩
  obtain ⟨s, hs, hnames⟩ := hrun
  refine ⟨s, reachable_run plain_engine _ _ s (Reachable.start ["/src"]) hs, ?_⟩
  rw [hnames]
  decide

/-- C9, amended: the registry keeps one function record per free-function
callback, without deduplication. Every `FunctionDecl` or `FunctionTemplate`
callback for a file of a registered directory whose parent is not a known
class raises no exception, returns `CXChildVisit_Continue` and appends exactly
one record to `functions`; its name is the cursor spelling and its full name
is the parent's full name followed by `"::" + name`, or `"::" + name` when the
parent is unknown. A record with the same fully-qualified name may already be
there. -/
theorem visitor_appends_function (eng : TypeEngine) (self : TwiliParser) (cur : CursorInfo)
    (parent : CXCursor)
    (hincluded : is_included self cur.path = true)
    (hkind : cur.cursor.kind = CXCursorKind.FunctionDecl
      ∨ cur.cursor.kind = CXCursorKind.FunctionTemplate)
    (hparent : find_class_for self parent = none) :
    ∃ next new_func,
      visitor eng self cur parent = Except.ok (next, CXChildVisitResult.CXChildVisit_Continue)
      ∧ next.functions = self.functions ++ [new_func]
      ∧ new_func.name = cur.spelling
      ∧ new_func.full_name =
          (match fullname_for self parent with
            | some context_name => context_name ++ "::" ++ cur.spelling
            | none => "::" ++ cur.spelling) := by
  have hk : cur.cursor.kind ≠ CXCursorKind.TypeRef := by
    rcases hkind with h | h <;> simp [h]
  have hp1 : find_class_for { self with class_template_context := none } parent = none :=
    hparent
  have hp2 : find_class_for
      { self with class_template_context := none, function_template_context := none }
      parent = none := hparent
  simp only [visitor, hincluded, if_true, handle_class_template_context_frame eng self cur
    parent hk]
  split
  · rename_i ctx hctx
    have htry : try_to_visit_template_parameter eng
        { self with class_template_context := none } ctx cur parent
        = ({ self with class_template_context := none, function_template_context := none },
            none) := by
      rcases hkind with h | h <;> simp [try_to_visit_template_parameter, h]
    rw [htry]
    exact dispatch_function eng _ cur parent hkind hp2
  · exact dispatch_function eng _ cur parent hkind hp1

/-- C9 amended, at a concrete registry: a callback for a free function `f` is
appended although a record named `::f` is already there. -/
theorem visitor_appends_function_witness :
    is_included { directories := ["/src"], functions := [{ name := "f", full_name := "::f" }] }
        "/src/a.hpp" = true
    ∧ find_class_for
        { directories := ["/src"], functions := [{ name := "f", full_name := "::f" }] }
        translation_unit = none
    ∧ ∃ next new_func,
      visitor plain_engine
          { directories := ["/src"], functions := [{ name := "f", full_name := "::f" }] }
          (declaration CXCursorKind.FunctionDecl 2 "f" "/src/a.hpp") translation_unit
        = Except.ok (next, CXChildVisitResult.CXChildVisit_Continue)
      ∧ next.functions = [{ name := "f", full_name := "::f" }] ++ [new_func]
      ∧ new_func.name = "f"
      ∧ new_func.full_name = "::" ++ "f" :=
  ⟨by decide, by decide,
    visitor_appends_function plain_engine
      { directories := ["/src"], functions := [{ name := "f", full_name := "::f" }] }
      (declaration CXCursorKind.FunctionDecl 2 "f" "/src/a.hpp") translation_unit
      (by decide) (Or.inl rfl) (by decide)⟩

/-! ## Fields -/

theorem field_from_cursor_ok (eng : TypeEngine) (spelling : String) (type : CXType)
    (known_types : List TypeDefinition) (h : type.kind ≠ CXTypeKind.Invalid) :
    ∃ field, FieldDefinition.from_cursor eng spelling type known_types = Except.ok field := by
  obtain ⟨param, hparam⟩ := initialize_type_ok eng { name := spelling } type known_types h
  simp only [FieldDefinition.from_cursor, ParamDefinition.from_cursor, hparam]
  exact ⟨_, rfl⟩

/-- C10: field deduplication keeps the first. A field or variable callback with
a valid type, for a class that already has a field of the same name, leaves
the class (so its `fields`) exactly unchanged, whatever the type, the
staticness and the current access; for a class with no field of that name it
appends exactly one field, of that name, at the end of `fields`. No other
class changes. Consequently, in every reachable state the field names of
each class are pairwise distinct. -/
theorem visit_field_keeps_first (eng : TypeEngine) :
    (∀ (self : TwiliParser) (current_class : Nat) (cc : ClassContext) (cur : CursorInfo)
        (is_static : Bool),
      self.classes[current_class]? = some cc →
      cur.cursor_type.kind ≠ CXTypeKind.Invalid →
      ∃ next field,
        visit_field eng self current_class cur is_static
          = Except.ok (next, CXChildVisitResult.CXChildVisit_Continue)
        ∧ FieldDefinition.from_cursor eng cur.spelling cur.cursor_type self.types
          = Except.ok field
        ∧ field.name = cur.spelling
        ∧ ((∃ known ∈ cc.klass.fields, known.name = cur.spelling) →
            next.classes[current_class]? = some cc)
        ∧ ((∀ known ∈ cc.klass.fields, known.name ≠ cur.spelling) →
            next.classes[current_class]? = some { cc with klass :=
              { cc.klass with fields :=
                  cc.klass.fields ++
                    [{ field with
                        is_static := is_static
                        visibility := visibility_of cc.current_access }] } })
        ∧ (∀ j, j ≠ current_class → next.classes[j]? = self.classes[j]?)
        ∧ next.classes.length = self.classes.length)
    ∧ (∀ self, Reachable eng self →
        ∀ c ∈ self.classes, (c.klass.fields.map (fun f => f.name)).Nodup) := by
  constructor
  · intro self current_class cc cur is_static hcc hvalid
    obtain ⟨field, hfield⟩ :=
      field_from_cursor_ok eng cur.spelling cur.cursor_type self.types hvalid
    have hname := field_from_cursor_name eng _ _ _ _ hfield
    simp only [visit_field, hfield]
    refine ⟨_, field, rfl, rfl, hname, ?_, ?_, ?_, ?_⟩
    · rintro ⟨known, hknown, hsame⟩
      have hany : cc.klass.fields.any (fun known => known.eq field) = true := by
        simp only [List.any_eq_true]
        exact ⟨known, hknown, by simp [FieldDefinition.eq, hsame, hname]⟩
      rw [getElem?_update_at, if_pos rfl, hcc]
      simp only [Option.map_some', hany, ↓reduceIte]
    · intro hfresh
      have hany : cc.klass.fields.any (fun known => known.eq field) = false := by
        simp only [List.any_eq_false]
        intro known hknown
        simp only [FieldDefinition.eq, hname, beq_iff_eq]
        exact hfresh known hknown
      rw [getElem?_update_at, if_pos rfl, hcc]
      simp only [Option.map_some', hany, Bool.false_eq_true, ↓reduceIte]
    · intro j hj
      simp [getElem?_update_at, hj]
    · simp [length_update_at]
  · intro self hreach c hc
    exact (registry_ok_reachable eng self hreach).2.2.2 c hc

/-- C10, at a concrete class: `::S` has a field `int x`, and a callback for a
field `double x` leaves the class unchanged. -/
theorem visit_field_keeps_first_witness :
    ({ classes := [record_with_field_x] } : TwiliParser).classes[0]? = some record_with_field_x
    ∧ field_x_again.cursor_type.kind ≠ CXTypeKind.Invalid
    ∧ ∃ next field,
        visit_field plain_engine { classes := [record_with_field_x] } 0 field_x_again false
          = Except.ok (next, CXChildVisitResult.CXChildVisit_Continue)
        ∧ FieldDefinition.from_cursor plain_engine field_x_again.spelling
            field_x_again.cursor_type ({ classes := [record_with_field_x] } : TwiliParser).types
          = Except.ok field
        ∧ field.name = field_x_again.spelling
        ∧ ((∃ known ∈ record_with_field_x.klass.fields, known.name = field_x_again.spelling) →
            next.classes[0]? = some record_with_field_x)
        ∧ ((∀ known ∈ record_with_field_x.klass.fields, known.name ≠ field_x_again.spelling) →
            next.classes[0]? = some { record_with_field_x with klass :=
              { record_with_field_x.klass with fields :=
                  record_with_field_x.klass.fields ++
                    [{ field with
                        is_static := false
                        visibility := visibility_of record_with_field_x.current_access }] } })
        ∧ (∀ j, j ≠ 0 →
            next.classes[j]? = ({ classes := [record_with_field_x] } : TwiliParser).classes[j]?)
        ∧ next.classes.length
            = ({ classes := [record_with_field_x] } : TwiliParser).classes.length :=
  ⟨by decide, by decide,
    (visit_field_keeps_first plain_engine).1 { classes := [record_with_field_x] } 0
      record_with_field_x field_x_again false (by decide) (by decide)⟩

/-! ## find_class_like on scopes with pairwise distinct components -/

theorem remove_last_value_nodup (parts : List String) (hne : parts ≠ [])
    (hnodup : parts.Nodup) : remove_last_value parts = parts.dropLast := by
  obtain ⟨init, last, rfl⟩ : ∃ init last, parts = init ++ [last] :=
    ⟨parts.dropLast, parts.getLast hne, (List.dropLast_append_getLast hne).symm⟩
  have hl : (init ++ [last]).getLast? = some last := by simp
  have hnotin : last ∉ init := by
    intro hmem
    have := List.nodup_append.mp hnodup
    exact this.2.2 hmem (by simp)
  simp only [remove_last_value, hl, List.filter_append, List.dropLast_concat]
  have h1 : List.filter (fun part => part != last) init = init := by
    rw [List.filter_eq_self]
    intro a ha
    have : a ≠ last := fun h => hnotin (h ▸ ha)
    simpa using this
  have h2 : List.filter (fun part => part != last) [last] = [] := by
    simp [List.filter]
  rw [h1, h2, List.append_nil]

theorem find_class_like_loop_distinct (self : TwiliParser) (symbol_name : String)
    (parts : List String) (hnodup : parts.Nodup) (k fuel : Nat)
    (hk : k + 1 ≤ parts.length) (hfuel : k + 1 < fuel) :
    find_class_like_loop self symbol_name fuel (parts.take (k + 1))
      = enclosing_lookup self symbol_name parts k := by
  induction k generalizing fuel with
  | zero =>
    cases fuel with
    | zero => omega
    | succ fuel =>
      have hne : parts.take 1 ≠ [] := by
        intro h
        have := congrArg List.length h
        rw [List.length_take, List.length_nil] at this
        omega
      have hdrop : remove_last_value (parts.take 1) = parts.take 0 := by
        rw [remove_last_value_nodup _ hne (List.Nodup.sublist (List.take_sublist _ _) hnodup)]
        rw [List.dropLast_eq_take, List.take_take]
        simp
      simp only [find_class_like_loop, hdrop, enclosing_lookup]
      split
      · rename_i found hfound
        exact hfound.symm
      · rename_i hnone
        exact hnone.symm
  | succ k ih =>
    cases fuel with
    | zero => omega
    | succ fuel =>
      have hne : parts.take (k + 1 + 1) ≠ [] := by
        intro h
        have := congrArg List.length h
        rw [List.length_take, List.length_nil] at this
        omega
      have hdrop : remove_last_value (parts.take (k + 1 + 1)) = parts.take (k + 1) := by
        rw [remove_last_value_nodup _ hne (List.Nodup.sublist (List.take_sublist _ _) hnodup)]
        rw [List.dropLast_eq_take, List.take_take, List.length_take]
        congr 1
        omega
      simp only [find_class_like_loop, hdrop, enclosing_lookup]
      split
      · rfl
      · have hpos : (parts.take (k + 1)).length > 0 := by
          simp only [List.length_take]
          omega
        simp only [hpos, if_true]
        exact ih fuel (by omega) (by omega)

/-- On a scope whose components are pairwise distinct, `find_class_like` is the
lookup of the specification: the exact name first, then every enclosing
scope, innermost first. -/
theorem find_class_like_distinct (self : TwiliParser) (symbol_name cpp_context : String)
    (hnodup : (split cpp_context ':').Nodup) (hlen : 1 ≤ (split cpp_context ':').length) :
    find_class_like self symbol_name cpp_context
      = (match find_class_by_name self (cpp_context ++ "::" ++ symbol_name) with
        | some exact => some exact
        | none =>
          enclosing_lookup self symbol_name (split cpp_context ':')
            ((split cpp_context ':').length - 1)) := by
  simp only [find_class_like]
  split
  · rfl
  · have h := find_class_like_loop_distinct self symbol_name (split cpp_context ':') hnodup
      ((split cpp_context ':').length - 1) ((split cpp_context ':').length + 1)
      (by omega) (by omega)
    have hfull : (split cpp_context ':').take ((split cpp_context ':').length - 1 + 1)
        = split cpp_context ':' := by
      rw [List.take_of_length_le]
      omega
    rw [hfull] at h
    exact h

theorem enclosing_lookup_some (self : TwiliParser) (symbol_name : String)
    (parts : List String) (k j : Nat)
    (h : enclosing_lookup self symbol_name parts k = some j) :
    ∃ bc m, m ≤ k ∧ self.classes[j]? = some bc
      ∧ bc.klass.full_name = parent_context_of (parts.take m) ++ "::" ++ symbol_name := by
  induction k with
  | zero =>
    simp only [enclosing_lookup] at h
    obtain ⟨bc, hget, hname⟩ := find_class_by_name_some self _ _ h
    exact ⟨bc, 0, Nat.le_refl 0, hget, hname⟩
  | succ k ih =>
    simp only [enclosing_lookup] at h
    split at h
    · rename_i found hfound
      cases h
      obtain ⟨bc, hget, hname⟩ := find_class_by_name_some self _ _ hfound
      exact ⟨bc, k + 1, Nat.le_refl _, hget, hname⟩
    · obtain ⟨bc, m, hm, hget, hname⟩ := ih h
      exact ⟨bc, m, by omega, hget, hname⟩

/-- On a scope whose components are pairwise distinct, a class returned by
`find_class_like` is registered under the exact name or under the name of an
enclosing scope followed by the symbol. -/
theorem find_class_like_distinct_encloses (self : TwiliParser)
    (symbol_name cpp_context : String) (j : Nat)
    (hnodup : (split cpp_context ':').Nodup) (hlen : 1 ≤ (split cpp_context ':').length)
    (h : find_class_like self symbol_name cpp_context = some j) :
    ∃ bc, self.classes[j]? = some bc
      ∧ (bc.klass.full_name = cpp_context ++ "::" ++ symbol_name
        ∨ ∃ m, m < (split cpp_context ':').length
            ∧ bc.klass.full_name
              = parent_context_of ((split cpp_context ':').take m) ++ "::" ++ symbol_name) := by
  rw [find_class_like_distinct self symbol_name cpp_context hnodup hlen] at h
  split at h
  · rename_i exact hexact
    cases h
    obtain ⟨bc, hget, hname⟩ := find_class_by_name_some self _ _ hexact
    exact ⟨bc, hget, Or.inl hname⟩
  · obtain ⟨bc, m, hm, hget, hname⟩ := enclosing_lookup_some self symbol_name _ _ j h
    exact ⟨bc, hget, Or.inr ⟨m, by omega, hname⟩⟩

/-! ## visit_typedef and its alias -/

theorem visit_typedef_eq (eng : TypeEngine) (self : TwiliParser) (cur : CursorInfo)
    (parent : CXCursor) :
    visit_typedef eng self cur parent
      = (match fullname_for self parent with
        | some cpp_context =>
          if self.types.any
              (fun known => are_types_identical (typedef_alias eng self cur cpp_context) known)
          then (self, CXChildVisitResult.CXChildVisit_Continue)
          else
            ({ self with types := self.types ++ [typedef_alias eng self cur cpp_context] },
              CXChildVisitResult.CXChildVisit_Continue)
        | none => (self, CXChildVisitResult.CXChildVisit_Continue)) := by
  simp only [visit_typedef, typedef_alias, typedef_sources]

/-! ## Parameter and method equality -/

theorem to_string_data (p : ParamDefinition) :
    p.to_string.data
      = (if p.is_const then "const ".data else []) ++ (p.str.data
        ++ (List.replicate p.is_pointer.toNat '*'
          ++ List.replicate p.is_reference.toNat '&')) := by
  simp only [ParamDefinition.to_string]
  split <;> simp [String.data_append]

theorem param_eq_iff (p q : ParamDefinition) :
    p.eq q = true ↔ p.to_string = q.to_string := by
  simp [ParamDefinition.eq]

theorem count_space_stars (n : Nat) : (List.replicate n '*').count ' ' = 0 := by
  rw [List.count_replicate]
  simp

theorem count_space_amps (n : Nat) : (List.replicate n '&').count ' ' = 0 := by
  rw [List.count_replicate]
  simp

theorem count_space_const (flag : Bool) :
    (if flag then "const ".data else []).count ' ' = if flag then 1 else 0 := by
  cases flag <;> decide

theorem qualifier_suffix_inj (a b c d : Nat)
    (h : List.replicate a '*' ++ List.replicate b '&'
      = List.replicate c '*' ++ List.replicate d '&') : a = c ∧ b = d := by
  have hstar := congrArg (List.count '*') h
  have hamp := congrArg (List.count '&') h
  simp [List.count_append, List.count_replicate] at hstar hamp
  exact ⟨hstar, hamp⟩

theorem to_string_separates (p q : ParamDefinition) (hstr : p.str = q.str)
    (hp : 0 ≤ p.is_pointer) (hq : 0 ≤ q.is_pointer)
    (hpr : 0 ≤ p.is_reference) (hqr : 0 ≤ q.is_reference) :
    p.to_string = q.to_string
      ↔ (p.is_const = q.is_const ∧ p.is_pointer = q.is_pointer
          ∧ p.is_reference = q.is_reference) := by
  constructor
  · intro h
    have hdata : p.to_string.data = q.to_string.data := by rw [h]
    rw [to_string_data, to_string_data, hstr] at hdata
    have hconst : p.is_const = q.is_const := by
      have hcount := congrArg (List.count ' ') hdata
      simp only [List.count_append, count_space_stars, count_space_amps,
        count_space_const] at hcount
      cases hpc : p.is_const <;> cases hqc : q.is_const <;> simp [hpc, hqc] at hcount ⊢
    rw [hconst] at hdata
    have hsuffix := List.append_cancel_left (List.append_cancel_left hdata)
    obtain ⟨h1, h2⟩ := qualifier_suffix_inj _ _ _ _ hsuffix
    refine ⟨hconst, ?_, ?_⟩
    · omega
    · omega
  · rintro ⟨hc, hptr, href⟩
    apply String.ext
    rw [to_string_data, to_string_data, hstr, hc, hptr, href]

theorem params_match_iff (l1 l2 : List ParamDefinition) (hlen : l1.length = l2.length) :
    params_match l1 l2 = true
      ↔ ∀ (i : Nat) (p q : ParamDefinition),
          l1[i]? = some p → l2[i]? = some q → p.str = q.str := by
  induction l1 generalizing l2 with
  | nil =>
    cases l2 with
    | nil => simp [params_match]
    | cons b bs => simp at hlen
  | cons a as ih =>
    cases l2 with
    | nil => simp at hlen
    | cons b bs =>
      have hlen2 : as.length = bs.length := by simpa using hlen
      simp only [params_match]
      constructor
      · intro h i p q hp hq
        by_cases hab : a.str = b.str
        · simp only [hab, bne_self_eq_false, Bool.false_eq_true, if_false] at h
          cases i with
          | zero =>
            simp only [List.getElem?_cons_zero, Option.some.injEq] at hp hq
            subst hp
            subst hq
            exact hab
          | succ i =>
            simp only [List.getElem?_cons_succ] at hp hq
            exact (ih bs hlen2).mp h i p q hp hq
        · simp [hab] at h
      · intro h
        have hab : a.str = b.str := h 0 a b (by simp) (by simp)
        simp only [hab, bne_self_eq_false, Bool.false_eq_true, if_false]
        refine (ih bs hlen2).mpr ?_
        intro i p q hp hq
        exact h (i + 1) p q (by simpa using hp) (by simpa using hq)

/-- What `MethodDefinition::operator==` decides: equal names, equal numbers of
parameters, and at every position equal type-name strings (the `std::string`
base of the parameters); the const flag and the pointer and reference depths
of the parameters are not looked at. -/
theorem method_eq_base_strings (m1 m2 : MethodDefinition) :
    m1.eq m2 = true
      ↔ (m1.name = m2.name ∧ m1.params.length = m2.params.length
          ∧ ∀ (i : Nat) (p q : ParamDefinition),
              m1.params[i]? = some p → m2.params[i]? = some q → p.str = q.str) := by
  simp only [MethodDefinition.eq]
  constructor
  · intro h
    split at h
    · rename_i hcond
      simp only [Bool.and_eq_true, beq_iff_eq] at hcond
      exact ⟨hcond.1, hcond.2, (params_match_iff _ _ hcond.2).mp h⟩
    · cases h
  · rintro ⟨hname, hlen, hall⟩
    have hcond : (m1.name == m2.name && m1.params.length == m2.params.length) = true := by
      simp [hname, hlen]
    simp only [hcond, if_true]
    exact (params_match_iff _ _ hlen).mpr hall

/-- C11 (defect of the code): the claim says that two methods which differ only
in the const flag, the pointer depth or the reference depth of one parameter
are not equal, equality of methods being equality of the names and of the
canonical strings (`to_string`) of the parameters. `MethodDefinition::operator==`
compares the parameters with `!=`, which `ParamDefinition` does not declare:
the comparison is that of the `std::string` base. So `f(Foo*)` and
`f(const Foo*)`, `f(Foo)` and `f(Foo*)`, `f(Foo)` and `f(Foo&)` are equal
methods for the code, although the canonical strings of their parameters
differ and `ParamDefinition::operator==` tells the parameters apart. -/
theorem method_eq_ignores_qualifiers :
    MethodDefinition.eq { name := "f", params := [{ str := "Foo", is_pointer := 1 }] }
        { name := "f", params := [{ str := "Foo", is_pointer := 1, is_const := true }] }
      = true
    ∧ ParamDefinition.to_string { str := "Foo", is_pointer := 1 } = "Foo*"
    ∧ ParamDefinition.to_string { str := "Foo", is_pointer := 1, is_const := true }
        = "const Foo*"
    ∧ ParamDefinition.eq { str := "Foo", is_pointer := 1 }
        { str := "Foo", is_pointer := 1, is_const := true } = false
    ∧ MethodDefinition.eq { name := "f", params := [{ str := "Foo" }] }
        { name := "f", params := [{ str := "Foo", is_pointer := 1 }] } = true
    ∧ ParamDefinition.eq { str := "Foo" } { str := "Foo", is_pointer := 1 } = false
    ∧ MethodDefinition.eq { name := "f", params := [{ str := "Foo" }] }
        { name := "f", params := [{ str := "Foo", is_reference := 1 }] } = true
    ∧ ParamDefinition.eq { str := "Foo" } { str := "Foo", is_reference := 1 } = false
    ∧ MethodDefinition.eq { name := "f", params := [{ str := "Foo" }] }
        { name := "f", params := [{ str := "Bar" }] } = false := by
  decide

/-- C12: parameter equality (`ParamDefinition::operator==`) is equality of the
canonical string form, which is `"const "` when `is_const`, then the type
name, then one `*` per pointer level, then one `&` per reference level; and
for two parameters with the same type-name string and non-negative pointer
and reference depths, equality holds if and only if the const flags, the
pointer depths and the reference depths are equal. -/
theorem param_eq_separates_qualifiers (p q : ParamDefinition) (hstr : p.str = q.str)
    (hp : 0 ≤ p.is_pointer) (hq : 0 ≤ q.is_pointer)
    (hpr : 0 ≤ p.is_reference) (hqr : 0 ≤ q.is_reference) :
    (p.eq q = true ↔ p.to_string = q.to_string)
    ∧ p.to_string
        = (if p.is_const then "const " else "") ++ p.str
          ++ String.mk (List.replicate p.is_pointer.toNat '*')
          ++ String.mk (List.replicate p.is_reference.toNat '&')
    ∧ (p.eq q = true
        ↔ (p.is_const = q.is_const ∧ p.is_pointer = q.is_pointer
            ∧ p.is_reference = q.is_reference)) :=
  ⟨param_eq_iff p q, rfl,
    (param_eq_iff p q).trans (to_string_separates p q hstr hp hq hpr hqr)⟩

/-- C12, at two concrete parameters: `const Foo*&` and `Foo*&`. -/
theorem param_eq_separates_qualifiers_witness :
    ("Foo" : String) = "Foo"
    ∧ (0 : Int) ≤ 1
    ∧ (ParamDefinition.eq { str := "Foo", is_const := true, is_pointer := 1, is_reference := 1 }
          { str := "Foo", is_pointer := 1, is_reference := 1 } = true
        ↔ (true = false ∧ (1 : Int) = 1 ∧ (1 : Int) = 1))
    ∧ ParamDefinition.to_string
        { str := "Foo", is_const := true, is_pointer := 1, is_reference := 1 }
      = "const Foo*&" :=
  ⟨rfl, by decide,
    (param_eq_separates_qualifiers
      { str := "Foo", is_const := true, is_pointer := 1, is_reference := 1 }
      { str := "Foo", is_pointer := 1, is_reference := 1 } rfl (by decide) (by decide)
      (by decide) (by decide)).2.2,
    by decide⟩

/-! ## Typedefs -/

theorem initialize_type_loaded (eng : TypeEngine) (self : ParamDefinition) (type : CXType)
    (known_types : List TypeDefinition)
    (hvalid : type.kind ≠ CXTypeKind.Invalid) (hloaded : type_to_name type.kind = none) :
    ParamDefinition.initialize_type eng self type known_types
      = Except.ok
        (match eng.find_parent_type (eng.load_from {} type known_types) known_types with
          | some parent_type =>
            { self with
              str := self.str ++ parent_type.type_full_name
              type_alias := (eng.load_from {} type known_types).name
              is_const := (eng.load_from {} type known_types).is_const || parent_type.is_const
              is_reference := self.is_reference
                + (eng.load_from {} type known_types).is_reference + parent_type.is_reference
              is_pointer := self.is_pointer
                + (eng.load_from {} type known_types).is_pointer + parent_type.is_pointer }
          | none =>
            { self with
              str := self.str
                ++ (join (eng.load_from {} type known_types).scopes "::" ++ "::"
                  ++ (eng.load_from {} type known_types).name)
              type_alias := (eng.load_from {} type known_types).name
              is_const := (eng.load_from {} type known_types).is_const
              is_reference := self.is_reference
                + (eng.load_from {} type known_types).is_reference
              is_pointer := self.is_pointer
                + (eng.load_from {} type known_types).is_pointer }) := by
  simp only [ParamDefinition.initialize_type, hvalid, if_false, hloaded]
  split <;> rfl

/-- C13: for a typedef callback whose parent scope is known, `visit_typedef`
builds one alias entry and appends it to the type table, unless a known type
is identical to it (`are_types_identical`), in which case the parser is left
as it was. The entry has a pointer depth equal to the sum of the pointer
depths of the type loaded from the typedef's own type handle, of the type
loaded from the underlying type and, when the underlying type matches a known
type, of that known type; its reference depth is the corresponding sum and
its const flag the disjunction of the three const flags. So, when no known
type is identical to it, the type table after the callback is the one before
followed by an entry with these depths and this flag. Likewise a parameter
built by `initialize_type` from a type that is not in the builtin table gets
pointer and reference depths equal to the sum over the loaded type and, when
one matches, the known type. -/
theorem typedef_alias_accumulates (eng : TypeEngine) (self : TwiliParser) (cur : CursorInfo)
    (parent : CXCursor) (cpp_context : String)
    (hctx : fullname_for self parent = some cpp_context) :
    visit_typedef eng self cur parent
      = ((if self.types.any
              (fun known => are_types_identical (typedef_alias eng self cur cpp_context) known)
          then self
          else { self with types := self.types ++ [typedef_alias eng self cur cpp_context] }),
        CXChildVisitResult.CXChildVisit_Continue)
    ∧ (self.types.any
          (fun known => are_types_identical (typedef_alias eng self cur cpp_context) known)
        = false →
      ∃ built : TypeDefinition,
        (visit_typedef eng self cur parent).1.types = self.types ++ [built]
        ∧ built.kind = TypeKind.TypedefKind
        ∧ built.is_pointer
            = (eng.load_from {} cur.cursor_type self.types).is_pointer
              + (eng.load_from {} cur.underlying_type self.types).is_pointer
              + (match (typedef_sources eng self cur cpp_context).2.2 with
                | some known => known.is_pointer
                | none => 0)
        ∧ built.is_reference
            = (eng.load_from {} cur.cursor_type self.types).is_reference
              + (eng.load_from {} cur.underlying_type self.types).is_reference
              + (match (typedef_sources eng self cur cpp_context).2.2 with
                | some known => known.is_reference
                | none => 0)
        ∧ built.is_const
            = ((eng.load_from {} cur.cursor_type self.types).is_const
              || (eng.load_from {} cur.underlying_type self.types).is_const
              || (match (typedef_sources eng self cur cpp_context).2.2 with
                | some known => known.is_const
                | none => false)))
    ∧ (typedef_alias eng self cur cpp_context).is_pointer
        = (eng.load_from {} cur.cursor_type self.types).is_pointer
          + (eng.load_from {} cur.underlying_type self.types).is_pointer
          + (match (typedef_sources eng self cur cpp_context).2.2 with
            | some known => known.is_pointer
            | none => 0)
    ∧ (typedef_alias eng self cur cpp_context).is_reference
        = (eng.load_from {} cur.cursor_type self.types).is_reference
          + (eng.load_from {} cur.underlying_type self.types).is_reference
          + (match (typedef_sources eng self cur cpp_context).2.2 with
            | some known => known.is_reference
            | none => 0)
    ∧ (typedef_alias eng self cur cpp_context).is_const
        = ((eng.load_from {} cur.cursor_type self.types).is_const
          || (eng.load_from {} cur.underlying_type self.types).is_const
          || (match (typedef_sources eng self cur cpp_context).2.2 with
            | some known => known.is_const
            | none => false))
    ∧ (typedef_sources eng self cur cpp_context).2.2
        = (match eng.find_parent_type
              { name := (eng.load_from {} cur.underlying_type self.types).name
                scopes := split cpp_context ':'
                  ++ (eng.load_from {} cur.underlying_type self.types).scopes }
              self.types with
          | some known => some known
          | none =>
            eng.find_parent_type (eng.load_from {} cur.underlying_type self.types) self.types)
    ∧ (∀ (param : ParamDefinition) (type : CXType) (known_types : List TypeDefinition),
        type.kind ≠ CXTypeKind.Invalid → type_to_name type.kind = none →
        ∃ built, ParamDefinition.initialize_type eng param type known_types = Except.ok built
          ∧ built.is_pointer
            = param.is_pointer + (eng.load_from {} type known_types).is_pointer
              + (match eng.find_parent_type (eng.load_from {} type known_types) known_types with
                | some known => known.is_pointer
                | none => 0)
          ∧ built.is_reference
            = param.is_reference + (eng.load_from {} type known_types).is_reference
              + (match eng.find_parent_type (eng.load_from {} type known_types) known_types with
                | some known => known.is_reference
                | none => 0)) := by
  have hptr : (typedef_alias eng self cur cpp_context).is_pointer
      = (eng.load_from {} cur.cursor_type self.types).is_pointer
        + (eng.load_from {} cur.underlying_type self.types).is_pointer
        + (match (typedef_sources eng self cur cpp_context).2.2 with
          | some known => known.is_pointer
          | none => 0) := by
    simp only [typedef_alias, typedef_sources]
    split
    · simp only
      omega
    · simp
  have href : (typedef_alias eng self cur cpp_context).is_reference
      = (eng.load_from {} cur.cursor_type self.types).is_reference
        + (eng.load_from {} cur.underlying_type self.types).is_reference
        + (match (typedef_sources eng self cur cpp_context).2.2 with
          | some known => known.is_reference
          | none => 0) := by
    simp only [typedef_alias, typedef_sources]
    split
    · simp only
      omega
    · simp
  have hconst : (typedef_alias eng self cur cpp_context).is_const
      = ((eng.load_from {} cur.cursor_type self.types).is_const
        || (eng.load_from {} cur.underlying_type self.types).is_const
        || (match (typedef_sources eng self cur cpp_context).2.2 with
          | some known => known.is_const
          | none => false)) := by
    simp only [typedef_alias, typedef_sources]
    split
    · simp only [Bool.or_assoc]
      rw [Bool.or_comm (_ : Bool) (eng.load_from {} cur.underlying_type self.types).is_const]
    · simp
  have hkind : (typedef_alias eng self cur cpp_context).kind = TypeKind.TypedefKind := by
    simp only [typedef_alias]
    split <;> rfl
  have hvisit : visit_typedef eng self cur parent
      = ((if self.types.any
              (fun known => are_types_identical (typedef_alias eng self cur cpp_context) known)
          then self
          else { self with types := self.types ++ [typedef_alias eng self cur cpp_context] }),
        CXChildVisitResult.CXChildVisit_Continue) := by
    rw [visit_typedef_eq, hctx]
    simp only
    split <;> rfl
  refine ⟨hvisit, ?_, hptr, href, hconst, rfl, ?_⟩
  · intro hnew
    refine ⟨typedef_alias eng self cur cpp_context, ?_, hkind, hptr, href, hconst⟩
    rw [hvisit]
    simp only [hnew, Bool.false_eq_true, if_false]
  · intro param type known_types hvalid hloaded
    refine ⟨_, initialize_type_loaded eng param type known_types hvalid hloaded, ?_, ?_⟩
    · split <;> simp
    · split <;> simp

/-- C13, at a concrete typedef: `typedef Foo* FooPtr;` in the namespace `::N`,
where `Foo` is known with depth 1 and the underlying type is loaded with
depth 1. No known type is identical to the alias, and `visit_typedef` appends
to the type table an entry of pointer depth 0 + 1 + 1. -/
theorem typedef_alias_accumulates_witness :
    fullname_for parser_with_foo { kind := CXCursorKind.Namespace, handle := 1 } = some "::N"
    ∧ (visit_typedef sample_engine parser_with_foo typedef_foo_ptr
        { kind := CXCursorKind.Namespace, handle := 1 }).1.types
      = parser_with_foo.types
        ++ [{ name := "FooPtr", type_full_name := "::N::Foo", kind := TypeKind.TypedefKind,
              declaration_scope := ["N"], is_pointer := 2 }]
    ∧ (sample_engine.load_from {} typedef_foo_ptr.cursor_type parser_with_foo.types).is_pointer
        = 0
    ∧ (sample_engine.load_from {} typedef_foo_ptr.underlying_type
        parser_with_foo.types).is_pointer = 1
    ∧ ((typedef_sources sample_engine parser_with_foo typedef_foo_ptr "::N").2.2).map
        (fun known => known.is_pointer) = some 1
    ∧ ∃ built : TypeDefinition,
        (visit_typedef sample_engine parser_with_foo typedef_foo_ptr
          { kind := CXCursorKind.Namespace, handle := 1 }).1.types
          = parser_with_foo.types ++ [built]
        ∧ built.kind = TypeKind.TypedefKind
        ∧ built.is_pointer
            = (sample_engine.load_from {} typedef_foo_ptr.cursor_type
                parser_with_foo.types).is_pointer
              + (sample_engine.load_from {} typedef_foo_ptr.underlying_type
                  parser_with_foo.types).is_pointer
              + (match (typedef_sources sample_engine parser_with_foo typedef_foo_ptr
                    "::N").2.2 with
                | some known => known.is_pointer
                | none => 0) := by
  obtain ⟨built, h1, h2, h3, _⟩ :=
    (typedef_alias_accumulates sample_engine parser_with_foo typedef_foo_ptr
      { kind := CXCursorKind.Namespace, handle := 1 } "::N" (by decide)).2.1 (by decide)
  exact ⟨by decide, by decide, by decide, by decide, by decide, built, h1, h2, h3⟩

/-- C14, refuted as stated: with an engine that matches no known type, the
callback `typedef Unknown Alias;` in the known namespace `::N` appends an
alias record to the empty type table: a best-effort entry named `Alias` with
the full name `::Unknown`. -/
theorem visit_typedef_registers_unmatched :
    (typedef_sources plain_engine
        { namespaces :=
            [{ ns := { name := "N", full_name := "::N" }
               cursors := [{ kind := CXCursorKind.Namespace, handle := 1 }] }] }
        typedef_unknown "::N").2.2 = none
    ∧ (visit_typedef plain_engine
        { namespaces :=
            [{ ns := { name := "N", full_name := "::N" }
               cursors := [{ kind := CXCursorKind.Namespace, handle := 1 }] }] }
        typedef_unknown { kind := CXCursorKind.Namespace, handle := 1 }).1.types
      = [{ name := "Alias", type_full_name := "::Unknown", kind := TypeKind.TypedefKind,
           declaration_scope := ["N"] }] := by
  decide

/-- C14, amended: a typedef whose parent scope is unknown registers nothing (the
parser is unchanged) and traversal continues. A typedef whose parent scope is
known but whose underlying type matches no known type, neither in the
declaring scope nor in its own written scope, still builds a best-effort
alias record: its kind is `TypedefKind`, its `type_full_name` is
`join(scopes, "::") + "::" + name` of the type loaded from the spelling of
the underlying type, and it is appended to the type table unless an entry
identical to it (`are_types_identical`) is already there; nothing but the
type table changes and traversal continues. -/
theorem visit_typedef_unmatched (eng : TypeEngine) (self : TwiliParser) (cur : CursorInfo)
    (parent : CXCursor) :
    (fullname_for self parent = none →
      visit_typedef eng self cur parent = (self, CXChildVisitResult.CXChildVisit_Continue))
    ∧ (∀ cpp_context,
        fullname_for self parent = some cpp_context →
        (typedef_sources eng self cur cpp_context).2.2 = none →
        (visit_typedef eng self cur parent).2 = CXChildVisitResult.CXChildVisit_Continue
        ∧ (typedef_alias eng self cur cpp_context).kind = TypeKind.TypedefKind
        ∧ (typedef_alias eng self cur cpp_context).type_full_name
            = join (eng.load_from_name {} cur.underlying_type.spelling self.types).scopes "::"
              ++ "::" ++ (eng.load_from_name {} cur.underlying_type.spelling self.types).name
        ∧ (visit_typedef eng self cur parent).1
            = (if self.types.any
                  (fun known => are_types_identical (typedef_alias eng self cur cpp_context) known)
              then self
              else { self with types := self.types ++ [typedef_alias eng self cur cpp_context] }))
    := by
  constructor
  · intro hnone
    rw [visit_typedef_eq, hnone]
  · intro cpp_context hctx hunmatched
    refine ⟨?_, ?_, ?_, ?_⟩
    · rw [visit_typedef_eq, hctx]
      simp only
      split <;> rfl
    · simp only [typedef_alias]
      split <;> rfl
    · simp only [typedef_alias, hunmatched]
    · rw [visit_typedef_eq, hctx]
      simp only
      split <;> rfl

/-- C14 amended, at a concrete typedef: `typedef Unknown Alias;` in the known
namespace `::N` is answered by `CXChildVisit_Continue` and builds an alias
named `::Unknown`. -/
theorem visit_typedef_unmatched_witness :
    fullname_for
        { namespaces :=
            [{ ns := { name := "N", full_name := "::N" }
               cursors := [{ kind := CXCursorKind.Namespace, handle := 1 }] }] }
        { kind := CXCursorKind.Namespace, handle := 1 } = some "::N"
    ∧ (typedef_sources plain_engine
        { namespaces :=
            [{ ns := { name := "N", full_name := "::N" }
               cursors := [{ kind := CXCursorKind.Namespace, handle := 1 }] }] }
        typedef_unknown "::N").2.2 = none
    ∧ (visit_typedef plain_engine
        { namespaces :=
            [{ ns := { name := "N", full_name := "::N" }
               cursors := [{ kind := CXCursorKind.Namespace, handle := 1 }] }] }
        typedef_unknown { kind := CXCursorKind.Namespace, handle := 1 }).2
      = CXChildVisitResult.CXChildVisit_Continue :=
  ⟨by decide, by decide,
    ((visit_typedef_unmatched plain_engine
      { namespaces :=
          [{ ns := { name := "N", full_name := "::N" }
             cursors := [{ kind := CXCursorKind.Namespace, handle := 1 }] }] }
      typedef_unknown { kind := CXCursorKind.Namespace, handle := 1 }).2 "::N"
      (by decide) (by decide)).1⟩

/-! ## Enums: what a callback can change -/

theorem visit_member_enums (eng : TypeEngine) (self next : TwiliParser)
    (current_class : Nat) (cur : CursorInfo) (result : CXChildVisitResult)
    (hstep : visit_member eng self current_class cur = Except.ok (next, result)) :
    next.enums = self.enums := by
  simp only [visit_member] at hstep
  split at hstep
  · cases hstep
    rfl
  · cases hstep
    simp only [visit_base_class]
    split
    · rfl
    · split
      · split <;> rfl
      · rfl
  · cases hstep
    rfl
  all_goals first
    | (cases hstep; rfl)
    | (simp only [visit_method] at hstep
       split at hstep
       · cases hstep
       · split at hstep
         · cases hstep
           rfl
         · split at hstep <;> (cases hstep; rfl))
    | (simp only [visit_field] at hstep
       split at hstep
       · cases hstep
       · cases hstep
         rfl)

theorem update_template_parameters_enums (self : TwiliParser)
    (f : List TemplateParameter → List TemplateParameter) (ctx : InvokableRef) :
    (update_template_parameters self f ctx).enums = self.enums := by
  cases ctx <;> rfl

theorem try_to_visit_template_parameter_enums (eng : TypeEngine) (self : TwiliParser)
    (ctx : InvokableRef) (cur : CursorInfo) (parent : CXCursor) :
    (try_to_visit_template_parameter eng self ctx cur parent).1.enums = self.enums := by
  simp only [try_to_visit_template_parameter]
  split
  · exact update_template_parameters_enums self _ ctx
  · split
    · split
      · exact update_template_parameters_enums self _ ctx
      · rfl
    · rfl
  · rfl
  · rfl

theorem handle_class_template_context_enums (eng : TypeEngine) (self : TwiliParser)
    (cur : CursorInfo) (parent : CXCursor) :
    (handle_class_template_context eng self cur parent).enums = self.enums := by
  simp only [handle_class_template_context]
  split
  · split <;> rfl
  · rfl

theorem dispatch_enums (eng : TypeEngine) (self next : TwiliParser)
    (cur : CursorInfo) (parent : CXCursor) (result : CXChildVisitResult)
    (hstep : dispatch eng self cur parent = Except.ok (next, result)) :
    next.enums = self.enums
    ∨ (∃ e, next.enums = self.enums ++ [e])
    ∨ (∃ i, find_index (fun e => decide (parent = e.cursor)) self.enums = some i
        ∧ next.enums
          = update_at
              (fun e => { e with en :=
                { e.en with flags := e.en.flags ++ [(cur.spelling, cur.enum_value)] } })
              self.enums i) := by
  simp only [dispatch] at hstep
  split at hstep
  · rw [ok_fst hstep]
    left
    simp only [visit_namespace]
    split <;> rfl
  · split at hstep
    · rw [ok_fst hstep]
      left
      rw [visit_typedef_eq]
      split
      · split <;> rfl
      · rfl
    · split at hstep
      · rw [ok_fst hstep]
        simp only [visit_enum]
        split
        · right
          left
          exact ⟨_, rfl⟩
        · left
          rfl
      · split at hstep
        · rw [ok_fst hstep]
          simp only [visit_enum_constant]
          split
          · rename_i i hfound
            right
            right
            exact ⟨i, hfound, rfl⟩
          · left
            rfl
        · split at hstep
          · rw [ok_fst hstep]
            left
            simp only [visit_class]
            split
            · rfl
            · split <;> rfl
          · split at hstep
            · left
              exact visit_member_enums eng self next _ cur result hstep
            · split at hstep
              · split at hstep
                · cases hstep
                · cases hstep
                  left
                  rfl
              · cases hstep
                left
                rfl

theorem visitor_enums (eng : TypeEngine) (self next : TwiliParser)
    (cur : CursorInfo) (parent : CXCursor) (result : CXChildVisitResult)
    (hstep : visitor eng self cur parent = Except.ok (next, result)) :
    next.enums = self.enums
    ∨ (∃ e, next.enums = self.enums ++ [e])
    ∨ (∃ i, find_index (fun e => decide (parent = e.cursor)) self.enums = some i
        ∧ next.enums
          = update_at
              (fun e => { e with en :=
                { e.en with flags := e.en.flags ++ [(cur.spelling, cur.enum_value)] } })
              self.enums i) := by
  simp only [visitor] at hstep
  split at hstep
  · have h1 := handle_class_template_context_enums eng self cur parent
    split at hstep
    · rename_i ctx hctx
      have h2 := try_to_visit_template_parameter_enums eng
        (handle_class_template_context eng self cur parent) ctx cur parent
      split at hstep
      · rename_i s r heq
        cases hstep
        rw [heq] at h2
        left
        exact h2.trans h1
      · rename_i s heq
        rw [heq] at h2
        have h3 := dispatch_enums eng s next cur parent result hstep
        rw [h2, h1] at h3
        exact h3
    · have h3 := dispatch_enums eng _ next cur parent result hstep
      rw [h1] at h3
      exact h3
  · cases hstep
    left
    rfl

theorem visitor_enum_frame (eng : TypeEngine) (self next : TwiliParser)
    (cur : CursorInfo) (parent : CXCursor) (result : CXChildVisitResult)
    (hstep : visitor eng self cur parent = Except.ok (next, result))
    (i : Nat) (e : EnumContext) (he : self.enums[i]? = some e) :
    (∃ e', next.enums[i]? = some e' ∧ e'.cursor = e.cursor
      ∧ e'.en.full_name = e.en.full_name)
    ∧ (e.cursor ≠ parent → next.enums[i]? = some e) := by
  have hlt : i < self.enums.length := by
    by_contra hge
    have : self.enums[i]? = none := by
      simp only [List.getElem?_eq_none_iff]
      omega
    rw [this] at he
    cases he
  rcases visitor_enums eng self next cur parent result hstep with h | ⟨x, h⟩ | ⟨j, hj, h⟩
  · rw [h]
    exact ⟨⟨e, he, rfl, rfl⟩, fun _ => he⟩
  · rw [h, List.getElem?_append_left hlt]
    exact ⟨⟨e, he, rfl, rfl⟩, fun _ => he⟩
  · rw [h, getElem?_update_at]
    obtain ⟨ej, hej, hpj, _⟩ := find_index_some _ _ _ hj
    by_cases hij : i = j
    · subst hij
      rw [he] at hej
      cases hej
      simp only [if_true, he, Option.map_some']
      refine ⟨⟨_, rfl, rfl, rfl⟩, ?_⟩
      intro hne
      exact absurd (of_decide_eq_true hpj).symm hne
    · simp only [hij, if_false]
      exact ⟨⟨e, he, rfl, rfl⟩, fun _ => he⟩

theorem run_enum_identity (eng : TypeEngine) (events : List Event) (self later : TwiliParser)
    (hrun : run eng self events = Except.ok later)
    (i : Nat) (e : EnumContext) (he : self.enums[i]? = some e) :
    ∃ e', later.enums[i]? = some e' ∧ e'.cursor = e.cursor
      ∧ e'.en.full_name = e.en.full_name := by
  induction events generalizing self e with
  | nil =>
    simp only [run] at hrun
    cases hrun
    exact ⟨e, he, rfl, rfl⟩
  | cons ev rest ih =>
    simp only [run] at hrun
    split at hrun
    · cases hrun
    · rename_i next result hstep
      obtain ⟨⟨e1, he1, hc1, hn1⟩, _⟩ :=
        visitor_enum_frame eng self next ev.cur ev.parent result hstep i e he
      obtain ⟨e2, he2, hc2, hn2⟩ := ih next hrun e1 he1
      exact ⟨e2, he2, hc2.trans hc1, hn2.trans hn1⟩

/-! ## Enums -/

theorem visit_enum_constant_frame (self : TwiliParser) (cur : CursorInfo) (parent : CXCursor)
    (i : Nat) (e : EnumContext) (he : self.enums[i]? = some e) (hne : e.cursor ≠ parent) :
    (visit_enum_constant self cur parent).1.enums[i]? = some e := by
  simp only [visit_enum_constant]
  split
  · rename_i j hj
    obtain ⟨ej, hej, hpj, _⟩ := find_index_some _ _ _ hj
    have hij : i ≠ j := by
      intro hij
      subst hij
      rw [he] at hej
      cases hej
      exact hne (of_decide_eq_true hpj).symm
    simp only [getElem?_update_at, hij, if_false]
    exact he
  · exact he

/-- C15: an enum callback whose fully-qualified name is already registered, by
an enum seen through a different cursor, changes nothing: the parser (so the
enums collection and the type table) is unchanged. Every later enum-constant
callback whose parent is the new cursor, after any further callbacks, leaves
the existing enum record, so its constant list, unchanged. -/
theorem visit_enum_redeclaration_ignored (eng : TypeEngine) (self : TwiliParser)
    (cur : CursorInfo) (parent : CXCursor) (existing : Nat) (e : EnumContext)
    (hfound : find_index
        (fun known => known.en.full_name
          == (fullname_for self parent).getD "" ++ "::" ++ cur.spelling) self.enums
      = some existing)
    (hget : self.enums[existing]? = some e)
    (hcursor : e.cursor ≠ cur.cursor) :
    visit_enum self cur parent = (self, CXChildVisitResult.CXChildVisit_Recurse)
    ∧ (∀ (events : List Event) (later : TwiliParser) (constant : CursorInfo),
        run eng (visit_enum self cur parent).1 events = Except.ok later →
        (visit_enum_constant later constant cur.cursor).1.enums[existing]?
          = later.enums[existing]?
        ∧ ∀ next result,
            visitor eng later constant cur.cursor = Except.ok (next, result) →
            next.enums[existing]? = later.enums[existing]?) := by
  have hsame : visit_enum self cur parent = (self, CXChildVisitResult.CXChildVisit_Recurse) := by
    simp only [visit_enum, hfound]
  refine ⟨hsame, ?_⟩
  intro events later constant hrun
  rw [hsame] at hrun
  obtain ⟨e', he', hc', _⟩ := run_enum_identity eng events self later hrun existing e hget
  have hne : e'.cursor ≠ cur.cursor := by
    rw [hc']
    exact hcursor
  refine ⟨?_, ?_⟩
  · rw [visit_enum_constant_frame later constant cur.cursor existing e' he' hne, he']
  · intro next result hstep
    rw [(visitor_enum_frame eng later next constant cur.cursor result hstep existing e' he').2
      hne, he']

/-- C15, at a concrete registry: `::Color` is known through the cursor 1; a
second `enum Color` callback with the cursor 5 changes nothing. -/
theorem visit_enum_redeclaration_ignored_witness :
    find_index
        (fun known => known.en.full_name
          == (fullname_for parser_with_color translation_unit).getD "" ++ "::" ++ "Color")
        parser_with_color.enums = some 0
    ∧ parser_with_color.enums[0]?
        = some
          { en := { name := "Color", full_name := "::Color", from_file := "/src/a.hpp",
                    flags := [("Red", 0)] }
            cursor := { kind := CXCursorKind.EnumDecl, handle := 1 } }
    ∧ ({ kind := CXCursorKind.EnumDecl, handle := 1 } : CXCursor)
        ≠ { kind := CXCursorKind.EnumDecl, handle := 5 }
    ∧ visit_enum parser_with_color
        (declaration CXCursorKind.EnumDecl 5 "Color" "/src/b.hpp") translation_unit
      = (parser_with_color, CXChildVisitResult.CXChildVisit_Recurse) :=
  ⟨by decide, by decide, by decide,
    (visit_enum_redeclaration_ignored plain_engine parser_with_color
      (declaration CXCursorKind.EnumDecl 5 "Color" "/src/b.hpp") translation_unit 0
      { en := { name := "Color", full_name := "::Color", from_file := "/src/a.hpp",
                flags := [("Red", 0)] }
        cursor := { kind := CXCursorKind.EnumDecl, handle := 1 } }
      (by decide) (by decide) (by decide)).1⟩

/-- C16: an enum-constant callback whose parent cursor identifies a registered
enum appends the pair (name, value), the value exactly as reported, at the
end of the constants of that enum; the earlier pairs, everything else of
that enum, all other enums and all other registries are unchanged, and the
result is `CXChildVisit_Recurse`. The callbacks `Red = 0`, `Green = 1`,
`Blue = 2` under `Color` yield exactly `[(Red, 0), (Green, 1), (Blue, 2)]`. -/
theorem visit_enum_constant_appends (self : TwiliParser) (cur : CursorInfo)
    (parent : CXCursor) (parent_enum : Nat) (e : EnumContext)
    (hfound : find_index (fun known => decide (parent = known.cursor)) self.enums
      = some parent_enum)
    (hget : self.enums[parent_enum]? = some e) :
    visit_enum_constant self cur parent
      = ({ self with
          enums :=
            update_at
              (fun known => { known with en :=
                { known.en with flags := known.en.flags ++ [(cur.spelling, cur.enum_value)] } })
              self.enums parent_enum },
          CXChildVisitResult.CXChildVisit_Recurse)
    ∧ (visit_enum_constant self cur parent).1.enums[parent_enum]?
        = some { e with en :=
            { e.en with flags := e.en.flags ++ [(cur.spelling, cur.enum_value)] } }
    ∧ (∀ j, j ≠ parent_enum →
        (visit_enum_constant self cur parent).1.enums[j]? = self.enums[j]?)
    ∧ (visit_enum_constant self cur parent).1.enums.length = self.enums.length
    ∧ (Except.toOption (run plain_engine (initial ["/src"]) color_events)).map
        (fun s => s.enums.map (fun known => (known.en.full_name, known.en.flags)))
      = some [("::Color", [("Red", 0), ("Green", 1), ("Blue", 2)])] := by
  have hresult : visit_enum_constant self cur parent
      = ({ self with
          enums :=
            update_at
              (fun known => { known with en :=
                { known.en with flags := known.en.flags ++ [(cur.spelling, cur.enum_value)] } })
              self.enums parent_enum },
          CXChildVisitResult.CXChildVisit_Recurse) := by
    simp only [visit_enum_constant, hfound]
  refine ⟨hresult, ?_, ?_, ?_, by decide⟩
  · rw [hresult]
    simp only [getElem?_update_at, if_true, hget, Option.map_some']
  · intro j hj
    rw [hresult]
    simp only [getElem?_update_at, hj, if_false]
  · rw [hresult]
    simp only [length_update_at]

/-- C16, at a concrete registry: `Green = 1` is appended after `Red = 0`. -/
theorem visit_enum_constant_appends_witness :
    find_index
        (fun known => decide (({ kind := CXCursorKind.EnumDecl, handle := 1 } : CXCursor)
          = known.cursor)) parser_with_color.enums = some 0
    ∧ parser_with_color.enums[0]?
        = some
          { en := { name := "Color", full_name := "::Color", from_file := "/src/a.hpp",
                    flags := [("Red", 0)] }
            cursor := { kind := CXCursorKind.EnumDecl, handle := 1 } }
    ∧ (visit_enum_constant parser_with_color
          { declaration CXCursorKind.EnumConstantDecl 3 "Green" "/src/a.hpp" with
            enum_value := 1 }
          { kind := CXCursorKind.EnumDecl, handle := 1 }).1.enums[0]?
        = some
          { en := { name := "Color", full_name := "::Color", from_file := "/src/a.hpp",
                    flags := [("Red", 0)] ++ [("Green", 1)] }
            cursor := { kind := CXCursorKind.EnumDecl, handle := 1 } } :=
  ⟨by decide, by decide,
    (visit_enum_constant_appends parser_with_color
      { declaration CXCursorKind.EnumConstantDecl 3 "Green" "/src/a.hpp" with enum_value := 1 }
      { kind := CXCursorKind.EnumDecl, handle := 1 } 0
      { en := { name := "Color", full_name := "::Color", from_file := "/src/a.hpp",
                flags := [("Red", 0)] }
        cursor := { kind := CXCursorKind.EnumDecl, handle := 1 } }
      (by decide) (by decide)).2.1⟩

/-! ## Namespaces -/

/-- C17: for a namespace callback with computed full name `F` (the full name of
the parent, or the empty string when the parent is unknown, followed by
`"::"` and the name): when a namespace record with full name `F` exists, the
cursor is appended to the cursors of the first such record and the number
of namespace records is unchanged; otherwise exactly one record, with the
name, the full name `F` and that cursor, is appended. In both cases the
result is `CXChildVisit_Recurse` and classes, enums, functions and types are
unchanged. -/
theorem visit_namespace_registers (self : TwiliParser) (cur : CursorInfo)
    (parent : CXCursor) :
    (∀ (it : Nat) (known : NamespaceContext),
      find_index
          (fun ns => ns.ns.full_name
            == (match fullname_for self parent with | some b => b | none => "")
              ++ "::" ++ cur.spelling) self.namespaces = some it →
      self.namespaces[it]? = some known →
      known.ns.full_name
          = (match fullname_for self parent with | some b => b | none => "")
            ++ "::" ++ cur.spelling
      ∧ (visit_namespace self cur parent).1.namespaces[it]?
          = some { known with cursors := known.cursors ++ [cur.cursor] }
      ∧ (∀ j, j ≠ it →
          (visit_namespace self cur parent).1.namespaces[j]? = self.namespaces[j]?)
      ∧ (visit_namespace self cur parent).1.namespaces.length = self.namespaces.length)
    ∧ (find_index
          (fun ns => ns.ns.full_name
            == (match fullname_for self parent with | some b => b | none => "")
              ++ "::" ++ cur.spelling) self.namespaces = none →
      (visit_namespace self cur parent).1.namespaces
        = self.namespaces
          ++ [{ ns :=
                  { name := cur.spelling
                    full_name :=
                      (match fullname_for self parent with | some b => b | none => "")
                        ++ "::" ++ cur.spelling }
                cursors := [cur.cursor] }])
    ∧ (visit_namespace self cur parent).2 = CXChildVisitResult.CXChildVisit_Recurse
    ∧ (visit_namespace self cur parent).1.classes = self.classes
    ∧ (visit_namespace self cur parent).1.enums = self.enums
    ∧ (visit_namespace self cur parent).1.functions = self.functions
    ∧ (visit_namespace self cur parent).1.types = self.types := by
  refine ⟨?_, ?_, ?_, ?_, ?_, ?_, ?_⟩
  · intro it known hfound hget
    obtain ⟨x, hx, hpx, _⟩ := find_index_some _ _ _ hfound
    rw [hget] at hx
    cases hx
    simp only [visit_namespace, hfound]
    refine ⟨by simpa using hpx, ?_, ?_, ?_⟩
    · simp only [getElem?_update_at, if_true, hget, Option.map_some']
    · intro j hj
      simp only [getElem?_update_at, hj, if_false]
    · simp only [length_update_at]
  · intro hnone
    simp only [visit_namespace, hnone]
  all_goals
    simp only [visit_namespace]
    split <;> rfl

/-- C17, at a concrete registry: a second `namespace N` callback adds its cursor
to the record `::N`. -/
theorem visit_namespace_registers_witness :
    find_index
        (fun ns => ns.ns.full_name
          == (match fullname_for parser_with_foo translation_unit with
              | some b => b
              | none => "") ++ "::" ++ "N") parser_with_foo.namespaces = some 0
    ∧ parser_with_foo.namespaces[0]?
        = some
          { ns := { name := "N", full_name := "::N" }
            cursors := [{ kind := CXCursorKind.Namespace, handle := 1 }] }
    ∧ (visit_namespace parser_with_foo
          (declaration CXCursorKind.Namespace 3 "N" "/src/a.hpp") translation_unit).1.namespaces[0]?
        = some
          { ns := { name := "N", full_name := "::N" }
            cursors := [{ kind := CXCursorKind.Namespace, handle := 1 }]
              ++ [{ kind := CXCursorKind.Namespace, handle := 3 }] } :=
  ⟨by decide, by decide,
    ((visit_namespace_registers parser_with_foo
        (declaration CXCursorKind.Namespace 3 "N" "/src/a.hpp") translation_unit).1 0
      { ns := { name := "N", full_name := "::N" }
        cursors := [{ kind := CXCursorKind.Namespace, handle := 1 }] }
      (by decide) (by decide)).2.1⟩

/-! ## Construction of parameters and fields -/

theorem initialize_type_error_iff (eng : TypeEngine) (self : ParamDefinition) (type : CXType)
    (known_types : List TypeDefinition) :
    (∃ what, ParamDefinition.initialize_type eng self type known_types
        = Except.error (Fault.logic_error what))
      ↔ type.kind = CXTypeKind.Invalid := by
  constructor
  · rintro ⟨what, h⟩
    by_contra hvalid
    obtain ⟨built, hbuilt⟩ := initialize_type_ok eng self type known_types hvalid
    rw [hbuilt] at h
    cases h
  · intro hinvalid
    simp only [ParamDefinition.initialize_type, hinvalid, if_true]
    exact ⟨_, rfl⟩

/-- C18: constructing a parameter or a field from a type handle raises
`std::logic_error` if and only if the kind of the handle is `Invalid`; for
every other kind the construction succeeds, and for a type that is looked up
(its kind is not in the builtin table) and matches no known type, the string
of the result is the best-effort `join(scopes, "::") + "::" + name` of the
loaded type. This holds for `initialize_type` and for the three constructors
`ParamDefinition(CXType)`, `ParamDefinition(CXCursor)` and
`FieldDefinition(CXCursor)`. -/
theorem construction_raises_iff_invalid (eng : TypeEngine) (type : CXType)
    (known_types : List TypeDefinition) (spelling : String) (param : ParamDefinition) :
    ((∃ what, ParamDefinition.initialize_type eng param type known_types
          = Except.error (Fault.logic_error what)) ↔ type.kind = CXTypeKind.Invalid)
    ∧ ((∃ what, ParamDefinition.from_type eng type known_types
          = Except.error (Fault.logic_error what)) ↔ type.kind = CXTypeKind.Invalid)
    ∧ ((∃ what, ParamDefinition.from_cursor eng spelling type known_types
          = Except.error (Fault.logic_error what)) ↔ type.kind = CXTypeKind.Invalid)
    ∧ ((∃ what, FieldDefinition.from_cursor eng spelling type known_types
          = Except.error (Fault.logic_error what)) ↔ type.kind = CXTypeKind.Invalid)
    ∧ (type.kind ≠ CXTypeKind.Invalid →
        (∃ built, ParamDefinition.initialize_type eng param type known_types = Except.ok built)
        ∧ (∃ built, ParamDefinition.from_type eng type known_types = Except.ok built)
        ∧ (∃ built, ParamDefinition.from_cursor eng spelling type known_types = Except.ok built)
        ∧ (∃ built, FieldDefinition.from_cursor eng spelling type known_types
            = Except.ok built))
    ∧ (type.kind ≠ CXTypeKind.Invalid → type_to_name type.kind = none →
        eng.find_parent_type (eng.load_from {} type known_types) known_types = none →
        (∃ built, ParamDefinition.initialize_type eng param type known_types = Except.ok built
          ∧ built.str = param.str
            ++ (join (eng.load_from {} type known_types).scopes "::" ++ "::"
              ++ (eng.load_from {} type known_types).name))
        ∧ (∃ built, ParamDefinition.from_type eng type known_types = Except.ok built
          ∧ built.str = join (eng.load_from {} type known_types).scopes "::" ++ "::"
              ++ (eng.load_from {} type known_types).name)
        ∧ (∃ built, FieldDefinition.from_cursor eng spelling type known_types = Except.ok built
          ∧ built.str = join (eng.load_from {} type known_types).scopes "::" ++ "::"
              ++ (eng.load_from {} type known_types).name)) := by
  have hfield_error : (∃ what, FieldDefinition.from_cursor eng spelling type known_types
      = Except.error (Fault.logic_error what)) ↔ type.kind = CXTypeKind.Invalid := by
    constructor
    · rintro ⟨what, h⟩
      by_contra hvalid
      obtain ⟨built, hbuilt⟩ := field_from_cursor_ok eng spelling type known_types hvalid
      rw [hbuilt] at h
      cases h
    · intro hinvalid
      simp only [FieldDefinition.from_cursor, ParamDefinition.from_cursor,
        ParamDefinition.initialize_type, hinvalid, if_true]
      exact ⟨_, rfl⟩
  refine ⟨initialize_type_error_iff eng param type known_types,
    initialize_type_error_iff eng {} type known_types,
    initialize_type_error_iff eng { name := spelling } type known_types,
    hfield_error, ?_, ?_⟩
  · intro hvalid
    exact ⟨initialize_type_ok eng param type known_types hvalid,
      initialize_type_ok eng {} type known_types hvalid,
      initialize_type_ok eng { name := spelling } type known_types hvalid,
      field_from_cursor_ok eng spelling type known_types hvalid⟩
  · intro hvalid hloaded hunmatched
    refine ⟨?_, ?_, ?_⟩
    · refine ⟨_, initialize_type_loaded eng param type known_types hvalid hloaded, ?_⟩
      simp only [hunmatched]
    · refine ⟨_, initialize_type_loaded eng {} type known_types hvalid hloaded, ?_⟩
      simp only [hunmatched]
      exact String.ext (by simp [String.data_append])
    · simp only [FieldDefinition.from_cursor, ParamDefinition.from_cursor,
        initialize_type_loaded eng { name := spelling } type known_types hvalid hloaded,
        hunmatched]
      refine ⟨_, rfl, ?_⟩
      exact String.ext (by simp [String.data_append])

/-- C18, at a concrete handle: a record type spelled `Unknown` that matches no
known type gives the parameter string `::Unknown`, without an exception. -/
theorem construction_raises_iff_invalid_witness :
    (type_handle (CXTypeKind.Other 105) "Unknown").kind ≠ CXTypeKind.Invalid
    ∧ type_to_name (type_handle (CXTypeKind.Other 105) "Unknown").kind = none
    ∧ plain_engine.find_parent_type
        (plain_engine.load_from {} (type_handle (CXTypeKind.Other 105) "Unknown") []) [] = none
    ∧ (∃ built,
        ParamDefinition.from_type plain_engine (type_handle (CXTypeKind.Other 105) "Unknown") []
          = Except.ok built
        ∧ built.str
          = join (plain_engine.load_from {} (type_handle (CXTypeKind.Other 105) "Unknown")
              []).scopes "::" ++ "::"
            ++ (plain_engine.load_from {} (type_handle (CXTypeKind.Other 105) "Unknown")
              []).name)
    ∧ join (plain_engine.load_from {} (type_handle (CXTypeKind.Other 105) "Unknown")
          []).scopes "::" ++ "::"
        ++ (plain_engine.load_from {} (type_handle (CXTypeKind.Other 105) "Unknown") []).name
      = "::Unknown" :=
  ⟨by decide, by decide, by decide,
    ((construction_raises_iff_invalid plain_engine
        (type_handle (CXTypeKind.Other 105) "Unknown") [] "x" {}).2.2.2.2.2
      (by decide) (by decide) (by decide)).2.1,
    by decide⟩

/-! ## ClassDefinition::implements -/

theorem implements_in_iff (method : MethodDefinition) (methods : List MethodDefinition) :
    implements_in method methods = true
      ↔ ∃ candidate ∈ methods, candidate.eq method = true := by
  induction methods with
  | nil => simp [implements_in]
  | cons candidate rest ih =>
    simp only [implements_in]
    by_cases h : candidate.eq method = true
    · simp [h]
    · simp [h, ih]

/-- What `ClassDefinition::implements` decides: whether some element of `methods`
equals the method under `MethodDefinition::operator==`; the answer depends on
`methods` only. -/
theorem implements_some_method (c : ClassDefinition) (m : MethodDefinition) :
    (c.implements m = true ↔ ∃ candidate ∈ c.methods, candidate.eq m = true)
    ∧ (∀ other : ClassDefinition, other.methods = c.methods →
        other.implements m = c.implements m) := by
  refine ⟨implements_in_iff m c.methods, ?_⟩
  intro other hmethods
  simp only [ClassDefinition.implements, hmethods]

/-- C19 (defect of the code): the claim says that `c.implements(m)` is true only
if some method of `c` has the name of `m` and a parameter list equal to that
of `m` position by position. A class whose only method is `h(Foo*)`
implements `h(Foo)` for the code: `MethodDefinition::operator==` compares the
parameters through the `!=` of their `std::string` base, so the pointer depth
is not looked at, although `ParamDefinition::operator==` tells the two
parameters apart. A method of another name, or with another type name, is
not implemented, and the constructors and fields are not consulted. -/
theorem implements_ignores_qualifiers :
    ClassDefinition.implements
        { methods := [{ name := "h", params := [{ str := "Foo", is_pointer := 1 }] }] }
        { name := "h", params := [{ str := "Foo" }] } = true
    ∧ ParamDefinition.eq { str := "Foo", is_pointer := 1 } { str := "Foo" } = false
    ∧ ParamDefinition.to_string { str := "Foo", is_pointer := 1 } = "Foo*"
    ∧ ParamDefinition.to_string { str := "Foo" } = "Foo"
    ∧ ClassDefinition.implements
        { methods := [{ name := "h", params := [{ str := "Foo", is_pointer := 1 }] }] }
        { name := "h", params := [{ str := "Bar" }] } = false
    ∧ ClassDefinition.implements
        { methods := [{ name := "h", params := [{ str := "Foo", is_pointer := 1 }] }] }
        { name := "g", params := [{ str := "Foo", is_pointer := 1 }] } = false
    ∧ ClassDefinition.implements
        { constructors := [{ name := "f" }], fields := [{ name := "f" }],
          methods := [{ name := "g" }] } { name := "f" } = false := by
  decide

/-! ## A forward declaration followed by the definition -/

/-- C20: from an empty registry, the callbacks namespace `N` (cursor 1), struct
`S` under it (the forward declaration, in `/src/fwd.hpp`), namespace `N`
again (cursor 3), struct `S` under it (the definition, in `/src/def.hpp`) and
field `x` under the cursor of the definition yield, for every type engine,
exactly one namespace record `::N`, exactly one class record `::N::S` whose
`from_file` and `include_path` are those of the second struct callback, and
exactly one field, named `x`. -/
theorem forward_declaration_then_definition (eng : TypeEngine) :
    run eng (initial ["/src"]) merge_events = Except.ok merge_state
    ∧ merge_state.namespaces.map (fun n => n.ns.full_name) = ["::N"]
    ∧ merge_state.classes.map
        (fun c => (c.klass.full_name, c.klass.from_file, c.klass.include_path,
          c.klass.fields.map (fun f => f.name)))
      = [("::N::S", "/src/def.hpp", "/def.hpp", ["x"])]
    ∧ (merge_events.get? 3).map (fun ev => (ev.cur.path, get_relative_path merge_state ev.cur.path))
      = some ("/src/def.hpp", "/def.hpp") := by
  refine ⟨by rfl, by decide, by decide, by decide⟩

/-! ## String search: lemmas -/

theorem find_chars_ge (needle : List Char) (l : List Char) (pos p : Nat)
    (h : find_chars needle l pos = some p) : pos ≤ p := by
  induction l generalizing pos with
  | nil =>
    simp only [find_chars] at h
    split at h
    · cases h
      exact Nat.le_refl _
    · cases h
  | cons x xs ih =>
    simp only [find_chars] at h
    split at h
    · cases h
      exact Nat.le_refl _
    · have := ih (pos + 1) h
      omega

theorem find_chars_start_iff (needle : List Char) (l : List Char) (pos : Nat) :
    find_chars needle l pos = some pos ↔ needle <+: l := by
  cases l with
  | nil =>
    simp only [find_chars]
    constructor
    · intro h
      split at h
      · rename_i hn
        rw [hn]
      · cases h
    · intro h
      have : needle = [] := List.prefix_nil.mp h
      simp [this]
  | cons x xs =>
    simp only [find_chars]
    constructor
    · intro h
      split at h
      · rename_i hp
        exact List.isPrefixOf_iff_prefix.mp hp
      · have := find_chars_ge needle xs (pos + 1) pos h
        omega
    · intro h
      have hp : needle.isPrefixOf (x :: xs) = true := List.isPrefixOf_iff_prefix.mpr h
      simp [hp]

theorem std_find_start_iff (haystack needle : String) :
    (std_find haystack needle == some 0) = true ↔ ∃ rest : String, needle ++ rest = haystack := by
  simp only [std_find, beq_iff_eq, find_chars_start_iff]
  constructor
  · rintro ⟨t, ht⟩
    exact ⟨String.mk t, String.ext (by simp [String.data_append, ht])⟩
  · rintro ⟨rest, hrest⟩
    exact ⟨rest.data, by rw [← hrest, String.data_append]⟩

/-! ## Files outside the registered directories -/

/-- C26: `is_included` holds exactly when some registered directory is a prefix
of the path, and for a cursor whose file path has no registered directory as
a prefix the visitor returns `CXChildVisit_Continue` and leaves the parser
(namespaces, classes, enums, functions, types and both pending template
contexts) unchanged. -/
theorem visitor_ignores_other_files (eng : TypeEngine) (self : TwiliParser)
    (cur : CursorInfo) (parent : CXCursor) :
    (is_included self cur.path = true
      ↔ ∃ directory ∈ self.directories, ∃ rest : String, directory ++ rest = cur.path)
    ∧ ((∀ directory ∈ self.directories, ¬ ∃ rest : String, directory ++ rest = cur.path) →
        visitor eng self cur parent
          = Except.ok (self, CXChildVisitResult.CXChildVisit_Continue)) := by
  have hiff : is_included self cur.path = true
      ↔ ∃ directory ∈ self.directories, ∃ rest : String, directory ++ rest = cur.path := by
    simp only [is_included, List.any_eq_true]
    constructor
    · rintro ⟨d, hd, h⟩
      exact ⟨d, hd, (std_find_start_iff cur.path d).mp h⟩
    · rintro ⟨d, hd, h⟩
      exact ⟨d, hd, (std_find_start_iff cur.path d).mpr h⟩
  refine ⟨hiff, ?_⟩
  intro hnone
  have hfalse : is_included self cur.path = false := by
    cases hinc : is_included self cur.path with
    | false => rfl
    | true =>
      obtain ⟨d, hd, h⟩ := hiff.mp hinc
      exact absurd h (hnone d hd)
  simp only [visitor, hfalse, Bool.false_eq_true, if_false]

/-- C26, at a concrete callback: a struct declared in `/usr/include/x.h` is
ignored when only `/src` is registered. -/
theorem visitor_ignores_other_files_witness :
    (∀ directory ∈ (initial ["/src"]).directories,
        ¬ ∃ rest : String, directory ++ rest = "/usr/include/x.h")
    ∧ visitor plain_engine (initial ["/src"])
        (declaration CXCursorKind.StructDecl 1 "S" "/usr/include/x.h") translation_unit
      = Except.ok (initial ["/src"], CXChildVisitResult.CXChildVisit_Continue) := by
  have hnone : ∀ directory ∈ (initial ["/src"]).directories,
      ¬ ∃ rest : String, directory ++ rest = "/usr/include/x.h" := by
    intro d hd
    have hd' : d = "/src" := by simpa [initial] using hd
    subst hd'
    intro h
    have := (std_find_start_iff "/usr/include/x.h" "/src").mpr h
    revert this
    decide
  exact ⟨hnone,
    (visitor_ignores_other_files plain_engine (initial ["/src"])
      (declaration CXCursorKind.StructDecl 1 "S" "/usr/include/x.h") translation_unit).2 hnone⟩

/-! ## get_relative_path -/

/-- C27 (defect of the code): the claim says that for an included path the
result `r` of `get_relative_path` satisfies `d + r == p` for a registered
directory `d`. With the directories `/lib` and `/usr/lib` and the path
`/usr/lib/foo.h`, which is included through `/usr/lib`, the loop of
`get_relative_path` stops at `/lib`, because it tests
`path.find(directory) != npos` where `is_included` tests
`path.find(directory) == 0`; `/lib` occurs in the middle of the path, the path
is cut at its length 4, and the result `/lib/foo.h` completes no registered
directory to the path. -/
theorem get_relative_path_cuts_inside :
    is_included { directories := ["/lib", "/usr/lib"] } "/usr/lib/foo.h" = true
    ∧ std_find "/usr/lib/foo.h" "/lib" = some 4
    ∧ get_relative_path { directories := ["/lib", "/usr/lib"] } "/usr/lib/foo.h" = "/lib/foo.h"
    ∧ "/lib" ++ "/lib/foo.h" ≠ "/usr/lib/foo.h"
    ∧ "/usr/lib" ++ "/lib/foo.h" ≠ "/usr/lib/foo.h"
    ∧ "/usr/lib" ++ "/foo.h" = "/usr/lib/foo.h" := by
  decide

/-- When the first registered directory is a prefix of the path,
`get_relative_path` removes it: the directory followed by the result is the
path. -/
theorem get_relative_path_first_directory (directory : String) (others : List String)
    (path : String) (h : (std_find path directory == some 0) = true) :
    directory ++ get_relative_path { directories := directory :: others } path = path := by
  have hfound : (std_find path directory != none) = true := by
    simp only [beq_iff_eq] at h
    simp [h]
  obtain ⟨rest, hrest⟩ := (std_find_start_iff path directory).mp h
  simp only [get_relative_path, relative_path_in, hfound, if_true, substr_from]
  apply String.ext
  have hlen : directory.length = directory.data.length := rfl
  rw [← hrest, String.data_append, String.data_append, hlen, List.drop_left]

/-! ## Normalization of a base-specifier text -/

theorem find_single_char (c : Char) (l : List Char) (pos : Nat) :
    find_chars [c] l pos
      = if c ∈ l then some (pos + (l.takeWhile (fun ch => ch != c)).length) else none := by
  induction l generalizing pos with
  | nil => simp [find_chars]
  | cons x xs ih =>
    simp only [find_chars, List.isPrefixOf]
    by_cases hx : c = x
    · subst hx
      simp [List.takeWhile_cons]
    · have hne : (c == x) = false := by simpa using hx
      have hne2 : (x != c) = true := by
        simp only [bne_iff_ne, ne_eq]
        exact fun h => hx h.symm
      simp only [hne, Bool.false_and, Bool.false_eq_true, if_false, ih,
        List.takeWhile_cons, hne2, if_true, List.length_cons, List.mem_cons, hx, false_or]
      split
      · congr 1
        omega
      · rfl

theorem remove_template_parameters_eq (source : String) :
    remove_template_parameters source
      = String.mk (source.data.takeWhile (fun ch => ch != '<')) := by
  have hfind : std_find source "<"
      = if '<' ∈ source.data then
          some (0 + (source.data.takeWhile (fun ch => ch != '<')).length)
        else none := find_single_char '<' source.data 0
  simp only [remove_template_parameters, hfind]
  split
  · rename_i k hk
    split at hk
    · cases hk
      simp only [substr_to, Nat.zero_add]
      congr 1
      exact (List.prefix_iff_eq_take.mp (List.takeWhile_prefix _)).symm
    · cases hk
  · rename_i hk
    split at hk
    · cases hk
    · rename_i hnot
      have hall : source.data.takeWhile (fun ch => ch != '<') = source.data := by
        rw [List.takeWhile_eq_self_iff]
        intro x hx
        simp only [bne_iff_ne, ne_eq]
        intro hxe
        exact hnot (hxe ▸ hx)
      rw [hall]

theorem std_find_start_bool (haystack needle : String) :
    (std_find haystack needle == some 0) = needle.data.isPrefixOf haystack.data := by
  cases hp : needle.data.isPrefixOf haystack.data with
  | true =>
    have := (find_chars_start_iff needle.data haystack.data 0).mpr
      (List.isPrefixOf_iff_prefix.mp hp)
    simp [std_find, this]
  | false =>
    cases hf : (std_find haystack needle == some 0) with
    | false => rfl
    | true =>
      have h1 : find_chars needle.data haystack.data 0 = some 0 := by
        simpa [std_find] using hf
      have := List.isPrefixOf_iff_prefix.mpr
        ((find_chars_start_iff needle.data haystack.data 0).mp h1)
      rw [hp] at this
      cases this

/-- C22: for every base-specifier text, the symbol used for the lookup is the
text truncated at its first `<` (if any), then without one leading `class ` or
`struct ` keyword, then trimmed of surrounding whitespace; the result never
contains `<`, and `class Foo<int>` and `struct Foo` both normalize to `Foo`. -/
theorem base_specifier_normalization (text : String) :
    strip_declaration_type_from_class_declaration (remove_template_parameters text)
      = normalized_base_specifier text
    ∧ '<' ∉ (strip_declaration_type_from_class_declaration
        (remove_template_parameters text)).data
    ∧ strip_declaration_type_from_class_declaration
        (remove_template_parameters "class Foo<int>") = "Foo"
    ∧ strip_declaration_type_from_class_declaration
        (remove_template_parameters "struct Foo") = "Foo" := by
  have heq : strip_declaration_type_from_class_declaration (remove_template_parameters text)
      = normalized_base_specifier text := by
    rw [remove_template_parameters_eq]
    simp only [strip_declaration_type_from_class_declaration, normalized_base_specifier,
      std_find_start_bool, strip, substr_from]
    have h6 : "class ".length = 6 := by decide
    have h7 : "struct ".length = 7 := by decide
    rw [h6, h7]
    split
    · rfl
    · split <;> rfl
  refine ⟨heq, ?_, by decide, by decide⟩
  rw [heq]
  simp only [normalized_base_specifier]
  intro hmem
  have h1 := (List.dropWhile_sublist _).subset (List.mem_reverse.mp hmem)
  have h2 := (List.dropWhile_sublist _).subset (List.mem_reverse.mp h1)
  have h3 : '<' ∈ text.data.takeWhile (fun ch => ch != '<') := by
    split at h2
    · exact List.mem_of_mem_drop h2
    · split at h2
      · exact List.mem_of_mem_drop h2
      · exact h2
  have := List.mem_takeWhile_imp h3
  simp at this

/-! ## cpp_context of namespaces and functions -/

theorem splitOn_component (c rest : List Char) (hc : ':' ∉ c) :
    (c ++ rest).splitOn ':' = (rest.splitOn ':').modifyHead (fun piece => c ++ piece) := by
  induction c with
  | nil =>
    simp only [List.nil_append]
    cases rest.splitOn ':' <;> rfl
  | cons x xs ih =>
    have hx : (x == ':') = false := by
      have : x ≠ ':' := fun h => hc (by simp [h])
      simpa using this
    have hxs : ':' ∉ xs := fun h => hc (List.mem_cons_of_mem _ h)
    simp only [List.splitOn, List.cons_append, List.splitOnP_cons, hx, Bool.false_eq_true,
      if_false]
    have := ih hxs
    simp only [List.splitOn] at this
    rw [this, List.modifyHead_modifyHead]
    rfl

theorem scoped_name_data (components : List String) :
    (scoped_name components).data
      = (components.map (fun c => ':' :: ':' :: c.data)).flatten := by
  induction components with
  | nil => rfl
  | cons c rest ih =>
    simp only [scoped_name, String.data_append, ih, List.map_cons, List.flatten_cons]
    rfl

theorem splitOn_scoped (components : List String)
    (hc : ∀ c ∈ components, c ≠ "" ∧ ':' ∉ c.data) :
    ∃ pieces, ((components.map (fun c => ':' :: ':' :: c.data)).flatten).splitOn ':'
        = [] :: pieces
      ∧ pieces.filter (fun piece => piece ≠ []) = components.map String.data := by
  induction components with
  | nil => exact ⟨[], rfl, rfl⟩
  | cons c rest ih =>
    obtain ⟨pieces, hsplit, hfilter⟩ := ih (fun x hx => hc x (List.mem_cons_of_mem _ hx))
    obtain ⟨hne, hcolon⟩ := hc c (List.mem_cons_self _ _)
    have hdata : c.data ≠ [] := by
      intro h
      apply hne
      exact String.ext (by simp [h])
    refine ⟨[] :: c.data :: pieces, ?_, ?_⟩
    · simp only [List.map_cons, List.flatten_cons, List.cons_append]
      have h1 : ((':' : Char) == ':') = true := by decide
      simp only [List.splitOn, List.splitOnP_cons, h1, if_true]
      have := splitOn_component c.data
        ((rest.map (fun c => ':' :: ':' :: c.data)).flatten) hcolon
      simp only [List.splitOn] at this hsplit
      rw [this, hsplit]
      simp
    · simp only [List.filter_cons, hdata, ne_eq, not_true_eq_false, decide_False,
        Bool.false_eq_true, if_false, not_false_eq_true, decide_True, if_true, hfilter,
        List.map_cons]

theorem split_scoped_name (components : List String)
    (hc : ∀ c ∈ components, c ≠ "" ∧ ':' ∉ c.data) :
    split (scoped_name components) ':' = components := by
  obtain ⟨pieces, hsplit, hfilter⟩ := splitOn_scoped components hc
  simp only [split, scoped_name_data, hsplit]
  have hhead : List.filter (fun piece : List Char => decide (piece ≠ [])) ([] :: pieces)
      = List.filter (fun piece => decide (piece ≠ [])) pieces := by
    simp [List.filter_cons]
  rw [hhead, hfilter, List.map_map]
  conv => rhs; rw [← List.map_id components]
  apply List.map_congr_left
  intro c _
  rfl

theorem parent_context_of_scoped (components : List String) (acc : String) :
    components.foldl (fun stream part => stream ++ "::" ++ part) acc
      = acc ++ scoped_name components := by
  induction components generalizing acc with
  | nil => exact String.ext (by simp [scoped_name, String.data_append])
  | cons c rest ih =>
    simp only [List.foldl_cons, ih, scoped_name]
    exact String.ext (by simp [String.data_append])

theorem join_scoped (c : String) (rest : List String) :
    "::" ++ join (c :: rest) "::" = scoped_name (c :: rest) := by
  induction rest generalizing c with
  | nil =>
    exact String.ext (by simp [join, scoped_name, String.data_append, List.intercalate])
  | cons d rest ih =>
    have hd := congrArg String.data (ih d)
    apply String.ext
    simp only [join, scoped_name, String.data_append, List.map_cons] at hd ⊢
    simp only [List.intercalate, List.intersperse_cons_cons, List.flatten_cons] at hd ⊢
    rw [← hd]
    simp [List.append_assoc]

/-- C28: for a fully-qualified name `::c1::...::cn` built from n >= 1 non-empty
components without `:`, `NamespaceDefinition::cpp_context` returns
`::c1::...::c(n-1)` when n > 1 and `::` when n = 1, and
`FunctionDefinition::cpp_context` returns the same string for the same full
name. -/
theorem cpp_context_of_scoped_name (components : List String)
    (ns : NamespaceDefinition) (fn : FunctionDefinition)
    (_hne : components ≠ [])
    (hc : ∀ c ∈ components, c ≠ "" ∧ ':' ∉ c.data)
    (hns : ns.full_name = scoped_name components)
    (hfn : fn.full_name = scoped_name components) :
    ns.cpp_context
      = (if components.length > 1 then scoped_name components.dropLast else "::")
    ∧ fn.cpp_context = ns.cpp_context := by
  have hsplit := split_scoped_name components hc
  have hns_eq : ns.cpp_context
      = (if components.length > 1 then scoped_name components.dropLast else "::") := by
    simp only [NamespaceDefinition.cpp_context, hns, hsplit]
    split
    · rw [parent_context_of_scoped]
      exact String.ext (by simp [String.data_append])
    · rfl
  refine ⟨hns_eq, ?_⟩
  rw [hns_eq]
  simp only [FunctionDefinition.cpp_context, hfn, hsplit]
  split
  · rename_i hlen
    cases hdrop : components.dropLast with
    | nil =>
      have := congrArg List.length hdrop
      simp only [List.length_dropLast, List.length_nil] at this
      omega
    | cons c rest => exact join_scoped c rest
  · rename_i hlen
    have hdrop : components.dropLast = [] := by
      apply List.eq_nil_of_length_eq_zero
      simp only [List.length_dropLast]
      omega
    rw [hdrop]
    decide

/-- C28, at a concrete name: both functions return `::A::B` for `::A::B::C`. -/
theorem cpp_context_of_scoped_name_witness :
    (["A", "B", "C"] : List String) ≠ []
    ∧ (∀ c ∈ (["A", "B", "C"] : List String), c ≠ "" ∧ ':' ∉ c.data)
    ∧ scoped_name ["A", "B", "C"] = "::A::B::C"
    ∧ NamespaceDefinition.cpp_context { full_name := "::A::B::C" } = "::A::B"
    ∧ FunctionDefinition.cpp_context { full_name := "::A::B::C" }
        = NamespaceDefinition.cpp_context { full_name := "::A::B::C" } :=
  ⟨by decide, by decide, by decide, by decide,
    (cpp_context_of_scoped_name ["A", "B", "C"] { full_name := "::A::B::C" }
      { full_name := "::A::B::C" } (by decide) (by decide) (by decide) (by decide)).2⟩

/-! ## Classes: what a callback can change -/

theorem map_core_update_at (f : ClassContext → ClassContext) (l : List ClassContext) (i : Nat)
    (h : ∀ c, class_core (f c) = class_core c) :
    (update_at f l i).map class_core = l.map class_core :=
  map_update_at f class_core l i h

theorem update_template_parameters_cores (self : TwiliParser)
    (f : List TemplateParameter → List TemplateParameter) (ctx : InvokableRef) :
    (update_template_parameters self f ctx).classes.map class_core
      = self.classes.map class_core := by
  cases ctx with
  | constructor_at cls idx => exact map_core_update_at _ _ _ (fun _ => rfl)
  | method_at cls idx => exact map_core_update_at _ _ _ (fun _ => rfl)
  | function_at idx => rfl

theorem try_to_visit_template_parameter_cores (eng : TypeEngine) (self : TwiliParser)
    (ctx : InvokableRef) (cur : CursorInfo) (parent : CXCursor) :
    (try_to_visit_template_parameter eng self ctx cur parent).1.classes.map class_core
      = self.classes.map class_core := by
  simp only [try_to_visit_template_parameter]
  split
  · exact update_template_parameters_cores self _ ctx
  · split
    · split
      · exact update_template_parameters_cores self _ ctx
      · rfl
    · rfl
  · rfl
  · rfl

theorem handle_class_template_context_cores (eng : TypeEngine) (self : TwiliParser)
    (cur : CursorInfo) (parent : CXCursor) :
    (handle_class_template_context eng self cur parent).classes.map class_core
      = self.classes.map class_core := by
  simp only [handle_class_template_context]
  split
  · split
    · exact map_core_update_at _ _ _ (fun _ => rfl)
    · rfl
  · rfl

theorem visit_member_classes (eng : TypeEngine) (self next : TwiliParser)
    (current_class : Nat) (cur : CursorInfo) (result : CXChildVisitResult)
    (hstep : visit_member eng self current_class cur = Except.ok (next, result)) :
    next.classes.map class_core = self.classes.map class_core
    ∨ (cur.cursor.kind = CXCursorKind.CXXBaseSpecifier
        ∧ next = visit_base_class self current_class cur.spelling) := by
  simp only [visit_member] at hstep
  split at hstep
  · cases hstep
    left
    exact map_core_update_at _ _ _ (fun _ => rfl)
  · rename_i hkind
    cases hstep
    right
    exact ⟨hkind, rfl⟩
  · cases hstep
    left
    exact map_core_update_at _ _ _ (fun _ => rfl)
  all_goals first
    | (cases hstep; left; rfl)
    | (left
       simp only [visit_method] at hstep
       split at hstep
       · cases hstep
       · split at hstep
         · cases hstep
           rfl
         · split at hstep <;>
             (cases hstep; exact map_core_update_at _ _ _ (fun _ => rfl)))
    | (left
       simp only [visit_field] at hstep
       split at hstep
       · cases hstep
       · cases hstep
         exact map_core_update_at _ _ _ (fun c => by split <;> rfl))

theorem dispatch_classes (eng : TypeEngine) (self next : TwiliParser)
    (cur : CursorInfo) (parent : CXCursor) (result : CXChildVisitResult)
    (hstep : dispatch eng self cur parent = Except.ok (next, result)) :
    next.classes.map class_core = self.classes.map class_core
    ∨ (is_class_kind cur.cursor.kind = true ∧ next = (visit_class self cur parent).1)
    ∨ (∃ i, cur.cursor.kind = CXCursorKind.CXXBaseSpecifier
        ∧ next = visit_base_class self i cur.spelling) := by
  simp only [dispatch] at hstep
  split at hstep
  · rw [ok_fst hstep]
    left
    simp only [visit_namespace]
    split <;> rfl
  · split at hstep
    · rw [ok_fst hstep]
      left
      rw [visit_typedef_eq]
      split
      · split <;> rfl
      · rfl
    · split at hstep
      · rw [ok_fst hstep]
        left
        simp only [visit_enum]
        split <;> rfl
      · split at hstep
        · rw [ok_fst hstep]
          left
          simp only [visit_enum_constant]
          split <;> rfl
        · split at hstep
          · rename_i hkind
            right
            left
            refine ⟨?_, ok_fst hstep⟩
            rcases hkind with h | h | h <;> simp [is_class_kind, h]
          · split at hstep
            · rcases visit_member_classes eng self next _ cur result hstep with h | ⟨hk, h⟩
              · exact Or.inl h
              · exact Or.inr (Or.inr ⟨_, hk, h⟩)
            · split at hstep
              · split at hstep
                · cases hstep
                · cases hstep
                  left
                  rfl
              · cases hstep
                left
                rfl

theorem visitor_classes (eng : TypeEngine) (self next : TwiliParser)
    (cur : CursorInfo) (parent : CXCursor) (result : CXChildVisitResult)
    (hstep : visitor eng self cur parent = Except.ok (next, result)) :
    ∃ mid : TwiliParser,
      mid.classes.map class_core = self.classes.map class_core
      ∧ (next.classes.map class_core = mid.classes.map class_core
        ∨ (is_class_kind cur.cursor.kind = true ∧ next = (visit_class mid cur parent).1)
        ∨ (∃ i, cur.cursor.kind = CXCursorKind.CXXBaseSpecifier
            ∧ next = visit_base_class mid i cur.spelling)) := by
  simp only [visitor] at hstep
  split at hstep
  · have h1 := handle_class_template_context_cores eng self cur parent
    split at hstep
    · rename_i ctx hctx
      have h2 := try_to_visit_template_parameter_cores eng
        (handle_class_template_context eng self cur parent) ctx cur parent
      split at hstep
      · rename_i s r heq
        cases hstep
        rw [heq] at h2
        exact ⟨self, rfl, Or.inl (h2.trans h1)⟩
      · rename_i s heq
        rw [heq] at h2
        exact ⟨s, h2.trans h1, dispatch_classes eng s next cur parent result hstep⟩
    · exact ⟨_, h1, dispatch_classes eng _ next cur parent result hstep⟩
  · cases hstep
    exact ⟨self, rfl, Or.inl rfl⟩

theorem map_update_at_comm {α β : Type} (f : α → α) (g : β → β) (h : α → β)
    (l : List α) (i : Nat) (hfg : ∀ x, h (f x) = g (h x)) :
    (update_at f l i).map h = update_at g (l.map h) i := by
  induction l generalizing i with
  | nil => simp [update_at]
  | cons x xs ih =>
    cases i with
    | zero => simp [update_at, hfg]
    | succ i => simp [update_at, ih]

theorem core_ok_mono (names names' : List String) (k : ClassCore)
    (hsub : ∀ b ∈ names, b ∈ names') (h : core_ok names k) : core_ok names' k :=
  ⟨h.1, h.2.1, fun b hb => hsub b (h.2.2 b hb)⟩

theorem cores_ok_update (ks : List ClassCore) (g : ClassCore → ClassCore) (i : Nat)
    (hname : ∀ k, (g k).full_name = k.full_name)
    (hstep : ∀ k ∈ ks, core_ok (ks.map (fun r => r.full_name)) k →
      core_ok (ks.map (fun r => r.full_name)) (g k))
    (h : cores_ok ks) : cores_ok (update_at g ks i) := by
  intro k hk
  rw [map_update_at g (fun r => r.full_name) ks i hname]
  rcases mem_update_at g ks i k hk with hmem | ⟨y, hy, rfl⟩
  · exact h k hmem
  · exact hstep y hy (h y hy)

theorem cores_ok_append (ks : List ClassCore) (k : ClassCore)
    (hk : core_ok ((ks ++ [k]).map (fun r => r.full_name)) k)
    (h : cores_ok ks) : cores_ok (ks ++ [k]) := by
  intro x hx
  rcases List.mem_append.mp hx with hx | hx
  · refine core_ok_mono _ _ x ?_ (h x hx)
    intro b hb
    simp only [List.map_append, List.mem_append]
    exact Or.inl hb
  · simp only [List.mem_singleton] at hx
    subst hx
    exact hk

theorem inheritance_ok_of_cores (a b : TwiliParser)
    (hcores : b.classes.map class_core = a.classes.map class_core)
    (h : inheritance_ok a) : inheritance_ok b := by
  simp only [inheritance_ok, hcores]
  exact h

theorem inheritance_ok_visit_class (self : TwiliParser) (cur : CursorInfo)
    (parent : CXCursor) (hkind : is_class_kind cur.cursor.kind = true)
    (h : inheritance_ok self) : inheritance_ok (visit_class self cur parent).1 := by
  simp only [visit_class]
  split
  · exact h
  · split
    · simp only [inheritance_ok]
      rw [map_update_at_comm _
        (fun k : ClassCore => { k with cursors := k.cursors ++ [cur.cursor] }) class_core]
      · refine cores_ok_update _ _ _ (fun _ => rfl) ?_ h
        intro k _ hk
        refine ⟨?_, hk.2.1, hk.2.2⟩
        intro x hx
        rcases List.mem_append.mp hx with hx | hx
        · exact hk.1 x hx
        · simp only [List.mem_singleton] at hx
          subst hx
          exact hkind
      · intro c
        simp only [class_core]
        split <;> rfl
    · simp only [inheritance_ok, register_type, List.map_append, List.map_cons, List.map_nil]
      refine cores_ok_append _ _ ?_ h
      refine ⟨?_, ?_, ?_⟩
      · intro x hx
        simp only [class_core, List.mem_singleton] at hx
        subst hx
        exact hkind
      · exact List.Sublist.refl _
      · intro b hb
        simp [class_core] at hb

theorem inheritance_ok_visit_base_class (self : TwiliParser) (current_class : Nat)
    (cursor_text : String) (h : inheritance_ok self) :
    inheritance_ok (visit_base_class self current_class cursor_text) := by
  simp only [visit_base_class]
  split
  · exact h
  · split
    · split
      · exact h
      · rename_i base_class _ bc hbc
        simp only [inheritance_ok]
        rw [map_update_at_comm _
          (fun k : ClassCore =>
            { k with
              bases := k.bases ++ [bc.klass.full_name]
              known_bases := k.known_bases ++ [bc.klass.full_name] }) class_core _ _
          (fun _ => rfl)]
        refine cores_ok_update _ _ _ (fun _ => rfl) ?_ h
        intro k _ hk
        refine ⟨hk.1, List.Sublist.append hk.2.1 (List.Sublist.refl _), ?_⟩
        intro b hb
        rcases List.mem_append.mp hb with hb | hb
        · exact hk.2.2 b hb
        · simp only [List.mem_singleton] at hb
          subst hb
          simp only [List.map_map, List.mem_map]
          exact ⟨bc, List.getElem?_mem hbc, rfl⟩
    · simp only [inheritance_ok]
      rw [map_update_at_comm _
        (fun k : ClassCore =>
          { k with
            bases := k.bases
              ++ [strip_declaration_type_from_class_declaration
                (remove_template_parameters cursor_text)] }) class_core _ _ (fun _ => rfl)]
      refine cores_ok_update _ _ _ (fun _ => rfl) ?_ h
      intro k _ hk
      exact ⟨hk.1, hk.2.1.trans (List.sublist_append_left _ _), hk.2.2⟩

theorem inheritance_ok_visitor (eng : TypeEngine) (self next : TwiliParser)
    (cur : CursorInfo) (parent : CXCursor) (result : CXChildVisitResult)
    (hstep : visitor eng self cur parent = Except.ok (next, result))
    (h : inheritance_ok self) : inheritance_ok next := by
  obtain ⟨mid, hmid, hcases⟩ := visitor_classes eng self next cur parent result hstep
  have hmid_ok : inheritance_ok mid := inheritance_ok_of_cores self mid hmid h
  rcases hcases with hc | ⟨hkind, hnext⟩ | ⟨i, _, hnext⟩
  · exact inheritance_ok_of_cores mid next hc hmid_ok
  · rw [hnext]
    exact inheritance_ok_visit_class mid cur parent hkind hmid_ok
  · rw [hnext]
    exact inheritance_ok_visit_base_class mid i cur.spelling hmid_ok

theorem inheritance_ok_reachable (eng : TypeEngine) (self : TwiliParser)
    (h : Reachable eng self) : inheritance_ok self := by
  induction h with
  | start directories =>
    intro k hk
    simp [initial] at hk
  | step cur parent _ hstep ih => exact inheritance_ok_visitor eng _ _ cur parent _ hstep ih

/-! ## Resolved bases -/

/-- C25: in every state reachable from a fresh parser by visitor callbacks, the
`known_bases` of each class are a subsequence of its `bases` (the same
entries in the same relative order), and every entry of `known_bases` is the
fully-qualified name of a class record of the registry. -/
theorem known_bases_consistent (eng : TypeEngine) (self : TwiliParser)
    (h : Reachable eng self) :
    ∀ c ∈ self.classes,
      c.klass.known_bases.Sublist c.klass.bases
      ∧ ∀ b ∈ c.klass.known_bases, ∃ r ∈ self.classes, r.klass.full_name = b := by
  intro c hc
  have hok := inheritance_ok_reachable eng self h (class_core c) (List.mem_map_of_mem _ hc)
  refine ⟨hok.2.1, ?_⟩
  intro b hb
  have hmem := hok.2.2 b hb
  simp only [List.map_map, List.mem_map] at hmem
  obtain ⟨r, hr, hname⟩ := hmem
  exact ⟨r, hr, hname⟩

/-- C25, at a concrete run: after `class Base {}; class Derived : public Base {};`
the resolved bases of every class are consistent. -/
theorem known_bases_consistent_witness :
    run plain_engine (initial ["/src"]) derived_events = Except.ok derived_state
    ∧ ∀ c ∈ derived_state.classes,
        c.klass.known_bases.Sublist c.klass.bases
        ∧ ∀ b ∈ c.klass.known_bases, ∃ r ∈ derived_state.classes, r.klass.full_name = b :=
  ⟨by rfl,
    known_bases_consistent plain_engine derived_state
      (reachable_run plain_engine derived_events (initial ["/src"]) derived_state
        (Reachable.start ["/src"]) (by rfl))⟩

/-! ## Nested classes under a non-public parent -/

theorem class_kind_ne_translation_unit (kind : CXCursorKind)
    (h : is_class_kind kind = true) : kind ≠ CXCursorKind.TranslationUnit := by
  intro hk
  subst hk
  revert h
  decide

/-- C23: a class, struct or class-template callback whose parent cursor
identifies a known class whose current access is not public registers
nothing: `visit_class` returns the parser unchanged (no class record, no type
entry, no remembered cursor) with `CXChildVisit_Continue`. This holds in
every reachable state, where the cursors remembered for classes are class,
struct or class-template cursors, and in any state when the parent is not
the translation unit. -/
theorem visit_class_blocked_by_access (eng : TypeEngine) :
    (∀ (self : TwiliParser) (cur : CursorInfo) (parent : CXCursor) (i : Nat)
        (pc : ClassContext),
      parent.kind ≠ CXCursorKind.TranslationUnit →
      find_class_for self parent = some i →
      self.classes[i]? = some pc →
      pc.current_access ≠ CX_CXXAccessSpecifier.CX_CXXPublic →
      visit_class self cur parent = (self, CXChildVisitResult.CXChildVisit_Continue))
    ∧ (∀ (self : TwiliParser) (cur : CursorInfo) (parent : CXCursor) (i : Nat)
        (pc : ClassContext),
      Reachable eng self →
      find_class_for self parent = some i →
      self.classes[i]? = some pc →
      pc.current_access ≠ CX_CXXAccessSpecifier.CX_CXXPublic →
      visit_class self cur parent = (self, CXChildVisitResult.CXChildVisit_Continue)) := by
  have hfun : ∀ (self : TwiliParser) (cur : CursorInfo) (parent : CXCursor) (i : Nat)
      (pc : ClassContext),
      parent.kind ≠ CXCursorKind.TranslationUnit →
      find_class_for self parent = some i →
      self.classes[i]? = some pc →
      pc.current_access ≠ CX_CXXAccessSpecifier.CX_CXXPublic →
      visit_class self cur parent = (self, CXChildVisitResult.CXChildVisit_Continue) := by
    intro self cur parent i pc hkind hfind hget haccess
    have hname : class_full_name self cur parent = none := by
      simp only [class_full_name, hkind, if_false, hfind, hget, haccess, ne_eq,
        not_false_eq_true, if_true]
    simp only [visit_class, hname]
  refine ⟨hfun, ?_⟩
  intro self cur parent i pc hreach hfind hget haccess
  refine hfun self cur parent i pc ?_ hfind hget haccess
  obtain ⟨x, hx, hp, _⟩ := find_index_some _ _ _ hfind
  have hok := inheritance_ok_reachable eng self hreach (class_core x)
    (List.mem_map_of_mem _ (List.getElem?_mem hx))
  simp only [ClassContext.has_cursor, List.any_eq_true, decide_eq_true_eq] at hp
  obtain ⟨candidate, hcand, heq⟩ := hp
  subst heq
  exact class_kind_ne_translation_unit _ (hok.1 _ hcand)

/-- C23, at a concrete registry: `::Base` is a class (current access private)
known through the cursor 1; a nested `struct Inner` under that cursor is not
registered. -/
theorem visit_class_blocked_by_access_witness :
    ({ kind := CXCursorKind.ClassDecl, handle := 1 } : CXCursor).kind
        ≠ CXCursorKind.TranslationUnit
    ∧ find_class_for derived_state { kind := CXCursorKind.ClassDecl, handle := 1 } = some 0
    ∧ (derived_state.classes[0]?).map (fun c => c.current_access)
        = some CX_CXXAccessSpecifier.CX_CXXPrivate
    ∧ visit_class derived_state (declaration CXCursorKind.StructDecl 9 "Inner" "/src/a.hpp")
        { kind := CXCursorKind.ClassDecl, handle := 1 }
      = (derived_state, CXChildVisitResult.CXChildVisit_Continue) :=
  ⟨by decide, by decide, by decide,
    (visit_class_blocked_by_access plain_engine).1 derived_state
      (declaration CXCursorKind.StructDecl 9 "Inner" "/src/a.hpp")
      { kind := CXCursorKind.ClassDecl, handle := 1 } 0
      { klass := { name := "Base", full_name := "::Base", type := "class",
                   from_file := "/src/a.hpp", include_path := "/a.hpp" }
        current_access := CX_CXXAccessSpecifier.CX_CXXPrivate
        cursors := [{ kind := CXCursorKind.ClassDecl, handle := 1 }] }
      (by decide) (by decide) (by decide) (by decide)⟩

/-! ## Bases under repeated class callbacks -/

end Twili
